import Mathlib

/-!
# Tariff system: rule engine, cost calculator and optimal-tariff search

A shallow embedding of the calculation core of the repository
(`utils/Types.hpp`, `model/Rule.hpp`, `model/Tariff.hpp`, `model/Order.hpp`,
`model/Parameter.hpp`, `core/RuleEngine.hpp`, `core/CostCalculator.hpp`,
`core/OptimalSearch.hpp`) and theorems about it.

Conventions of the embedding:

* A C++ exception is the `Except.error` branch; it carries the text of `what()`.
  Every exception thrown by the core is a `CalculationException`, whose
  constructor puts a fixed text in front of the message.
* `Integer` (`int`) is `Int`; the core does no integer arithmetic on it.
* `Double` is modelled by the type `Double` below, IEEE 754 binary64: NaN, the
  two infinities, the two zeros and the finite values, a finite value being
  the rational number it denotes. Every arithmetic operation rounds its exact
  result to the nearest double, ties to even (`Double.ofRat`), with gradual
  underflow, overflow to an infinity and the sign rules of zero. The type
  holds every rational, also those that no `double` denotes; the theorems hold
  for all of them, and `Double.ofRat q = Double.fin q` says that `q` is a
  double.
* `std::map` is a key-ordered association list (`StdMap`).
* `std::sort` is a parameter (`StdSort`): any function that meets the contract
  `IsStdSort`. The order of equivalent elements is left open, as in C++.
  `libstdcxxSort` is the `std::sort` of GCC's libstdc++ (introsort with a
  final insertion sort), which shows what becomes of equivalent elements.
* The system clock read by `Tariff::isValidNow` is the parameter `today`.
* Methods of `CostCalculator` and `OptimalSearcher` return the order as it
  stands after the call together with their result (state passing); so do the
  methods of `Order` and `Parameter` that can raise.
-/

namespace TariffSystem

/-! ## utils/Types.hpp -/

abbrev Integer := Int

/-- Calendar date `std::chrono::year_month_day`, compared field by field. -/
structure Date where
  year : Int
  month : Nat
  day : Nat
deriving DecidableEq, Repr

/-- Strict order of `year_month_day`: lexicographic on year, month, day. -/
def Date.lt (a b : Date) : Bool :=
  decide (a.year < b.year) ||
    (decide (a.year = b.year) &&
      (decide (a.month < b.month) ||
        (decide (a.month = b.month) && decide (a.day < b.day))))

/-- Order `<=` of `year_month_day`. -/
def Date.le (a b : Date) : Bool := Date.lt a b || decide (a = b)

/-- Values of the C++ type `double`, IEEE 754 binary64: NaN, the two
infinities, negative zero, and the finite values, `fin 0` being `+0.0`. The
results of the arithmetic operations are of the form `ofRat q`, a value of the
binary64 grid. -/
inductive Double where
  | nan
  | negInf
  | posInf
  | negZero
  | fin (q : ℚ)
deriving DecidableEq

/-- Largest finite `double`, `std::numeric_limits<double>::max()`. -/
def DBL_MAX : ℚ := (2 ^ 53 - 1) * 2 ^ 971

namespace Double

/-- The power `2 ^ e` for an integer exponent. -/
def pow2 (e : Int) : ℚ :=
  if 0 ≤ e then ((2 ^ e.toNat : Nat) : ℚ) else 1 / ((2 ^ (-e).toNat : Nat) : ℚ)

/-- Binary logarithm of a natural number, rounded down, by repeated halving. -/
def log2Aux : Nat → Nat → Nat
  | 0, _ => 0
  | fuel + 1, n => if 2 ≤ n then log2Aux fuel (n / 2) + 1 else 0

def log2 (n : Nat) : Nat := log2Aux n n

/-- Binary exponent of a positive rational: the `e` with `2 ^ e ≤ q < 2 ^ (e + 1)`. -/
def floorLog2 (q : ℚ) : Int :=
  let e : Int := (log2 q.num.natAbs : Int) - (log2 q.den : Int)
  if pow2 e ≤ q then e else e - 1

/-- Nearest integer, a tie going to the even neighbour. -/
def roundHalfEven (x : ℚ) : Int :=
  let f := Rat.floor x
  let r := x - f
  if r < 1 / 2 then f else if 1 / 2 < r then f + 1 else if f % 2 = 0 then f else f + 1

/-- Zero of the given sign. -/
def zero (negative : Bool) : Double := if negative then negZero else fin 0

/-- Infinity of the given sign. -/
def inf (negative : Bool) : Double := if negative then negInf else posInf

/-- Rounding of the exact result `q` of an operation to `double`, in the
default mode round-to-nearest-even: 53 significant bits, exponents from
`-1022` (below that the subnormal spacing `2 ^ -1074`), an infinity when the
rounded magnitude exceeds `DBL_MAX`, a zero of the sign of `q` on underflow. -/
def ofRat (q : ℚ) : Double :=
  let e := max (floorLog2 |q|) (-1022)
  let ulp := pow2 (e - 52)
  let magnitude : ℚ := (roundHalfEven (|q| / ulp) : ℚ) * ulp
  if DBL_MAX < magnitude then inf (decide (q < 0))
  else if magnitude = 0 then zero (decide (q < 0))
  else fin (if q < 0 then -magnitude else magnitude)

/-- Conversion `static_cast<Double>(int)`; exact for every 32-bit `int`. -/
def ofInt (n : Int) : Double := fin n

/-- Conversion of a `size_t` to `double`. -/
def ofNat (n : Nat) : Double := ofRat n

/-- The rational number that a finite `double` denotes; 0 for the others. -/
def toRat : Double → ℚ
  | fin q => q
  | _ => 0

/-- The value is finite: neither NaN nor an infinity. -/
def isFinite : Double → Bool
  | fin _ => true
  | negZero => true
  | _ => false

/-- The rational `q` is a finite value of `double`: a significand below
`2 ^ 53` times a power of 2 with an exponent from `-1074` to `971`, of either
sign. -/
def IsDouble (q : ℚ) : Prop :=
  ∃ (m : Nat) (e : Int), m < 2 ^ 53 ∧ -1074 ≤ e ∧ e ≤ 971 ∧ |q| = (m : ℚ) * pow2 e

/-- The value is an infinity. -/
def isInfinite : Double → Bool
  | negInf => true
  | posInf => true
  | _ => false

/-- The value is a zero, of either sign. -/
def isZero : Double → Bool
  | negZero => true
  | fin q => decide (q = 0)
  | _ => false

/-- The sign bit of a value that is not NaN. -/
def isNegative : Double → Bool
  | negInf => true
  | negZero => true
  | fin q => decide (q < 0)
  | _ => false

/-- Unary minus. -/
def neg : Double → Double
  | nan => nan
  | negInf => posInf
  | posInf => negInf
  | negZero => fin 0
  | fin q => if q = 0 then negZero else fin (-q)

/-- Operator `+` of `double`. The sum of two negative zeros is the negative
zero; every other exact zero sum is `+0.0`. -/
def add : Double → Double → Double
  | nan, _ => nan
  | _, nan => nan
  | posInf, negInf => nan
  | negInf, posInf => nan
  | posInf, _ => posInf
  | _, posInf => posInf
  | negInf, _ => negInf
  | _, negInf => negInf
  | negZero, negZero => negZero
  | negZero, fin b => ofRat b
  | fin a, negZero => ofRat a
  | fin a, fin b => ofRat (a + b)

/-- Operator `-` of `double`. -/
def sub (a b : Double) : Double := add a (neg b)

/-- Operator `*` of `double`. The sign of the result is the exclusive or of the
signs; an infinity times a zero is NaN. -/
def mul (a b : Double) : Double :=
  if a = nan ∨ b = nan then nan
  else if a.isInfinite || b.isInfinite then
    if a.isZero || b.isZero then nan else inf (xor a.isNegative b.isNegative)
  else if a.isZero || b.isZero then zero (xor a.isNegative b.isNegative)
  else ofRat (a.toRat * b.toRat)

/-- Operator `/` of `double`. The sign of the result is the exclusive or of the
signs; `0 / 0` and `inf / inf` are NaN, a non-zero value over a zero is an
infinity. -/
def div (a b : Double) : Double :=
  if a = nan ∨ b = nan then nan
  else if a.isInfinite then
    if b.isInfinite then nan else inf (xor a.isNegative b.isNegative)
  else if b.isInfinite then zero (xor a.isNegative b.isNegative)
  else if b.isZero then
    if a.isZero then nan else inf (xor a.isNegative b.isNegative)
  else if a.isZero then zero (xor a.isNegative b.isNegative)
  else ofRat (a.toRat / b.toRat)

/-- Operator `<` of `double`; the two zeros compare equal. -/
def lt : Double → Double → Bool
  | nan, _ => false
  | _, nan => false
  | negInf, negInf => false
  | negInf, _ => true
  | _, negInf => false
  | posInf, _ => false
  | negZero, posInf => true
  | fin _, posInf => true
  | negZero, negZero => false
  | negZero, fin b => decide (0 < b)
  | fin a, negZero => decide (a < 0)
  | fin a, fin b => decide (a < b)

/-- Operator `==` of `double`; the two zeros compare equal. -/
def eq : Double → Double → Bool
  | nan, _ => false
  | _, nan => false
  | negInf, negInf => true
  | posInf, posInf => true
  | negZero, negZero => true
  | negZero, fin b => decide (0 = b)
  | fin a, negZero => decide (a = 0)
  | fin a, fin b => decide (a = b)
  | _, _ => false

/-- Operator `<=` of `double`. -/
def le (a b : Double) : Bool := lt a b || eq a b

/-- Operator `>` of `double`. -/
def gt (a b : Double) : Bool := lt b a

/-- Operator `>=` of `double`. -/
def ge (a b : Double) : Bool := le b a

/-- Operator `!=` of `double`. -/
def ne (a b : Double) : Bool := !eq a b

end Double

/-- The variant `ParameterValue`; `empty` is `std::monostate`. -/
inductive ParameterValue where
  | empty
  | integer (v : Integer)
  | double (v : Double)
  | string (v : String)
  | boolean (v : Bool)
  | date (v : Date)
deriving DecidableEq

/-- Test `std::holds_alternative<std::monostate>`. -/
def ParameterValue.isEmpty : ParameterValue → Bool
  | .empty => true
  | _ => false

inductive ArithmeticOperator where
  | ADD | SUBTRACT | MULTIPLY | DIVIDE
deriving DecidableEq

inductive ComparisonOperator where
  | LESS_THAN | LESS_EQUAL | EQUAL | GREATER_EQUAL | GREATER_THAN | NOT_EQUAL
deriving DecidableEq

inductive LogicalOperator where
  | AND | OR | NOT
deriving DecidableEq

inductive OrderStatus where
  | DRAFT | CALCULATED | CONFIRMED | COMPLETED | CANCELLED
deriving DecidableEq

inductive ParameterType where
  | INTEGER | DOUBLE | STRING | BOOLEAN | ENUMERATION | DATE
deriving DecidableEq

def GetDoubleValue : ParameterValue → Option Double
  | .double v => some v
  | .integer v => some (Double.ofInt v)
  | _ => none

def GetStringValue : ParameterValue → Option String
  | .string v => some v
  | _ => none

def GetBooleanValue : ParameterValue → Option Bool
  | .boolean v => some v
  | _ => none

/-- Text of `what()` of a `TariffSystemException`. -/
def TariffSystemException (message : String) : String := message

/-- Text of `what()` of a `CalculationException`. -/
def CalculationException (message : String) : String :=
  TariffSystemException ("Ошибка вычисления: " ++ message)

/-- Text of `what()` of a `ParameterException`. -/
def ParameterException (message : String) : String :=
  TariffSystemException ("Ошибка параметра: " ++ message)

/-! ## std::map -/

/-- A `std::map<Integer, ν>` as an association list. -/
abbrev StdMap (ν : Type) := List (Integer × ν)

namespace StdMap

/-- Lookup `m.find(k)`; `none` stands for `m.end()`. -/
def find {ν : Type} : StdMap ν → Integer → Option ν
  | [], _ => none
  | (k, v) :: rest, key => if key = k then some v else find rest key

/-- Assignment `m[k] = v`: replaces the entry of `k` or inserts it in key order. -/
def set {ν : Type} : StdMap ν → Integer → ν → StdMap ν
  | [], key, value => [(key, value)]
  | (k, v) :: rest, key, value =>
    if key < k then (key, value) :: (k, v) :: rest
    else if key = k then (key, value) :: rest
    else (k, v) :: set rest key value

end StdMap

/-! ## model/Rule.hpp -/

/-- Evaluation context: values of parameters and of named constants. -/
structure Context where
  parameters : StdMap ParameterValue
  constants : List (String × ParameterValue)

namespace Context

/-- A default-constructed `Context`. -/
def new : Context := { parameters := [], constants := [] }

def setParameter (context : Context) (parameterId : Integer)
    (value : ParameterValue) : Context :=
  { context with parameters := context.parameters.set parameterId value }

def getParameter (context : Context) (parameterId : Integer) :
    Option ParameterValue :=
  context.parameters.find parameterId

def getConstant (context : Context) (name : String) : Option ParameterValue :=
  (context.constants.find? (fun kv => kv.1 == name)).map (fun kv => kv.2)

end Context

/-- The expression classes: `ConstantExpression`, `ParameterExpression`,
`ArithmeticExpression`, `ComparisonExpression`, `LogicalExpression`. -/
inductive Expression where
  | constant (value : ParameterValue)
  | parameter (parameterId : Integer)
  | arithmetic (op : ArithmeticOperator) (left right : Expression)
  | comparison (op : ComparisonOperator) (left right : Expression)
  | logical (op : LogicalOperator) (operands : List Expression)

/-- The `switch` of `ArithmeticExpression::evaluate`. -/
def applyArithmetic (op : ArithmeticOperator) (leftVal rightVal : Double) :
    Except String ParameterValue :=
  match op with
  | .ADD => .ok (.double (Double.add leftVal rightVal))
  | .SUBTRACT => .ok (.double (Double.sub leftVal rightVal))
  | .MULTIPLY => .ok (.double (Double.mul leftVal rightVal))
  | .DIVIDE =>
    if Double.eq rightVal (Double.fin 0) then
      .error (CalculationException "Деление на ноль")
    else .ok (.double (Double.div leftVal rightVal))

/-- The `switch` of `ComparisonExpression::evaluate`. -/
def applyComparison (op : ComparisonOperator) (leftVal rightVal : Double) : Bool :=
  match op with
  | .LESS_THAN => Double.lt leftVal rightVal
  | .LESS_EQUAL => Double.le leftVal rightVal
  | .EQUAL => Double.eq leftVal rightVal
  | .GREATER_EQUAL => Double.ge leftVal rightVal
  | .GREATER_THAN => Double.gt leftVal rightVal
  | .NOT_EQUAL => Double.ne leftVal rightVal

mutual

/-- The virtual method `Expression::evaluate`. -/
def Expression.evaluate (context : Context) :
    Expression → Except String ParameterValue
  | .constant value => .ok value
  | .parameter parameterId =>
    match context.getParameter parameterId with
    | none =>
      .error (CalculationException
        ("Параметр " ++ toString parameterId ++ " не найден в контексте"))
    | some value => .ok value
  | .arithmetic op left right =>
    match Expression.evaluate context left with
    | .error e => .error e
    | .ok l =>
      match Expression.evaluate context right with
      | .error e => .error e
      | .ok r =>
        match GetDoubleValue l, GetDoubleValue r with
        | some leftVal, some rightVal => applyArithmetic op leftVal rightVal
        | _, _ =>
          .error (CalculationException
            "Некорректные аргументы арифметической операции")
  | .comparison op left right =>
    match Expression.evaluate context left with
    | .error e => .error e
    | .ok l =>
      match Expression.evaluate context right with
      | .error e => .error e
      | .ok r =>
        match GetDoubleValue l, GetDoubleValue r with
        | some leftVal, some rightVal =>
          .ok (.boolean (applyComparison op leftVal rightVal))
        | _, _ =>
          .error (CalculationException
            "Некорректные аргументы операции сравнения")
  | .logical .NOT operands =>
    match operands with
    | [operand] =>
      match Expression.evaluate context operand with
      | .error e => .error e
      | .ok v =>
        match GetBooleanValue v with
        | none =>
          .error (CalculationException
            "Некорректный аргумент логической операции NOT")
        | some val => .ok (.boolean (!val))
    | _ => .error (CalculationException "Операция NOT требует один операнд")
  | .logical .AND operands =>
    Expression.evaluateOperands context true true operands
  | .logical .OR operands =>
    Expression.evaluateOperands context false false operands

/-- The loop of `LogicalExpression::evaluate` over the operands not yet
visited: `isAnd` is `operator_ == LogicalOperator::AND` and `result` the
variable `result`, which starts as `isAnd`. -/
def Expression.evaluateOperands (context : Context) (isAnd : Bool)
    (result : Bool) : List Expression → Except String ParameterValue
  | [] => .ok (.boolean result)
  | operand :: rest =>
    match Expression.evaluate context operand with
    | .error e => .error e
    | .ok v =>
      match GetBooleanValue v with
      | none =>
        .error (CalculationException "Некорректный аргумент логической операции")
      | some val =>
        if isAnd then
          (if (result && val) = false then .ok (.boolean (result && val))
           else Expression.evaluateOperands context isAnd (result && val) rest)
        else
          (if (result || val) = true then .ok (.boolean (result || val))
           else Expression.evaluateOperands context isAnd (result || val) rest)

end

/-- The class `Rule`; a null `condition_` or `action_` is `none`. -/
structure Rule where
  id : Integer
  code : String
  name : String
  priority : Integer
  note : Option String
  condition : Option Expression
  action : Option Expression

/-- The constructor `Rule(id, code, name)`. -/
def Rule.new (id : Integer) (code name : String) : Rule :=
  { id := id, code := code, name := name, priority := 0, note := none,
    condition := none, action := none }

/-- Evaluation of the action of a rule, the second half of `Rule::evaluate`. -/
def Rule.evaluateAction (rule : Rule) (context : Context) :
    Except String ParameterValue :=
  match rule.action with
  | some action => action.evaluate context
  | none => .ok .empty

/-- The method `Rule::evaluate`. -/
def Rule.evaluate (rule : Rule) (context : Context) :
    Except String ParameterValue :=
  match rule.condition with
  | some condition =>
    match condition.evaluate context with
    | .error e => .error e
    | .ok c =>
      match GetBooleanValue c with
      | some true => rule.evaluateAction context
      | _ => .ok .empty
  | none => rule.evaluateAction context

/-! ## model/Tariff.hpp -/

structure Tariff where
  id : Integer
  code : String
  name : String
  serviceClassId : Integer
  isActive : Bool
  description : Option String
  provider : Option String
  validFrom : Option Date
  validTo : Option Date
  note : Option String
  rules : List Rule

namespace Tariff

/-- The constructor `Tariff(id, code, name, serviceClassId)`. -/
def new (id : Integer) (code name : String) (serviceClassId : Integer) : Tariff :=
  { id := id, code := code, name := name, serviceClassId := serviceClassId,
    isActive := true, description := none, provider := none, validFrom := none,
    validTo := none, note := none, rules := [] }

def addRule (tariff : Tariff) (rule : Rule) : Tariff :=
  { tariff with rules := tariff.rules ++ [rule] }

/-- The method `Tariff::isValid`. -/
def isValid (tariff : Tariff) (date : Date) : Bool :=
  if !tariff.isActive then false
  else if (match tariff.validFrom with
      | some validFrom => Date.lt date validFrom
      | none => false) then false
  else if (match tariff.validTo with
      | some validTo => Date.lt validTo date
      | none => false) then false
  else true

/-- The method `Tariff::isValidNow`; `today` is the date read from the clock. -/
def isValidNow (tariff : Tariff) (today : Date) : Bool := tariff.isValid today

end Tariff

/-! ## model/Order.hpp -/

structure Order where
  id : Integer
  code : String
  name : String
  serviceId : Integer
  tariffId : Option Integer
  status : OrderStatus
  orderDate : Date
  calculatedCost : Double
  note : Option String
  customerName : Option String
  parameters : StdMap ParameterValue

namespace Order

/-- The constructor `Order(id, code, name, serviceId)`; `orderDate` is the date
read from the clock. -/
def new (id : Integer) (code name : String) (serviceId : Integer)
    (orderDate : Date) : Order :=
  { id := id, code := code, name := name, serviceId := serviceId,
    tariffId := none, status := .DRAFT, orderDate := orderDate,
    calculatedCost := Double.fin 0, note := none, customerName := none,
    parameters := [] }

def setTariffId (order : Order) (tariffId : Integer) : Order :=
  { order with tariffId := some tariffId }

def addParameter (order : Order) (parameterId : Integer)
    (value : ParameterValue) : Order :=
  { order with parameters := order.parameters.set parameterId value }

def getParameter (order : Order) (parameterId : Integer) : Option ParameterValue :=
  order.parameters.find parameterId

/-- The method `Order::setCalculatedCost`. -/
def setCalculatedCost (order : Order) (cost : Double) : Order :=
  { order with
    calculatedCost := cost
    status := if order.status = .DRAFT then .CALCULATED else order.status }

/-- The method `Order::confirm`: the order after the call, and whether the call
returned or raised. -/
def confirm (order : Order) : Order × Except String Unit :=
  if order.status = .CALCULATED then ({ order with status := .CONFIRMED }, .ok ())
  else
    (order, .error (TariffSystemException
      "Заказ должен быть рассчитан перед подтверждением"))

/-- The method `Order::complete`. -/
def complete (order : Order) : Order × Except String Unit :=
  if order.status = .CONFIRMED then ({ order with status := .COMPLETED }, .ok ())
  else
    (order, .error (TariffSystemException
      "Заказ должен быть подтвержден перед завершением"))

/-- The method `Order::cancel`. -/
def cancel (order : Order) : Order × Except String Unit :=
  if order.status ≠ .COMPLETED then ({ order with status := .CANCELLED }, .ok ())
  else
    (order, .error (TariffSystemException "Невозможно отменить завершенный заказ"))

end Order

/-! ## model/Parameter.hpp -/

/-- The class `Parameter`. -/
structure Parameter where
  id : Integer
  code : String
  name : String
  type : ParameterType
  unit : Option String
  isRequired : Bool
  value : ParameterValue
  note : Option String
deriving DecidableEq

namespace Parameter

/-- The constructor `Parameter(id, code, name, type)`; the value starts as
`std::monostate`. -/
def new (id : Integer) (code name : String) (type : ParameterType) : Parameter :=
  { id := id, code := code, name := name, type := type, unit := none,
    isRequired := false, value := .empty, note := none }

/-- The private method `Parameter::validateValue`. -/
def validateValue (parameter : Parameter) (value : ParameterValue) : Bool :=
  if value.isEmpty then true
  else
    match parameter.type with
    | .INTEGER =>
      (match value with
        | .integer _ => true
        | _ => false)
    | .DOUBLE =>
      (match value with
        | .double _ => true
        | .integer _ => true
        | _ => false)
    | .STRING | .ENUMERATION =>
      (match value with
        | .string _ => true
        | _ => false)
    | .BOOLEAN =>
      (match value with
        | .boolean _ => true
        | _ => false)
    | .DATE =>
      (match value with
        | .date _ => true
        | _ => false)

/-- The method `Parameter::setValue`: the parameter after the call, and whether
the call returned or raised. -/
def setValue (parameter : Parameter) (value : ParameterValue) :
    Parameter × Except String Unit :=
  if !parameter.validateValue value then
    (parameter, .error (ParameterException
      ("Некорректный тип значения для параметра " ++ parameter.name)))
  else ({ parameter with value := value }, .ok ())

/-- The method `Parameter::hasValue`. -/
def hasValue (parameter : Parameter) : Bool := !parameter.value.isEmpty

end Parameter

/-! ## std::sort -/

/-- The comparator `lt` is a strict weak ordering on the elements of `l`: the
requirement that `std::sort` puts on its comparator. -/
def StrictWeakOn {α : Type} (lt : α → α → Bool) (l : List α) : Prop :=
  (∀ a ∈ l, lt a a = false) ∧
  (∀ a ∈ l, ∀ b ∈ l, ∀ c ∈ l, lt a b = true → lt b c = true → lt a c = true) ∧
  (∀ a ∈ l, ∀ b ∈ l, ∀ c ∈ l, lt a b = false → lt b a = false →
    lt b c = false → lt c b = false → lt a c = false ∧ lt c a = false)

/-- An implementation of `std::sort`: given the element type, the comparator
and the range, the sorted range. -/
def StdSort : Type 1 := (α : Type) → (α → α → Bool) → List α → List α

/-- What is taken for granted of `std::sort`. The result is a rearrangement of
the range. For a comparator that is a strict weak ordering on the range, which
is what the C++ standard asks for, no element is followed by a smaller one and
the rearrangement is decided by the outcomes of the comparisons alone. The
relative order of equivalent elements is not fixed. For any other comparator
(here: costs that are NaN) the standard promises nothing; the contract then
keeps only that the range is rearranged. -/
structure IsStdSort (sort : StdSort) : Prop where
  perm : ∀ {α : Type} (lt : α → α → Bool) (l : List α),
    List.Perm (sort α lt l) l
  sorted : ∀ {α : Type} (lt : α → α → Bool) (l : List α),
    StrictWeakOn lt l → List.Pairwise (fun a b => lt b a = false) (sort α lt l)
  natural : ∀ {α β : Type} (f : α → β) (lt : α → α → Bool) (lt2 : β → β → Bool)
    (l : List α), StrictWeakOn lt l →
    (∀ a ∈ l, ∀ b ∈ l, lt2 (f a) (f b) = lt a b) →
    sort β lt2 (l.map f) = (sort α lt l).map f

/-- Insertion of `a` behind the elements that are not greater than it. -/
def insertSorted {α : Type} (lt : α → α → Bool) (a : α) : List α → List α
  | [] => [a]
  | b :: l => if lt a b then a :: b :: l else b :: insertSorted lt a l

/-- Insertion sort from left to right, what `std::sort` of libstdc++ does on a
range of at most sixteen elements. -/
def insertionSort {α : Type} (lt : α → α → Bool) (l : List α) : List α :=
  l.foldl (fun sortedPart a => insertSorted lt a sortedPart) []

/-- Insertion sort as an implementation of `std::sort`. -/
def insertionStdSort : StdSort := fun _ lt l => insertionSort lt l

/-! ## std::sort of libstdc++

The algorithm of `std::sort` in GCC's `bits/stl_algo.h` and `bits/stl_heap.h`,
on a list that holds the range `[first, last)`; positions count from `first`.
Every loop of the library that is bounded only by the contents of the range
carries the length of the range as fuel; an access outside the range, which is
undefined in C++, ends the loop. -/

namespace Libstdcxx

/-- The constant `_S_threshold`. -/
def threshold : Nat := 16

/-- The function `std::__lg`: the binary logarithm rounded down. -/
def lg (n : Nat) : Nat := Double.log2 n

/-- The function `std::iter_swap` on the positions `i` and `j`. -/
def iterSwap {α : Type} (l : List α) (i j : Nat) : List α :=
  match l[i]?, l[j]? with
  | some a, some b => (l.set i b).set j a
  | _, _ => l

/-- The function `__unguarded_linear_insert` for the value behind the range
`front`, given last element first: the value moves towards the front past every
element it is less than. The result is given last element first as well. -/
def linearInsertBackward {α : Type} (comp : α → α → Bool) (val : α) : List α → List α
  | [] => [val]
  | next :: rest =>
    if comp val next then next :: linearInsertBackward comp val rest
    else val :: next :: rest

/-- The function `__unguarded_linear_insert(last, comp)`, `front` being the
range before `last` and `val` the element at `last`. -/
def unguardedLinearInsert {α : Type} (comp : α → α → Bool) (front : List α) (val : α) :
    List α :=
  (linearInsertBackward comp val front.reverse).reverse

/-- One pass of the loop of `__insertion_sort`: an element less than the first
one is moved to the front, any other is inserted from the back. -/
def insertionStep {α : Type} (comp : α → α → Bool) (front : List α) (val : α) : List α :=
  match front with
  | [] => [val]
  | first :: _ =>
    if comp val first then val :: front else unguardedLinearInsert comp front val

/-- The function `__insertion_sort(first, last, comp)`. -/
def insertionSort {α : Type} (comp : α → α → Bool) (l : List α) : List α :=
  l.foldl (insertionStep comp) []

/-- The function `__unguarded_insertion_sort(first, last, comp)`, `front` being
the range before `first`. -/
def unguardedInsertionSort {α : Type} (comp : α → α → Bool) (front l : List α) :
    List α :=
  l.foldl (unguardedLinearInsert comp) front

/-- The function `__final_insertion_sort(first, last, comp)`. -/
def finalInsertionSort {α : Type} (comp : α → α → Bool) (l : List α) : List α :=
  if l.length > threshold then
    unguardedInsertionSort comp (insertionSort comp (l.take threshold))
      (l.drop threshold)
  else insertionSort comp l

/-- The function `__move_median_to_first(result, a, b, c, comp)`. -/
def moveMedianToFirst {α : Type} (comp : α → α → Bool) (l : List α)
    (result a b c : Nat) : List α :=
  match l[a]?, l[b]?, l[c]? with
  | some x, some y, some z =>
    if comp x y then
      if comp y z then iterSwap l result b
      else if comp x z then iterSwap l result c
      else iterSwap l result a
    else if comp x z then iterSwap l result a
    else if comp y z then iterSwap l result c
    else iterSwap l result b
  | _, _, _ => l

/-- The loop `while (comp(first, pivot)) ++first;` of `__unguarded_partition`. -/
def advanceFirst {α : Type} (comp : α → α → Bool) (l : List α) (pivot : α) :
    Nat → Nat → Nat
  | 0, first => first
  | fuel + 1, first =>
    match l[first]? with
    | some x => if comp x pivot then advanceFirst comp l pivot fuel (first + 1) else first
    | none => first

/-- The loop `while (comp(pivot, last)) --last;` of `__unguarded_partition`. -/
def retreatLast {α : Type} (comp : α → α → Bool) (l : List α) (pivot : α) :
    Nat → Nat → Nat
  | 0, last => last
  | fuel + 1, last =>
    match l[last]? with
    | some x => if comp pivot x then retreatLast comp l pivot fuel (last - 1) else last
    | none => last

/-- The function `__unguarded_partition(first, last, pivot, comp)`; it returns
the range and the position of the cut. -/
def unguardedPartition {α : Type} (comp : α → α → Bool) :
    Nat → List α → Nat → Nat → Nat → List α × Nat
  | 0, l, first, _, _ => (l, first)
  | fuel + 1, l, first, last, pivot =>
    match l[pivot]? with
    | none => (l, first)
    | some p =>
      let first := advanceFirst comp l p l.length first
      let last := retreatLast comp l p l.length (last - 1)
      if first < last then
        unguardedPartition comp fuel (iterSwap l first last) (first + 1) last pivot
      else (l, first)

/-- The function `__unguarded_partition_pivot(first, last, comp)`. -/
def unguardedPartitionPivot {α : Type} (comp : α → α → Bool) (l : List α) :
    List α × Nat :=
  let mid := l.length / 2
  unguardedPartition comp l.length
    (moveMedianToFirst comp l 0 1 mid (l.length - 1)) 1 l.length 0

/-- The function `__push_heap(first, holeIndex, topIndex, value, comp)`. -/
def pushHeap {α : Type} (comp : α → α → Bool) (value : α) (topIndex : Nat) :
    Nat → List α → Nat → List α
  | 0, l, holeIndex => l.set holeIndex value
  | fuel + 1, l, holeIndex =>
    let parent := (holeIndex - 1) / 2
    match l[parent]? with
    | some p =>
      if holeIndex > topIndex && comp p value then
        pushHeap comp value topIndex fuel (l.set holeIndex p) parent
      else l.set holeIndex value
    | none => l.set holeIndex value

/-- The first loop of `__adjust_heap`: the hole moves down to the larger child;
it returns the range, the hole and `secondChild`. -/
def sinkHole {α : Type} (comp : α → α → Bool) (len : Nat) :
    Nat → List α → Nat → Nat → List α × Nat × Nat
  | 0, l, holeIndex, secondChild => (l, holeIndex, secondChild)
  | fuel + 1, l, holeIndex, secondChild =>
    if secondChild < (len - 1) / 2 then
      let child := 2 * (secondChild + 1)
      match l[child]?, l[child - 1]? with
      | some right, some left =>
        let child := if comp right left then child - 1 else child
        match l[child]? with
        | some c => sinkHole comp len fuel (l.set holeIndex c) child child
        | none => (l, holeIndex, secondChild)
      | _, _ => (l, holeIndex, secondChild)
    else (l, holeIndex, secondChild)

/-- The function `__adjust_heap(first, holeIndex, len, value, comp)`. -/
def adjustHeap {α : Type} (comp : α → α → Bool) (l : List α) (holeIndex len : Nat)
    (value : α) : List α :=
  let sunk := sinkHole comp len len l holeIndex holeIndex
  let l := sunk.1
  let hole := sunk.2.1
  let secondChild := sunk.2.2
  if len % 2 = 0 ∧ secondChild = (len - 2) / 2 then
    let child := 2 * (secondChild + 1)
    match l[child - 1]? with
    | some c => pushHeap comp value holeIndex len (l.set hole c) (child - 1)
    | none => pushHeap comp value holeIndex len l hole
  else pushHeap comp value holeIndex len l hole

/-- The loop of `__make_heap`, from `parent` down to 0. -/
def makeHeapFrom {α : Type} (comp : α → α → Bool) (len : Nat) : Nat → List α → List α
  | 0, l =>
    match l[0]? with
    | some value => adjustHeap comp l 0 len value
    | none => l
  | parent + 1, l =>
    match l[parent + 1]? with
    | some value => makeHeapFrom comp len parent (adjustHeap comp l (parent + 1) len value)
    | none => l

/-- The function `__make_heap(first, last, comp)`. -/
def makeHeap {α : Type} (comp : α → α → Bool) (l : List α) : List α :=
  if l.length < 2 then l else makeHeapFrom comp l.length ((l.length - 2) / 2) l

/-- The function `__pop_heap(first, last, result, comp)` with `result = last`,
`last` being a position of the range. -/
def popHeap {α : Type} (comp : α → α → Bool) (l : List α) (last : Nat) : List α :=
  match l[last]?, l[0]? with
  | some value, some top => adjustHeap comp (l.set last top) 0 last value
  | _, _ => l

/-- The function `__sort_heap(first, last, comp)`. -/
def sortHeap {α : Type} (comp : α → α → Bool) : Nat → List α → List α
  | 0, l => l
  | last + 1, l => if last + 1 > 1 then sortHeap comp last (popHeap comp l last) else l

/-- The call `__partial_sort(first, last, last, comp)`: heap sort. -/
def partialSort {α : Type} (comp : α → α → Bool) (l : List α) : List α :=
  sortHeap comp l.length (makeHeap comp l)

/-- The function `__introsort_loop(first, last, depth_limit, comp)`. The ranges
before and behind the cut are sorted separately, as the recursive call and the
next pass of the loop do. -/
def introsortLoop {α : Type} (comp : α → α → Bool) : Nat → List α → List α
  | 0, l => if l.length > threshold then partialSort comp l else l
  | depthLimit + 1, l =>
    if l.length > threshold then
      let parted := unguardedPartitionPivot comp l
      introsortLoop comp depthLimit (parted.1.take parted.2)
        ++ introsortLoop comp depthLimit (parted.1.drop parted.2)
    else l

/-- The function `std::sort(first, last, comp)`. -/
def sort {α : Type} (comp : α → α → Bool) (l : List α) : List α :=
  if l.isEmpty then l
  else finalInsertionSort comp (introsortLoop comp (lg l.length * 2) l)

end Libstdcxx

/-- The `std::sort` of libstdc++ as an implementation of `std::sort`. -/
def libstdcxxSort : StdSort := fun _ comp l => Libstdcxx.sort comp l

deriving instance DecidableEq for Except

/-! ## core/RuleEngine.hpp -/

namespace RuleEngine

/-- The method `RuleEngine::evaluateRule`. -/
def evaluateRule (rule : Rule) (context : Context) : Except String ParameterValue :=
  match rule.evaluate context with
  | .ok v => .ok v
  | .error e =>
    .error (CalculationException
      ("Ошибка при вычислении правила '" ++ rule.name ++ "': " ++ e))

/-- The method `RuleEngine::createContext`. -/
def createContext (order : Order) : Context :=
  order.parameters.foldl
    (fun context entry => context.setParameter entry.1 entry.2) Context.new

/-- The comparator given to `std::sort` in `applyTariffRules`. -/
def priorityLess (a b : Rule) : Bool := decide (a.priority < b.priority)

/-- The loop of `applyTariffRules` over the rules not yet visited; `result` is
the variable `result`. -/
def applyRules (context : Context) :
    List Rule → ParameterValue → ParameterValue
  | [], result => result
  | rule :: rest, result =>
    match evaluateRule rule context with
    | .ok value => if !value.isEmpty then value else applyRules context rest value
    | .error _ => applyRules context rest result

/-- The method `RuleEngine::applyTariffRules`. -/
def applyTariffRules (S : StdSort) (tariff : Tariff) (order : Order) :
    Except String ParameterValue :=
  let context := createContext order
  let rules := tariff.rules
  if rules.isEmpty then
    .error (CalculationException "Тариф не содержит правил расчета")
  else
    let sortedRules := S Rule priorityLess rules
    .ok (applyRules context sortedRules .empty)

end RuleEngine

/-! ## core/CostCalculator.hpp -/

structure CalculationResult where
  cost : Double
  tariffId : Integer
  tariffName : String
  success : Bool
  errorMessage : String
deriving DecidableEq

namespace CostCalculator

/-- Message that `calculateCost` puts around an exception caught in its `try`. -/
def tariffError (tariff : Tariff) (what : String) : String :=
  CalculationException
    ("Ошибка при расчете стоимости по тарифу '" ++ tariff.name ++ "': " ++ what)

/-- The method `CostCalculator::calculateCost`: the order after the call and
the returned cost or the exception. -/
def calculateCost (S : StdSort) (today : Date) (order : Order) (tariff : Tariff) :
    Order × Except String Double :=
  if !tariff.isValidNow today then
    (order, .error (CalculationException "Тариф недействителен"))
  else
    match RuleEngine.applyTariffRules S tariff order with
    | .error e => (order, .error (tariffError tariff e))
    | .ok result =>
      match GetDoubleValue result with
      | none =>
        (order, .error (tariffError tariff
          (CalculationException "Результат расчета не является числом")))
      | some cost =>
        ((order.setTariffId tariff.id).setCalculatedCost cost, .ok cost)

/-- The `try` block in the loop of `calculateWithAllTariffs`, started with the
record `result`. -/
def tryTariff (S : StdSort) (today : Date) (order : Order) (tariff : Tariff)
    (result : CalculationResult) : Except String CalculationResult :=
  if !tariff.isValidNow today then
    .ok { result with
      success := false, errorMessage := "Тариф недействителен", cost := Double.fin 0 }
  else
    match RuleEngine.applyTariffRules S tariff order with
    | .error e => .error e
    | .ok calcResult =>
      match GetDoubleValue calcResult with
      | some cost => .ok { result with cost := cost, success := true }
      | none =>
        .ok { result with
          success := false
          errorMessage := "Результат расчета не является числом"
          cost := Double.fin 0 }

/-- The body of the loop of `calculateWithAllTariffs`: the record stored for
`tariff`. The fields `cost` and `success` of the fresh record are not
initialised in C++; every path assigns them. -/
def tariffResult (S : StdSort) (today : Date) (order : Order) (tariff : Tariff) :
    CalculationResult :=
  let result : CalculationResult :=
    { cost := Double.fin 0, tariffId := tariff.id, tariffName := tariff.name,
      success := false, errorMessage := "" }
  match tryTariff S today order tariff result with
  | .ok r => r
  | .error e =>
    { result with success := false, errorMessage := e, cost := Double.fin 0 }

/-- The method `CostCalculator::calculateWithAllTariffs`: the order after the
call and the map of results. -/
def calculateWithAllTariffs (S : StdSort) (today : Date) (order : Order)
    (tariffs : List Tariff) : Order × StdMap CalculationResult :=
  tariffs.foldl
    (fun state tariff =>
      (state.1, state.2.set tariff.id (tariffResult S today state.1 tariff)))
    (order, [])

end CostCalculator

/-! ## core/OptimalSearch.hpp -/

structure TariffComparisonResult where
  tariffId : Integer
  tariffCode : String
  tariffName : String
  cost : Double
  isOptimal : Bool
  rank : Integer
deriving DecidableEq

structure SavingsAnalysis where
  optimalCost : Double
  maximumCost : Double
  averageCost : Double
  savings : Double
  savingsPercent : Double
  optimalTariffId : Integer
  expensiveTariffId : Integer
deriving DecidableEq

namespace OptimalSearcher

/-- One pass of the loop of `findOptimalTariff`; the state is
`(optimalTariff, minCost)`. -/
def searchStep (results : StdMap CalculationResult)
    (state : Option Tariff × Double) (tariff : Tariff) : Option Tariff × Double :=
  match results.find tariff.id with
  | some found =>
    if found.success then
      (if Double.lt found.cost state.2 then (some tariff, found.cost) else state)
    else state
  | none => state

/-- The method `OptimalSearcher::findOptimalTariff`. -/
def findOptimalTariff (S : StdSort) (today : Date) (order : Order)
    (tariffs : List Tariff) : Order × Option (Tariff × Double) :=
  if tariffs.isEmpty then (order, none)
  else
    let batch := CostCalculator.calculateWithAllTariffs S today order tariffs
    let final := tariffs.foldl (searchStep batch.2) (none, Double.fin DBL_MAX)
    match final.1 with
    | some optimalTariff => (batch.1, some (optimalTariff, final.2))
    | none => (batch.1, none)

/-- The entry that `compareAllTariffs` makes for a tariff, if its result is a
success. -/
def comparisonEntry (results : StdMap CalculationResult) (tariff : Tariff) :
    Option TariffComparisonResult :=
  match results.find tariff.id with
  | some found =>
    if found.success then
      some { tariffId := tariff.id, tariffCode := tariff.code,
             tariffName := tariff.name, cost := found.cost,
             isOptimal := false, rank := 0 }
    else none
  | none => none

/-- The comparator given to `std::sort` in `compareAllTariffs`. -/
def costLess (a b : TariffComparisonResult) : Bool := Double.lt a.cost b.cost

/-- The last loop of `compareAllTariffs`, from index `i` on. -/
def assignRanks (i : Nat) : List TariffComparisonResult → List TariffComparisonResult
  | [] => []
  | entry :: rest =>
    { entry with
      rank := ((i + 1 : Nat) : Integer)
      isOptimal := if i = 0 then true else entry.isOptimal } ::
      assignRanks (i + 1) rest

/-- The method `OptimalSearcher::compareAllTariffs`. -/
def compareAllTariffs (S : StdSort) (today : Date) (order : Order)
    (tariffs : List Tariff) : Order × List TariffComparisonResult :=
  let batch := CostCalculator.calculateWithAllTariffs S today order tariffs
  let comparisonResults := tariffs.filterMap (comparisonEntry batch.2)
  (batch.1, assignRanks 0 (S TariffComparisonResult costLess comparisonResults))

/-- The method `OptimalSearcher::findTopNTariffs`. -/
def findTopNTariffs (S : StdSort) (today : Date) (order : Order)
    (tariffs : List Tariff) (topN : Nat) : Order × List TariffComparisonResult :=
  let all := compareAllTariffs S today order tariffs
  if all.2.length > topN then (all.1, all.2.take topN) else all

/-- The method `OptimalSearcher::analyzeSavings`. -/
def analyzeSavings (S : StdSort) (today : Date) (order : Order)
    (tariffs : List Tariff) : Order × Option SavingsAnalysis :=
  let all := compareAllTariffs S today order tariffs
  match all.2.head?, all.2.getLast? with
  | some front, some back =>
    let totalCost := all.2.foldl (fun total entry => Double.add total entry.cost)
      (Double.fin 0)
    let averageCost := Double.div totalCost (Double.ofNat all.2.length)
    let savings := Double.sub back.cost front.cost
    (all.1, some
      { optimalCost := front.cost, maximumCost := back.cost,
        averageCost := averageCost, savings := savings,
        savingsPercent := Double.mul (Double.div savings back.cost) (Double.fin 100),
        optimalTariffId := front.tariffId, expensiveTariffId := back.tariffId })
  | _, _ => (all.1, none)

end OptimalSearcher

/-! ## Auxiliary notions used in the statements -/

/-- The last tariff of the list whose id is `id`. -/
def lastTariffWithId : List Tariff → Integer → Option Tariff
  | [], _ => none
  | tariff :: rest, id =>
    match lastTariffWithId rest id with
    | some later => some later
    | none => if tariff.id = id then some tariff else none

/-- The batch result under the id of `tariff` is a success. -/
def batchSucceeds (results : StdMap CalculationResult) (tariff : Tariff) : Bool :=
  match results.find tariff.id with
  | some entry => entry.success
  | none => false

/-- The entries (id, code, name, batch cost) of the tariffs of the list whose
batch result is a success, in the order of the list. -/
def successfulEntries (results : StdMap CalculationResult) (tariffs : List Tariff) :
    List (Integer × String × String × Double) :=
  tariffs.filterMap (fun tariff =>
    match results.find tariff.id with
    | some entry =>
      if entry.success then some (tariff.id, tariff.code, tariff.name, entry.cost)
      else none
    | none => none)

/-- The fields of a ranking entry that come from the tariff and the batch. -/
def TariffComparisonResult.core (entry : TariffComparisonResult) :
    Integer × String × String × Double :=
  (entry.tariffId, entry.tariffCode, entry.tariffName, entry.cost)

/-- The costs of the successful batch results of the tariffs of the list, in
the order of the list. -/
def successfulCosts (results : StdMap CalculationResult) (tariffs : List Tariff) :
    List Double :=
  (successfulEntries results tariffs).map (fun entry => entry.2.2.2)

/-- The sort is stable, as `std::stable_sort` is: when the elements are ordered
by an integer key, the elements of any one key keep their original order. -/
def KeepsOrderOfEqualKeys (sort : StdSort) : Prop :=
  ∀ {α : Type} (key : α → Integer) (l : List α) (k : Integer),
    (sort α (fun a b => decide (key a < key b)) l).filter (fun a => decide (key a = k))
      = l.filter (fun a => decide (key a = k))

/-- The text `part` stands at the beginning of `text`. -/
def startsWith : List Char → List Char → Bool
  | _, [] => true
  | [], _ :: _ => false
  | c :: text, d :: part => c == d && startsWith text part

/-- The text `part` occurs somewhere in `text`. -/
def occursIn (part : List Char) : List Char → Bool
  | [] => startsWith [] part
  | c :: text => startsWith (c :: text) part || occursIn part text

/-- The message contains the text `part`. -/
def messageContains (message part : String) : Bool :=
  occursIn part.data message.data

/-- An operation on an order: one of the four methods of `Order` that write the
status, or `calculateCost` with a tariff on a day `today`. -/
inductive OrderOperation where
  | setCalculatedCost (cost : Double)
  | confirm
  | complete
  | cancel
  | calculateCost (today : Date) (tariff : Tariff)

/-- The order after the operation, whether the operation returned or raised. -/
def OrderOperation.apply (S : StdSort) (order : Order) : OrderOperation → Order
  | .setCalculatedCost cost => order.setCalculatedCost cost
  | .confirm => order.confirm.1
  | .complete => order.complete.1
  | .cancel => order.cancel.1
  | .calculateCost today tariff =>
    (CostCalculator.calculateCost S today order tariff).1

/-- The order after a sequence of operations. -/
def runOperations (S : StdSort) (order : Order) (operations : List OrderOperation) :
    Order :=
  operations.foldl (OrderOperation.apply S) order

/-- The status changes of the life cycle: DRAFT to CALCULATED, CALCULATED to
CONFIRMED, CONFIRMED to COMPLETED, and to CANCELLED from every status but
COMPLETED. -/
def allowedStatusChange : OrderStatus → OrderStatus → Bool
  | .DRAFT, .CALCULATED => true
  | .CALCULATED, .CONFIRMED => true
  | .CONFIRMED, .COMPLETED => true
  | .COMPLETED, .CANCELLED => false
  | _, .CANCELLED => true
  | _, _ => false

/-- The value has the tag that the declared type asks for: an integer for
INTEGER, a double or an integer for DOUBLE, a string for STRING and
ENUMERATION, a boolean for BOOLEAN, a date for DATE. -/
def ParameterValue.matchesType : ParameterType → ParameterValue → Bool
  | .INTEGER, .integer _ => true
  | .DOUBLE, .double _ => true
  | .DOUBLE, .integer _ => true
  | .STRING, .string _ => true
  | .ENUMERATION, .string _ => true
  | .BOOLEAN, .boolean _ => true
  | .DATE, .date _ => true
  | _, _ => false

/-- The parameter after a sequence of `setValue` calls, each of which returned
or raised. -/
def Parameter.setValues (parameter : Parameter) (values : List ParameterValue) :
    Parameter :=
  values.foldl (fun current value => (current.setValue value).1) parameter

/-! ## Example data, most of it taken from the tests of the repository -/

namespace Examples

def today : Date := { year := 2025, month := 6, day := 15 }

/-- A constant expression holding the finite `double` value `q`. -/
def number (q : ℚ) : Expression := .constant (.double (Double.fin q))

/-- The `double` value of the literal `1.2`, `0x1.3333333333333p+0`. -/
def oneAndOneFifth : ℚ := 5404319552844595 / 4503599627370496

/-- The rule of `ConditionalRulesTest`: if the weight exceeds 1, the base cost
times 1.2. -/
def heavyCargoRule : Rule :=
  { Rule.new 1 "HEAVY_CARGO_RULE" "Правило для тяжелого груза" with
    priority := 1
    condition := some (.comparison .GREATER_THAN (.parameter 1) (number 1))
    action := some (.arithmetic .MULTIPLY (.parameter 2) (number oneAndOneFifth)) }

/-- The rule of `ConditionalRulesTest` without condition: the base cost. -/
def standardRule : Rule :=
  { Rule.new 2 "STANDARD_RULE" "Стандартное правило" with
    priority := 2
    action := some (.parameter 2) }

def conditionalTariff : Tariff :=
  ((Tariff.new 1 "CONDITIONAL_TARIFF" "Условный тариф" 100).addRule
    heavyCargoRule).addRule standardRule

def conditionalOrder : Order :=
  Order.new 1 "CONDITIONAL_ORDER" "Заказ с условием" 100 today

/-- Weight 2, base cost 1000. -/
def heavyOrder : Order :=
  (conditionalOrder.addParameter 1 (.double (Double.fin 2))).addParameter 2
    (.double (Double.fin 1000))

/-- Weight 0.5, base cost 1000. -/
def lightOrder : Order :=
  (conditionalOrder.addParameter 1 (.double (Double.fin (1 / 2)))).addParameter 2
    (.double (Double.fin 1000))

/-- A rule whose action reads parameter 99, which no example order has. -/
def missingParameterRule : Rule :=
  { Rule.new 11 "MISSING" "Нет параметра" with
    priority := 1
    action := some (.parameter 99) }

/-- A rule whose action adds a string and a number. -/
def typeMismatchRule : Rule :=
  { Rule.new 12 "MISMATCH" "Строка в сумме" with
    priority := 2
    action := some (.arithmetic .ADD (.constant (.string "abc")) (number 1)) }

/-- A rule whose action divides by zero. -/
def divisionByZeroRule : Rule :=
  { Rule.new 13 "DIVZERO" "Деление на ноль" with
    priority := 3
    action := some (.arithmetic .DIVIDE (number 1) (number 0)) }

/-- A rule without condition whose action is the constant 7. -/
def fallbackRule : Rule :=
  { Rule.new 14 "FALLBACK" "Запасное правило" with
    priority := 4
    action := some (number 7) }

/-- A rule of the given priority whose condition is the constant `false`. -/
def neverRule (priority : Integer) : Rule :=
  { Rule.new 15 "NEVER" "Ложное условие" with
    priority := priority
    condition := some (.constant (.boolean false))
    action := some (number 1) }

/-- Three rules that raise and a last one that applies. -/
def raisingTariff : Tariff :=
  ((((Tariff.new 2 "RAISING" "Тариф с ошибками" 100).addRule
    fallbackRule).addRule divisionByZeroRule).addRule
    missingParameterRule).addRule typeMismatchRule

/-- The tariff `raisingTariff` with each raising rule replaced by a rule of the
same priority whose condition is false. -/
def skippedTariff : Tariff :=
  ((((Tariff.new 2 "RAISING" "Тариф с ошибками" 100).addRule
    fallbackRule).addRule (neverRule 3)).addRule
    (neverRule 1)).addRule (neverRule 2)

/-- A tariff whose rules all raise or have a false condition. -/
def noApplicableTariff : Tariff :=
  ((Tariff.new 3 "NONE" "Нет подходящего правила" 100).addRule
    divisionByZeroRule).addRule (neverRule 1)

/-- The tariff of `CostCalculatorTest`: one rule, parameter 1 times parameter 2. -/
def simpleTariff : Tariff :=
  (Tariff.new 1 "TARIFF_001" "Тестовый тариф" 100).addRule
    { Rule.new 1 "RULE_001" "Умножение параметров" with
      action := some (.arithmetic .MULTIPLY (.parameter 1) (.parameter 2)) }

/-- The order of `CostCalculatorTest`: parameters 10 and 5. -/
def simpleOrder : Order :=
  ((Order.new 1 "ORDER_001" "Тестовый заказ" 100 today).addParameter 1
    (.double (Double.fin 10))).addParameter 2 (.double (Double.fin 5))

/-- The tariff `simpleTariff` after `setActive(false)`. -/
def inactiveTariff : Tariff := { simpleTariff with isActive := false }

/-- A tariff with one rule without condition whose action is the constant
`value`, as `createTariffWithCost` of `OptimalSearcherTest` builds it. -/
def constantTariff (id : Integer) (code name : String) (value : ParameterValue) :
    Tariff :=
  (Tariff.new id code name 100).addRule
    { Rule.new id ("RULE_" ++ code) ("Правило для " ++ name) with
      action := some (.constant value) }

/-- A tariff whose only rule yields a string. -/
def textTariff : Tariff :=
  constantTariff 4 "TARIFF_TEXT" "Текстовый" (.string "дорого")

/-- The tariffs of `OptimalSearcherTest`, with costs 1000, 1500 and 2000. -/
def cheapTariff : Tariff :=
  constantTariff 1 "TARIFF_001" "Дешевый" (.double (Double.fin 1000))

def middleTariff : Tariff :=
  constantTariff 2 "TARIFF_002" "Средний" (.double (Double.fin 1500))

def dearTariff : Tariff :=
  constantTariff 3 "TARIFF_003" "Дорогой" (.double (Double.fin 2000))

def threeTariffs : List Tariff := [cheapTariff, middleTariff, dearTariff]

/-- The order of `OptimalSearcherTest`. -/
def searchOrder : Order :=
  (Order.new 1 "ORDER_001" "Тестовый заказ" 100 today).addParameter 1
    (.double (Double.fin 1))

/-- A tariff with cost 900 whose validity ended on 2024-12-31. -/
def expiredTariff : Tariff :=
  { constantTariff 5 "TARIFF_OLD" "Истекший" (.double (Double.fin 900)) with
    validTo := some { year := 2024, month := 12, day := 31 } }

/-- A valid tariff that has the id of `expiredTariff`. -/
def sameIdTariff : Tariff :=
  constantTariff 5 "TARIFF_NEW" "Новый" (.double (Double.fin 1200))

/-- A tariff whose only rule yields the `double` value NaN. -/
def nanTariff : Tariff :=
  constantTariff 6 "TARIFF_NAN" "Не число" (.double Double.nan)

/-- A tariff whose only rule yields the largest finite `double`. -/
def maxCostTariff : Tariff :=
  constantTariff 7 "TARIFF_MAX" "Предельный" (.double (Double.fin DBL_MAX))

/-- A tariff valid from 2025-01-01 to 2025-12-31. -/
def boundedTariff : Tariff :=
  { Tariff.new 1 "TARIFF_001" "Тариф стандарт" 10 with
    validFrom := some { year := 2025, month := 1, day := 1 }
    validTo := some { year := 2025, month := 12, day := 31 } }

/-- The context of `RuleTest`: parameter 1 is 100, parameter 2 is 50. -/
def ruleContext : Context :=
  (Context.new.setParameter 1 (.double (Double.fin 100))).setParameter 2
    (.double (Double.fin 50))

/-- The rule of `RuleTest.RuleWithConditionAndAction`: if parameter 1 exceeds
parameter 2, their sum. -/
def sumRule : Rule :=
  { Rule.new 1 "RULE_001" "Правило проверки" with
    condition := some (.comparison .GREATER_THAN (.parameter 1) (.parameter 2))
    action := some (.arithmetic .ADD (.parameter 1) (.parameter 2)) }

/-- The rule of `RuleTest.RuleWithFalseCondition`. -/
def falseConditionRule : Rule :=
  { Rule.new 1 "RULE_001" "Правило проверки" with
    condition := some (.comparison .GREATER_THAN (.parameter 2) (.parameter 1))
    action := some (number 999) }

/-- A rule whose condition is a number and whose action would raise. -/
def numberConditionRule : Rule :=
  { Rule.new 2 "RULE_002" "Числовое условие" with
    condition := some (number 1)
    action := some (.arithmetic .DIVIDE (number 1) (number 0)) }

/-- A rule whose condition reads a parameter that the context does not have. -/
def raisingConditionRule : Rule :=
  { Rule.new 3 "RULE_003" "Условие с ошибкой" with
    condition := some (.parameter 99)
    action := some (number 1) }

/-- A rule without condition whose action divides by zero. -/
def raisingActionRule : Rule :=
  { Rule.new 4 "RULE_004" "Действие с ошибкой" with
    action := some (.arithmetic .DIVIDE (number 1) (number 0)) }

/-- The context of `ExpressionTest`: parameter 1 is 10, parameter 2 is 5. -/
def expressionContext : Context :=
  (Context.new.setParameter 1 (.double (Double.fin 10))).setParameter 2
    (.double (Double.fin 5))

/-- A second tariff with the cost 1000. -/
def otherCheapTariff : Tariff :=
  constantTariff 8 "TARIFF_008" "Тоже дешевый" (.double (Double.fin 1000))

/-- A second tariff whose only rule yields the largest finite `double`. -/
def otherMaxCostTariff : Tariff :=
  constantTariff 9 "TARIFF_MAX2" "Тоже предельный" (.double (Double.fin DBL_MAX))

/-- The order of `RuleEngineTest` (parameter 1 is 100, parameter 2 is 5) with
two more parameters: 5 is the string "test" and 3 is the empty value. -/
def engineOrder : Order :=
  ((((Order.new 1 "ORDER_001" "Тестовый заказ" 100 today).addParameter 1
    (.double (Double.fin 100))).addParameter 2
    (.double (Double.fin 5))).addParameter 5 (.string "test")).addParameter 3 .empty

/-- A tariff as its constructor leaves it: active, no validity bounds, no rules. -/
def emptyTariff : Tariff := Tariff.new 10 "TARIFF_EMPTY" "Пустой тариф" 100

/-- Two rules of the same priority that both apply: the rule added first yields
100, the rule added second yields 200. -/
def firstTieRule : Rule :=
  { Rule.new 21 "TIE_A" "Первое правило" with
    priority := 1
    action := some (number 100) }

def secondTieRule : Rule :=
  { Rule.new 22 "TIE_B" "Второе правило" with
    priority := 1
    action := some (number 200) }

/-- A tariff with a rule of priority 0 that does not apply, followed by the two
rules of priority 1 and a rule of priority 4. -/
def tieTariff : Tariff :=
  ((((Tariff.new 11 "TARIFF_TIE" "Равные приоритеты" 100).addRule
    (neverRule 0)).addRule firstTieRule).addRule secondTieRule).addRule fallbackRule

/-- The order of `CostCalculatorTest` after `setCalculatedCost(1000)`,
`confirm()` and `complete()`, as in `OrderTest.CannotCancelCompletedOrder`. -/
def completedOrder : Order :=
  ((simpleOrder.setCalculatedCost (Double.fin 1000)).confirm.1).complete.1

/-- The parameters of `ParameterTest`. -/
def intParam : Parameter :=
  Parameter.new 1 "TEST_INT" "Целочисленный параметр" .INTEGER

def doubleParam : Parameter :=
  Parameter.new 2 "TEST_DOUBLE" "Вещественный параметр" .DOUBLE

/-- The tariff of `ConditionalRulesTest` with its two rules added in the other
order. -/
def conditionalTariffReversed : Tariff :=
  ((Tariff.new 1 "CONDITIONAL_TARIFF" "Условный тариф" 100).addRule
    standardRule).addRule heavyCargoRule

/-- Tariffs whose only rule yields the cost 0. -/
def freeTariff : Tariff :=
  constantTariff 12 "TARIFF_FREE" "Бесплатный" (.double (Double.fin 0))

def otherFreeTariff : Tariff :=
  constantTariff 13 "TARIFF_FREE2" "Тоже бесплатный" (.integer 0)

/-- A tariff whose only rule multiplies the largest finite `double` by 2, which
overflows to positive infinity. -/
def overflowTariff : Tariff :=
  (Tariff.new 14 "TARIFF_OVERFLOW" "Переполнение" 100).addRule
    { Rule.new 14 "RULE_OVERFLOW" "Правило с переполнением" with
      action := some (.arithmetic .MULTIPLY (number DBL_MAX) (number 2)) }

/-- Tariffs whose only rule yields the doubles nearest to 0.1 and to 0.2. -/
def tenthTariff : Tariff :=
  constantTariff 15 "TARIFF_TENTH" "Десятая"
    (.double (Double.fin (3602879701896397 / 36028797018963968)))

def fifthTariff : Tariff :=
  constantTariff 16 "TARIFF_FIFTH" "Пятая"
    (.double (Double.fin (3602879701896397 / 18014398509481984)))

/-- Tariffs whose only rule yields the cost -5 and the cost `-0.0`. -/
def negativeTariff : Tariff :=
  constantTariff 17 "TARIFF_NEGATIVE" "Отрицательный" (.double (Double.fin (-5)))

def negativeZeroTariff : Tariff :=
  constantTariff 18 "TARIFF_NEG_ZERO" "Минус ноль" (.double Double.negZero)

/-- A rule of priority 1 without condition that yields `100 * (i + 1)`. -/
def tieRule (i : Nat) : Rule :=
  { Rule.new (30 + i) "TIE" "Правило равного приоритета" with
    priority := 1
    action := some (number (100 * ((i : ℚ) + 1))) }

/-- A tariff with seventeen rules of priority 1, added in the order of the
values 100, 200, ..., 1700 that they yield. -/
def seventeenTieTariff : Tariff :=
  (List.range 17).foldl (fun tariff i => tariff.addRule (tieRule i))
    (Tariff.new 19 "TARIFF_TIE17" "Семнадцать равных" 100)

/-- Seventeen tariffs of cost zero; the ninth yields `-0.0`, the others `0.0`. -/
def seventeenZeroTariffs : List Tariff :=
  (List.range 17).map (fun i =>
    constantTariff (101 + i) "TARIFF_ZERO" "Нулевой"
      (.double (if i = 8 then Double.negZero else Double.fin 0)))

end Examples

/-! # Theorems -/

/-! ## Insertion sort meets the contract of std::sort -/

theorem insertSorted_perm {α : Type} (lt : α → α → Bool) (a : α) (l : List α) :
    List.Perm (insertSorted lt a l) (a :: l) := by
  induction l with
  | nil => simp [insertSorted]
  | cons b l ih =>
    unfold insertSorted
    split
    · exact List.Perm.refl _
    · exact (List.Perm.cons b ih).trans (List.Perm.swap a b l)

theorem foldl_insertSorted_perm {α : Type} (lt : α → α → Bool) (l acc : List α) :
    List.Perm (l.foldl (fun sortedPart a => insertSorted lt a sortedPart) acc)
      (l ++ acc) := by
  induction l generalizing acc with
  | nil => simp
  | cons a l ih =>
    simp only [List.foldl_cons]
    refine (ih _).trans ?_
    refine (List.Perm.append_left l (insertSorted_perm lt a acc)).trans ?_
    simp

theorem insertionSort_perm {α : Type} (lt : α → α → Bool) (l : List α) :
    List.Perm (insertionSort lt l) l := by
  simpa [insertionSort] using foldl_insertSorted_perm lt l []

theorem insertSorted_pairwise {α : Type} (lt : α → α → Bool) (L : List α)
    (hL : StrictWeakOn lt L) (a : α) (ha : a ∈ L) (l : List α)
    (hl : ∀ x ∈ l, x ∈ L)
    (hp : List.Pairwise (fun x y => lt y x = false) l) :
    List.Pairwise (fun x y => lt y x = false) (insertSorted lt a l) := by
  obtain ⟨hirr, htrans, -⟩ := hL
  induction l with
  | nil => simp [insertSorted]
  | cons b l ih =>
    have hb : b ∈ L := hl b (List.mem_cons_self _ _)
    have hl2 : ∀ x ∈ l, x ∈ L := fun x hx => hl x (List.mem_cons_of_mem _ hx)
    rw [List.pairwise_cons] at hp
    unfold insertSorted
    split
    · rename_i hab
      refine List.Pairwise.cons ?_ (List.Pairwise.cons hp.1 hp.2)
      intro y hy
      rcases List.mem_cons.1 hy with rfl | hy
      · cases hya : lt y a with
        | false => rfl
        | true =>
          have := htrans a ha y hb a ha hab hya
          rw [hirr a ha] at this
          exact absurd this (by decide)
      · cases hya : lt y a with
        | false => rfl
        | true =>
          have := htrans y (hl2 y hy) a ha b hb hya hab
          rw [hp.1 y hy] at this
          exact absurd this (by decide)
    · rename_i hab
      refine List.Pairwise.cons ?_ (ih hl2 hp.2)
      intro y hy
      rcases List.mem_cons.1 ((insertSorted_perm lt a l).subset hy) with rfl | hy
      · simpa using hab
      · exact hp.1 y hy

theorem foldl_insertSorted_pairwise {α : Type} (lt : α → α → Bool) (L : List α)
    (hL : StrictWeakOn lt L) (l acc : List α) (hl : ∀ x ∈ l, x ∈ L)
    (hacc : ∀ x ∈ acc, x ∈ L)
    (hp : List.Pairwise (fun x y => lt y x = false) acc) :
    List.Pairwise (fun x y => lt y x = false)
      (l.foldl (fun sortedPart a => insertSorted lt a sortedPart) acc) := by
  induction l generalizing acc with
  | nil => exact hp
  | cons a l ih =>
    simp only [List.foldl_cons]
    have ha : a ∈ L := hl a (List.mem_cons_self _ _)
    refine ih _ (fun x hx => hl x (List.mem_cons_of_mem _ hx)) ?_
      (insertSorted_pairwise lt L hL a ha acc hacc hp)
    intro x hx
    rcases List.mem_cons.1 ((insertSorted_perm lt a acc).subset hx) with rfl | hx
    · exact ha
    · exact hacc x hx

theorem insertSorted_map {α β : Type} (f : α → β) (lt : α → α → Bool)
    (lt2 : β → β → Bool) (a : α) (l : List α)
    (h : ∀ b ∈ l, lt2 (f a) (f b) = lt a b) :
    insertSorted lt2 (f a) (l.map f) = (insertSorted lt a l).map f := by
  induction l with
  | nil => simp [insertSorted]
  | cons b l ih =>
    have hb := h b (List.mem_cons_self _ _)
    have ih2 := ih (fun x hx => h x (List.mem_cons_of_mem _ hx))
    simp only [List.map_cons, insertSorted, hb]
    split
    · simp
    · simp [ih2]

theorem foldl_insertSorted_map {α β : Type} (f : α → β) (lt : α → α → Bool)
    (lt2 : β → β → Bool) (L : List α)
    (h : ∀ a ∈ L, ∀ b ∈ L, lt2 (f a) (f b) = lt a b) (l acc : List α)
    (hl : ∀ x ∈ l, x ∈ L) (hacc : ∀ x ∈ acc, x ∈ L) :
    (l.map f).foldl (fun sortedPart a => insertSorted lt2 a sortedPart) (acc.map f)
      = (l.foldl (fun sortedPart a => insertSorted lt a sortedPart) acc).map f := by
  induction l generalizing acc with
  | nil => simp
  | cons a l ih =>
    have ha : a ∈ L := hl a (List.mem_cons_self _ _)
    simp only [List.map_cons, List.foldl_cons]
    rw [insertSorted_map f lt lt2 a acc (fun b hb => h a ha b (hacc b hb))]
    refine ih _ (fun x hx => hl x (List.mem_cons_of_mem _ hx)) ?_
    intro x hx
    rcases List.mem_cons.1 ((insertSorted_perm lt a acc).subset hx) with rfl | hx
    · exact ha
    · exact hacc x hx

/-- Insertion sort meets the contract of `std::sort`. -/
theorem insertionStdSort_isStdSort : IsStdSort insertionStdSort where
  perm := fun lt l => insertionSort_perm lt l
  sorted := fun lt l h =>
    foldl_insertSorted_pairwise lt l h l [] (fun _ hx => hx)
      (fun _ hx => absurd hx (List.not_mem_nil _)) List.Pairwise.nil
  natural := fun f lt lt2 l _ h => by
    simpa [insertionStdSort, insertionSort] using
      foldl_insertSorted_map f lt lt2 l h l [] (fun _ hx => hx)
        (fun _ hx => absurd hx (List.not_mem_nil _))

/-! ## The rule walk of RuleEngine.applyTariffRules -/

theorem ParameterValue.isEmpty_iff (v : ParameterValue) :
    v.isEmpty = true ↔ v = .empty := by
  cases v <;> simp [ParameterValue.isEmpty]

theorem priorityLess_strictWeakOn (l : List Rule) :
    StrictWeakOn RuleEngine.priorityLess l := by
  refine ⟨?_, ?_, ?_⟩
  · intro a _
    simp [RuleEngine.priorityLess]
  · intro a _ b _ c _ hab hbc
    simp only [RuleEngine.priorityLess, decide_eq_true_eq] at *
    exact lt_trans hab hbc
  · intro a _ b _ c _ h1 h2 h3 h4
    simp only [RuleEngine.priorityLess, decide_eq_false_iff_not, not_lt] at *
    exact ⟨le_trans h3 h1, le_trans h2 h4⟩

/-- Evaluation through `evaluateRule` succeeds exactly when `Rule::evaluate`
does, with the same value. -/
theorem RuleEngine.evaluateRule_ok_iff (rule : Rule) (context : Context)
    (v : ParameterValue) :
    RuleEngine.evaluateRule rule context = .ok v ↔ rule.evaluate context = .ok v := by
  unfold RuleEngine.evaluateRule
  cases h : rule.evaluate context <;> simp

/-- Rules that raise or evaluate to the empty marker are passed over. -/
theorem RuleEngine.applyRules_skip (context : Context) (pre rest : List Rule)
    (hpre : ∀ r ∈ pre, ∀ w, r.evaluate context = .ok w → w = .empty) :
    RuleEngine.applyRules context (pre ++ rest) .empty
      = RuleEngine.applyRules context rest .empty := by
  induction pre with
  | nil => rfl
  | cons r pre ih =>
    have ih2 := ih (fun x hx => hpre x (List.mem_cons_of_mem _ hx))
    have hr := hpre r (List.mem_cons_self _ _)
    simp only [List.cons_append, RuleEngine.applyRules]
    cases h : RuleEngine.evaluateRule r context with
    | error e => simpa using ih2
    | ok w =>
      have hw : w = .empty := hr w ((RuleEngine.evaluateRule_ok_iff r context w).1 h)
      subst hw
      simpa [ParameterValue.isEmpty] using ih2

/-- A rule that evaluates to a non-empty value ends the walk with that value. -/
theorem RuleEngine.applyRules_hit (context : Context) (rule : Rule)
    (post : List Rule) (result v : ParameterValue)
    (hrule : rule.evaluate context = .ok v) (hv : v ≠ .empty) :
    RuleEngine.applyRules context (rule :: post) result = v := by
  have h := (RuleEngine.evaluateRule_ok_iff rule context v).2 hrule
  have hne : v.isEmpty = false := by
    cases hb : v.isEmpty with
    | false => rfl
    | true => exact absurd ((ParameterValue.isEmpty_iff v).1 hb) hv
  simp [RuleEngine.applyRules, h, hne]

theorem RuleEngine.applyTariffRules_of_ne_nil (S : StdSort) (tariff : Tariff)
    (order : Order) (hne : tariff.rules ≠ []) :
    RuleEngine.applyTariffRules S tariff order
      = .ok (RuleEngine.applyRules (RuleEngine.createContext order)
          (S Rule RuleEngine.priorityLess tariff.rules) .empty) := by
  unfold RuleEngine.applyTariffRules
  cases h : tariff.rules with
  | nil => exact absurd h hne
  | cons r rs => simp

/-- C1. For a tariff with a non-empty rule list: when, in the order in which
`applyTariffRules` walks the rules (ascending priority), `rule` is the first
rule that evaluates successfully to a non-empty value `v` (every rule before it
raised or evaluated to empty), `applyTariffRules` returns exactly `v`, whatever
the rules after it are. The walk order is a rearrangement of the tariff's rules
in which priorities never decrease. -/
theorem applyTariffRules_first_applicable (S : StdSort) (hS : IsStdSort S)
    (tariff : Tariff) (order : Order) (pre post : List Rule) (rule : Rule)
    (v : ParameterValue) (hne : tariff.rules ≠ [])
    (hwalk : S Rule RuleEngine.priorityLess tariff.rules = pre ++ rule :: post)
    (hpre : ∀ r ∈ pre, ∀ w,
      r.evaluate (RuleEngine.createContext order) = .ok w → w = .empty)
    (hrule : rule.evaluate (RuleEngine.createContext order) = .ok v)
    (hv : v ≠ .empty) :
    RuleEngine.applyTariffRules S tariff order = .ok v ∧
    List.Perm (pre ++ rule :: post) tariff.rules ∧
    List.Pairwise (fun a b => a.priority ≤ b.priority) (pre ++ rule :: post) ∧
    (∀ post2 : List Rule,
      RuleEngine.applyRules (RuleEngine.createContext order)
        (pre ++ rule :: post2) .empty = v) := by
  have hsw := priorityLess_strictWeakOn tariff.rules
  refine ⟨?_, ?_, ?_, ?_⟩
  · rw [RuleEngine.applyTariffRules_of_ne_nil S tariff order hne, hwalk,
      RuleEngine.applyRules_skip _ pre _ hpre,
      RuleEngine.applyRules_hit _ rule post _ v hrule hv]
  · rw [← hwalk]
    exact hS.perm _ _
  · rw [← hwalk]
    refine (hS.sorted _ _ hsw).imp ?_
    intro a b hab
    simpa [RuleEngine.priorityLess] using hab
  · intro post2
    rw [RuleEngine.applyRules_skip _ pre _ hpre,
      RuleEngine.applyRules_hit _ rule post2 _ v hrule hv]

theorem applyTariffRules_first_applicable_witness :
    RuleEngine.applyTariffRules insertionStdSort Examples.conditionalTariff
        Examples.heavyOrder = .ok (.double (Double.fin 1200)) ∧
    RuleEngine.applyTariffRules insertionStdSort Examples.conditionalTariff
        Examples.lightOrder = .ok (.double (Double.fin 1000)) := by
  constructor
  · exact (applyTariffRules_first_applicable insertionStdSort
      insertionStdSort_isStdSort Examples.conditionalTariff Examples.heavyOrder
      [] [Examples.standardRule] Examples.heavyCargoRule _
      (by simp [Examples.conditionalTariff, Tariff.addRule]) rfl
      (by simp) (by decide!) (by decide)).1
  · refine (applyTariffRules_first_applicable insertionStdSort
      insertionStdSort_isStdSort Examples.conditionalTariff Examples.lightOrder
      [Examples.heavyCargoRule] [] Examples.standardRule _
      (by simp [Examples.conditionalTariff, Tariff.addRule]) rfl
      ?_ (by decide!) (by decide)).1
    intro r hr w hw
    rw [List.mem_singleton] at hr
    subst hr
    have h : Examples.heavyCargoRule.evaluate
        (RuleEngine.createContext Examples.lightOrder) = .ok .empty := by decide!
    rw [h] at hw
    cases hw
    rfl

theorem strictWeakOn_of_key {α : Type} (key : α → Int) (l : List α) :
    StrictWeakOn (fun a b => decide (key a < key b)) l := by
  refine ⟨?_, ?_, ?_⟩
  · intro a _
    simp
  · intro a _ b _ c _ hab hbc
    simp only [decide_eq_true_eq] at *
    exact lt_trans hab hbc
  · intro a _ b _ c _ h1 h2 h3 h4
    simp only [decide_eq_false_iff_not, not_lt] at *
    exact ⟨le_trans h3 h1, le_trans h2 h4⟩

theorem RuleEngine.evaluateRule_error_iff (rule : Rule) (context : Context) :
    (∃ e, RuleEngine.evaluateRule rule context = .error e) ↔
      ∃ e, rule.evaluate context = .error e := by
  unfold RuleEngine.evaluateRule
  cases h : rule.evaluate context <;> simp

/-- The walk gives the same value on two rule lists whose rules, position by
position, evaluate alike or raise on the one side and are empty on the other. -/
theorem RuleEngine.applyRules_congr (context : Context) (pairs : List (Rule × Rule))
    (h : ∀ p ∈ pairs, p.2.evaluate context = p.1.evaluate context ∨
      ((∃ e, p.1.evaluate context = .error e) ∧ p.2.evaluate context = .ok .empty)) :
    RuleEngine.applyRules context (pairs.map Prod.snd) .empty
      = RuleEngine.applyRules context (pairs.map Prod.fst) .empty := by
  induction pairs with
  | nil => rfl
  | cons p pairs ih =>
    have ih2 := ih (fun q hq => h q (List.mem_cons_of_mem _ hq))
    have hp := h p (List.mem_cons_self _ _)
    simp only [List.map_cons, RuleEngine.applyRules]
    cases h1 : RuleEngine.evaluateRule p.1 context with
    | ok w =>
      have h1r := (RuleEngine.evaluateRule_ok_iff p.1 context w).1 h1
      have h2r : p.2.evaluate context = .ok w := by
        rcases hp with hp | ⟨⟨e, he⟩, _⟩
        · rw [hp, h1r]
        · rw [h1r] at he
          cases he
      rw [(RuleEngine.evaluateRule_ok_iff p.2 context w).2 h2r]
      cases hw : w.isEmpty with
      | false => simp [hw]
      | true =>
        have : w = .empty := (ParameterValue.isEmpty_iff w).1 hw
        subst this
        simpa using ih2
    | error e1 =>
      have h1r := (RuleEngine.evaluateRule_error_iff p.1 context).1 ⟨e1, h1⟩
      rcases hp with hp | ⟨_, hp⟩
      · rw [← hp] at h1r
        obtain ⟨e2, he2⟩ := (RuleEngine.evaluateRule_error_iff p.2 context).2 h1r
        rw [he2]
        simpa using ih2
      · rw [(RuleEngine.evaluateRule_ok_iff p.2 context .empty).2 hp]
        simpa [ParameterValue.isEmpty] using ih2

/-- C2. A rule that raises is treated like a rule that evaluates to the empty
marker: replacing, in a tariff, any rules that raise by rules of the same
priority that evaluate to empty (all other rules evaluating as before) does not
change the outcome of `applyTariffRules`. No error of a rule escapes:
`applyTariffRules` raises only for an empty rule list. And when a rule raises
with no applicable rule before it, the result is the one that the walk over the
rules after it supplies. -/
theorem applyTariffRules_error_like_empty (S : StdSort) (hS : IsStdSort S)
    (tariff tariff2 : Tariff) (order : Order)
    (hrules : List.Forall₂
      (fun r r2 => r2.priority = r.priority ∧
        (r2.evaluate (RuleEngine.createContext order)
            = r.evaluate (RuleEngine.createContext order) ∨
          ((∃ e, r.evaluate (RuleEngine.createContext order) = .error e) ∧
            r2.evaluate (RuleEngine.createContext order) = .ok .empty)))
      tariff.rules tariff2.rules) :
    RuleEngine.applyTariffRules S tariff2 order
      = RuleEngine.applyTariffRules S tariff order ∧
    (∀ e, RuleEngine.applyTariffRules S tariff order = .error e →
      tariff.rules = []) ∧
    (∀ (pre post : List Rule) (rule : Rule), tariff.rules ≠ [] →
      S Rule RuleEngine.priorityLess tariff.rules = pre ++ rule :: post →
      (∀ r ∈ pre, ∀ w,
        r.evaluate (RuleEngine.createContext order) = .ok w → w = .empty) →
      (∃ e, rule.evaluate (RuleEngine.createContext order) = .error e) →
      RuleEngine.applyTariffRules S tariff order
        = .ok (RuleEngine.applyRules (RuleEngine.createContext order) post .empty)) := by
  refine ⟨?_, ?_, ?_⟩
  · have hlen := hrules.length_eq
    have hfst := List.map_fst_zip tariff.rules tariff2.rules (le_of_eq hlen)
    have hsnd := List.map_snd_zip tariff.rules tariff2.rules (le_of_eq hlen.symm)
    have hrel : ∀ p ∈ List.zip tariff.rules tariff2.rules, _ :=
      fun p hp => List.forall₂_zip hrules (a := p.1) (b := p.2) hp
    by_cases hne : tariff.rules = []
    · have hne2 : tariff2.rules = [] := by
        rw [hne] at hlen
        exact List.length_eq_zero.1 hlen.symm
      simp [RuleEngine.applyTariffRules, hne, hne2]
    · have hne2 : tariff2.rules ≠ [] := by
        intro h
        rw [h] at hlen
        exact hne (List.length_eq_zero.1 hlen)
      rw [RuleEngine.applyTariffRules_of_ne_nil S tariff order hne,
        RuleEngine.applyTariffRules_of_ne_nil S tariff2 order hne2]
      have hsw := strictWeakOn_of_key (fun p : Rule × Rule => p.1.priority)
        (List.zip tariff.rules tariff2.rules)
      have n1 := hS.natural Prod.fst _ RuleEngine.priorityLess
        (List.zip tariff.rules tariff2.rules) hsw (fun a _ b _ => rfl)
      have n2 := hS.natural Prod.snd _ RuleEngine.priorityLess
        (List.zip tariff.rules tariff2.rules) hsw (fun a ha b hb => by
          simp only [RuleEngine.priorityLess]
          rw [(hrel a ha).1, (hrel b hb).1])
      rw [hfst] at n1
      rw [hsnd] at n2
      rw [n1, n2]
      congr 1
      refine RuleEngine.applyRules_congr _ _ ?_
      intro p hp
      exact (hrel p ((hS.perm _ _).subset hp)).2
  · intro e he
    by_contra hne
    rw [RuleEngine.applyTariffRules_of_ne_nil S tariff order hne] at he
    cases he
  · intro pre post rule hne hwalk hpre hrule
    rw [RuleEngine.applyTariffRules_of_ne_nil S tariff order hne, hwalk,
      RuleEngine.applyRules_skip _ pre _ hpre]
    obtain ⟨e, he⟩ := (RuleEngine.evaluateRule_error_iff rule _).2 hrule
    simp [RuleEngine.applyRules, he]

theorem applyTariffRules_error_like_empty_witness :
    RuleEngine.applyTariffRules insertionStdSort Examples.raisingTariff
        Examples.conditionalOrder = .ok (.double (Double.fin 7)) ∧
    RuleEngine.applyTariffRules insertionStdSort Examples.skippedTariff
        Examples.conditionalOrder
      = RuleEngine.applyTariffRules insertionStdSort Examples.raisingTariff
        Examples.conditionalOrder := by
  refine ⟨by decide!, (applyTariffRules_error_like_empty insertionStdSort
    insertionStdSort_isStdSort Examples.raisingTariff Examples.skippedTariff
    Examples.conditionalOrder ?_).1⟩
  refine List.Forall₂.cons ⟨rfl, Or.inl rfl⟩
    (List.Forall₂.cons ⟨rfl, Or.inr ⟨⟨"Ошибка вычисления: Деление на ноль", ?_⟩, ?_⟩⟩
      (List.Forall₂.cons
        ⟨rfl, Or.inr ⟨⟨"Ошибка вычисления: Параметр 99 не найден в контексте", ?_⟩, ?_⟩⟩
        (List.Forall₂.cons
          ⟨rfl, Or.inr
            ⟨⟨"Ошибка вычисления: Некорректные аргументы арифметической операции",
              ?_⟩, ?_⟩⟩
          List.Forall₂.nil)))
  all_goals decide!

/-- C3, counterexample. The tariff `noApplicableTariff` has two rules, one that
raises and one whose condition is false; `applyTariffRules` returns the empty
marker for it and raises nothing. -/
theorem applyTariffRules_no_applicable_returns_empty :
    Examples.noApplicableTariff.rules ≠ [] ∧
    (∀ r ∈ Examples.noApplicableTariff.rules,
      r.evaluate (RuleEngine.createContext Examples.conditionalOrder) = .ok .empty ∨
      ∃ e, r.evaluate (RuleEngine.createContext Examples.conditionalOrder) = .error e) ∧
    RuleEngine.applyTariffRules insertionStdSort Examples.noApplicableTariff
        Examples.conditionalOrder = .ok .empty ∧
    ¬ ∃ e, RuleEngine.applyTariffRules insertionStdSort Examples.noApplicableTariff
        Examples.conditionalOrder = .error e := by
  refine ⟨by simp [Examples.noApplicableTariff, Tariff.addRule], ?_, by decide!, ?_⟩
  · intro r hr
    simp only [Examples.noApplicableTariff, Tariff.addRule, Tariff.new,
      List.nil_append, List.cons_append, List.mem_cons, List.mem_singleton,
      List.not_mem_nil, or_false] at hr
    rcases hr with rfl | rfl
    · exact Or.inr ⟨"Ошибка вычисления: Деление на ноль", by decide!⟩
    · exact Or.inl (by decide!)
  · rintro ⟨e, he⟩
    have h : RuleEngine.applyTariffRules insertionStdSort Examples.noApplicableTariff
        Examples.conditionalOrder = .ok .empty := by decide!
    rw [h] at he
    cases he

/-- When every rule of a non-empty rule list evaluates to the empty marker or
raises, the walk ends with the empty marker. -/
theorem RuleEngine.applyTariffRules_of_none_applicable (S : StdSort)
    (hS : IsStdSort S) (tariff : Tariff) (order : Order) (hne : tariff.rules ≠ [])
    (hall : ∀ r ∈ tariff.rules,
      r.evaluate (RuleEngine.createContext order) = .ok .empty ∨
      ∃ e, r.evaluate (RuleEngine.createContext order) = .error e) :
    RuleEngine.applyTariffRules S tariff order = .ok .empty := by
  rw [RuleEngine.applyTariffRules_of_ne_nil S tariff order hne]
  have hskip := RuleEngine.applyRules_skip (RuleEngine.createContext order)
    (S Rule RuleEngine.priorityLess tariff.rules) [] (by
      intro r hr w hw
      have hmem := (hS.perm _ _).subset hr
      rcases hall r hmem with h | ⟨e, h⟩
      · rw [h] at hw
        cases hw
        rfl
      · rw [h] at hw
        cases hw)
  rw [List.append_nil] at hskip
  rw [hskip]
  rfl

/-- C3, amended. For a tariff with a non-empty rule list in which every rule
evaluates to the empty marker or raises, `applyTariffRules` returns the empty
marker and raises nothing; the failure appears in `calculateCost`, which for
such a tariff that is valid today raises "the result is not a number" and
leaves the order as it was. -/
theorem applyTariffRules_no_applicable_rule (S : StdSort) (hS : IsStdSort S)
    (tariff : Tariff) (order : Order) (hne : tariff.rules ≠ [])
    (hall : ∀ r ∈ tariff.rules,
      r.evaluate (RuleEngine.createContext order) = .ok .empty ∨
      ∃ e, r.evaluate (RuleEngine.createContext order) = .error e) :
    RuleEngine.applyTariffRules S tariff order = .ok .empty ∧
    (∀ today, tariff.isValid today = true →
      CostCalculator.calculateCost S today order tariff
        = (order, .error (CostCalculator.tariffError tariff
            (CalculationException "Результат расчета не является числом")))) := by
  have happly := RuleEngine.applyTariffRules_of_none_applicable S hS tariff order hne hall
  refine ⟨happly, ?_⟩
  intro today hvalid
  simp [CostCalculator.calculateCost, Tariff.isValidNow, hvalid, happly, GetDoubleValue]

theorem applyTariffRules_no_applicable_rule_witness :
    RuleEngine.applyTariffRules insertionStdSort Examples.noApplicableTariff
      Examples.conditionalOrder = .ok .empty :=
  (applyTariffRules_no_applicable_rule insertionStdSort insertionStdSort_isStdSort
    Examples.noApplicableTariff Examples.conditionalOrder
    (by simp [Examples.noApplicableTariff, Tariff.addRule])
    (by
      intro r hr
      simp only [Examples.noApplicableTariff, Tariff.addRule, Tariff.new,
        List.nil_append, List.cons_append, List.mem_cons, List.mem_singleton,
        List.not_mem_nil, or_false] at hr
      rcases hr with rfl | rfl
      · exact Or.inr ⟨"Ошибка вычисления: Деление на ноль", by decide!⟩
      · exact Or.inl (by decide!))).1

/-! ## CostCalculator.calculateCost -/

theorem Tariff.isValid_eq_true_iff (tariff : Tariff) (date : Date) :
    tariff.isValid date = true ↔
      tariff.isActive = true ∧
      (∀ validFrom, tariff.validFrom = some validFrom → Date.lt date validFrom = false) ∧
      (∀ validTo, tariff.validTo = some validTo → Date.lt validTo date = false) := by
  unfold Tariff.isValid
  cases tariff.isActive <;> cases tariff.validFrom <;> cases tariff.validTo <;> simp

/-- C4. Whenever `calculateCost` succeeds, the returned cost is the value that
`applyTariffRules` produced, an integer (converted to `double`) or a double,
and in the order after the call `tariffId` is the id of the tariff,
`calculatedCost` is the returned cost, the status is CALCULATED if it was DRAFT
and is unchanged otherwise, and the parameters are unchanged. -/
theorem calculateCost_success (S : StdSort) (today : Date) (order order2 : Order)
    (tariff : Tariff) (cost : Double)
    (h : CostCalculator.calculateCost S today order tariff = (order2, .ok cost)) :
    (∃ result, RuleEngine.applyTariffRules S tariff order = .ok result ∧
      (result = .double cost ∨ ∃ n : Integer, result = .integer n ∧ cost = Double.ofInt n)) ∧
    order2.tariffId = some tariff.id ∧
    order2.calculatedCost = cost ∧
    order2.status = (if order.status = .DRAFT then .CALCULATED else order.status) ∧
    order2.parameters = order.parameters := by
  unfold CostCalculator.calculateCost at h
  split at h
  · cases h
  · split at h
    · cases h
    · rename_i result happly
      split at h
      · cases h
      · rename_i c hc
        simp only [Prod.mk.injEq, Except.ok.injEq] at h
        obtain ⟨ho, hcost⟩ := h
        subst ho hcost
        refine ⟨⟨result, happly, ?_⟩, rfl, rfl, rfl, rfl⟩
        cases result <;> simp [GetDoubleValue] at hc
        · exact Or.inr ⟨_, rfl, hc.symm⟩
        · exact Or.inl (by rw [hc])

theorem calculateCost_success_witness :
    (CostCalculator.calculateCost insertionStdSort Examples.today
        Examples.simpleOrder Examples.simpleTariff).2 = .ok (Double.fin 50) ∧
    (CostCalculator.calculateCost insertionStdSort Examples.today
        Examples.simpleOrder Examples.simpleTariff).1.calculatedCost = Double.fin 50 ∧
    (CostCalculator.calculateCost insertionStdSort Examples.today
        Examples.simpleOrder Examples.simpleTariff).1.tariffId = some 1 ∧
    (CostCalculator.calculateCost insertionStdSort Examples.today
        Examples.simpleOrder Examples.simpleTariff).1.status = .CALCULATED := by
  have h : CostCalculator.calculateCost insertionStdSort Examples.today
      Examples.simpleOrder Examples.simpleTariff
      = ((CostCalculator.calculateCost insertionStdSort Examples.today
          Examples.simpleOrder Examples.simpleTariff).1, .ok (Double.fin 50)) :=
    Prod.ext rfl (by decide!)
  have hc := calculateCost_success insertionStdSort Examples.today
    Examples.simpleOrder _ Examples.simpleTariff (Double.fin 50) h
  exact ⟨by decide!, hc.2.2.1, hc.2.1, hc.2.2.2.1⟩

/-- C5. `calculateCost` succeeds if and only if the tariff is valid today
(active, today not before `validFrom`, not after `validTo`) and
`applyTariffRules` yields an integer or a double. It raises "tariff invalid"
when the tariff is inactive or today is outside its window, and raises "the
result is not a number" (inside the message that names the tariff) when the
tariff is valid and the value of `applyTariffRules` is a string, a boolean, a
date or empty. -/
theorem calculateCost_outcome (S : StdSort) (today : Date) (order : Order)
    (tariff : Tariff) :
    ((∃ cost, (CostCalculator.calculateCost S today order tariff).2 = .ok cost) ↔
      ((tariff.isActive = true ∧
        (∀ validFrom, tariff.validFrom = some validFrom →
          Date.lt today validFrom = false) ∧
        (∀ validTo, tariff.validTo = some validTo →
          Date.lt validTo today = false)) ∧
       ∃ result, RuleEngine.applyTariffRules S tariff order = .ok result ∧
        ((∃ n, result = .integer n) ∨ ∃ x, result = .double x))) ∧
    ((tariff.isActive = false ∨
      (∃ validFrom, tariff.validFrom = some validFrom ∧
        Date.lt today validFrom = true) ∨
      (∃ validTo, tariff.validTo = some validTo ∧ Date.lt validTo today = true)) →
      (CostCalculator.calculateCost S today order tariff).2
        = .error (CalculationException "Тариф недействителен")) ∧
    (tariff.isValid today = true →
      ∀ result, RuleEngine.applyTariffRules S tariff order = .ok result →
      (result = .empty ∨ (∃ s, result = .string s) ∨ (∃ b, result = .boolean b) ∨
        ∃ date, result = .date date) →
      (CostCalculator.calculateCost S today order tariff).2
        = .error (CostCalculator.tariffError tariff
            (CalculationException "Результат расчета не является числом"))) := by
  refine ⟨?_, ?_, ?_⟩
  · rw [← Tariff.isValid_eq_true_iff]
    unfold CostCalculator.calculateCost Tariff.isValidNow
    cases hv : tariff.isValid today with
    | false => simp
    | true =>
      cases happly : RuleEngine.applyTariffRules S tariff order with
      | error e => simp
      | ok result => cases result <;> simp [GetDoubleValue]
  · intro h
    have hv : tariff.isValid today = false := by
      cases hv : tariff.isValid today with
      | false => rfl
      | true =>
        obtain ⟨ha, hf, ht⟩ := (Tariff.isValid_eq_true_iff tariff today).1 hv
        rcases h with h | ⟨f, hf1, hf2⟩ | ⟨t, ht1, ht2⟩
        · rw [ha] at h
          cases h
        · rw [hf f hf1] at hf2
          cases hf2
        · rw [ht t ht1] at ht2
          cases ht2
    simp [CostCalculator.calculateCost, Tariff.isValidNow, hv]
  · intro hv result happly hkind
    rcases hkind with rfl | ⟨s, rfl⟩ | ⟨b, rfl⟩ | ⟨date, rfl⟩ <;>
      simp [CostCalculator.calculateCost, Tariff.isValidNow, hv, happly, GetDoubleValue]

/-- Instances: the inactive tariff of `InactiveTariffThrowsException` raises,
and a tariff whose rule yields a string raises "not a number". -/
theorem calculateCost_outcome_witness :
    (CostCalculator.calculateCost insertionStdSort Examples.today
        Examples.simpleOrder Examples.inactiveTariff).2
      = .error (CalculationException "Тариф недействителен") ∧
    (CostCalculator.calculateCost insertionStdSort Examples.today
        Examples.simpleOrder Examples.textTariff).2
      = .error (CostCalculator.tariffError Examples.textTariff
          (CalculationException "Результат расчета не является числом")) :=
  ⟨(calculateCost_outcome insertionStdSort Examples.today Examples.simpleOrder
      Examples.inactiveTariff).2.1 (Or.inl rfl),
   (calculateCost_outcome insertionStdSort Examples.today Examples.simpleOrder
      Examples.textTariff).2.2 (by decide) (.string "дорого") (by decide!)
      (Or.inr (Or.inl ⟨_, rfl⟩))⟩

/-! ## std::map -/

theorem StdMap.find_set {ν : Type} (m : StdMap ν) (key : Integer) (value : ν)
    (k : Integer) :
    (m.set key value).find k = if k = key then some value else m.find k := by
  induction m with
  | nil => simp [StdMap.set, StdMap.find]
  | cons entry rest ih =>
    obtain ⟨k0, v0⟩ := entry
    simp only [StdMap.set]
    split
    · simp [StdMap.find]
    · split
      · rename_i h
        subst h
        simp only [StdMap.find]
        split <;> rfl
      · rename_i h
        simp only [StdMap.find, ih]
        by_cases hk : k = k0
        · subst hk
          have hne : k ≠ key := fun h2 => h h2.symm
          simp [hne]
        · simp [hk]

theorem StdMap.find_isSome_iff {ν : Type} (m : StdMap ν) (k : Integer) :
    (∃ v, m.find k = some v) ↔ k ∈ m.map Prod.fst := by
  induction m with
  | nil => simp [StdMap.find]
  | cons entry rest ih =>
    obtain ⟨k0, v0⟩ := entry
    simp only [StdMap.find, List.map_cons, List.mem_cons]
    by_cases hk : k = k0
    · simp [hk]
    · simp [hk, ih]

theorem StdMap.mem_keys_set {ν : Type} (m : StdMap ν) (key : Integer) (value : ν)
    (k : Integer) :
    k ∈ (m.set key value).map Prod.fst ↔ k = key ∨ k ∈ m.map Prod.fst := by
  rw [← StdMap.find_isSome_iff, ← StdMap.find_isSome_iff, StdMap.find_set]
  by_cases hk : k = key <;> simp [hk]

/-- Assignment keeps the keys in strictly ascending order. -/
theorem StdMap.set_keys_sorted {ν : Type} (m : StdMap ν) (key : Integer) (value : ν)
    (h : List.Pairwise (fun a b : Integer => a < b) (m.map Prod.fst)) :
    List.Pairwise (fun a b : Integer => a < b) ((m.set key value).map Prod.fst) := by
  induction m with
  | nil => simp [StdMap.set]
  | cons entry rest ih =>
    obtain ⟨k0, v0⟩ := entry
    simp only [List.map_cons, List.pairwise_cons] at h
    simp only [StdMap.set]
    split
    · rename_i hlt
      simp only [List.map_cons, List.pairwise_cons, List.mem_cons]
      refine ⟨?_, h.1, h.2⟩
      rintro b (rfl | hb)
      · exact hlt
      · exact lt_trans hlt (h.1 b hb)
    · split
      · rename_i heq
        subst heq
        simpa using h
      · rename_i hnlt hne
        simp only [List.map_cons, List.pairwise_cons]
        refine ⟨?_, ih h.2⟩
        intro b hb
        rcases (StdMap.mem_keys_set rest key value b).1 hb with rfl | hb
        · exact lt_of_le_of_ne (not_lt.1 hnlt) (fun h2 => hne h2.symm)
        · exact h.1 b hb

/-! ## CostCalculator.calculateWithAllTariffs -/

theorem lastTariffWithId_some (tariffs : List Tariff) (id : Integer) (t : Tariff)
    (h : lastTariffWithId tariffs id = some t) : t ∈ tariffs ∧ t.id = id := by
  induction tariffs with
  | nil => simp [lastTariffWithId] at h
  | cons u rest ih =>
    simp only [lastTariffWithId] at h
    cases hr : lastTariffWithId rest id with
    | some later =>
      rw [hr] at h
      simp only [Option.some.injEq] at h
      subst h
      exact ⟨List.mem_cons_of_mem _ (ih hr).1, (ih hr).2⟩
    | none =>
      rw [hr] at h
      by_cases hu : u.id = id
      · simp only [hu, if_true, Option.some.injEq] at h
        subst h
        exact ⟨List.mem_cons_self _ _, hu⟩
      · simp [hu] at h

theorem lastTariffWithId_none (tariffs : List Tariff) (id : Integer) :
    lastTariffWithId tariffs id = none ↔ ∀ t ∈ tariffs, t.id ≠ id := by
  induction tariffs with
  | nil => simp [lastTariffWithId]
  | cons u rest ih =>
    simp only [lastTariffWithId, List.mem_cons, forall_eq_or_imp]
    cases hr : lastTariffWithId rest id with
    | some later =>
      have := lastTariffWithId_some rest id later hr
      constructor
      · intro h
        cases h
      · intro h
        exact absurd this.2 (h.2 later this.1)
    | none =>
      rw [hr] at ih
      by_cases hu : u.id = id
      · simp [hu]
      · simpa [hu] using ih.1 rfl

theorem lastTariffWithId_append (pre post : List Tariff) (t : Tariff)
    (hpost : ∀ u ∈ post, u.id ≠ t.id) :
    lastTariffWithId (pre ++ t :: post) t.id = some t := by
  induction pre with
  | nil =>
    simp [lastTariffWithId, (lastTariffWithId_none post t.id).2 hpost]
  | cons u pre ih => simp [lastTariffWithId, ih]

/-- The batch leaves the order as it is and stores, for every id, the record
of the last tariff of the list that has this id. -/
theorem CostCalculator.calculateWithAllTariffs_foldl (S : StdSort) (today : Date)
    (order : Order) (tariffs : List Tariff) (m : StdMap CalculationResult) :
    (tariffs.foldl
      (fun state tariff =>
        (state.1, state.2.set tariff.id
          (CostCalculator.tariffResult S today state.1 tariff)))
      (order, m)).1 = order ∧
    (List.Pairwise (fun a b : Integer => a < b) (m.map Prod.fst) →
      List.Pairwise (fun a b : Integer => a < b)
        ((tariffs.foldl
          (fun state tariff =>
            (state.1, state.2.set tariff.id
              (CostCalculator.tariffResult S today state.1 tariff)))
          (order, m)).2.map Prod.fst)) ∧
    ∀ id, (tariffs.foldl
      (fun state tariff =>
        (state.1, state.2.set tariff.id
          (CostCalculator.tariffResult S today state.1 tariff)))
      (order, m)).2.find id
      = match lastTariffWithId tariffs id with
        | some t => some (CostCalculator.tariffResult S today order t)
        | none => m.find id := by
  induction tariffs generalizing m with
  | nil => simp [lastTariffWithId]
  | cons u rest ih =>
    simp only [List.foldl_cons]
    obtain ⟨h1, h2, h3⟩ := ih (m.set u.id (CostCalculator.tariffResult S today order u))
    refine ⟨h1, fun hm => h2 (StdMap.set_keys_sorted m _ _ hm), ?_⟩
    intro id
    rw [h3 id]
    simp only [lastTariffWithId]
    cases hr : lastTariffWithId rest id with
    | some later => rfl
    | none =>
      simp only [StdMap.find_set]
      by_cases hu : u.id = id
      · simp [hu]
      · have : id ≠ u.id := fun h => hu h.symm
        simp [hu, this]

theorem CostCalculator.calculateWithAllTariffs_fst (S : StdSort) (today : Date)
    (order : Order) (tariffs : List Tariff) :
    (CostCalculator.calculateWithAllTariffs S today order tariffs).1 = order :=
  (CostCalculator.calculateWithAllTariffs_foldl S today order tariffs []).1

theorem CostCalculator.calculateWithAllTariffs_find (S : StdSort) (today : Date)
    (order : Order) (tariffs : List Tariff) (id : Integer) :
    (CostCalculator.calculateWithAllTariffs S today order tariffs).2.find id
      = (lastTariffWithId tariffs id).map (CostCalculator.tariffResult S today order) := by
  have h := (CostCalculator.calculateWithAllTariffs_foldl S today order tariffs []).2.2 id
  unfold CostCalculator.calculateWithAllTariffs
  rw [h]
  cases lastTariffWithId tariffs id <;> simp [StdMap.find]

/-- The record of a tariff is a success with cost `cost` exactly when
`calculateCost` returns `cost` for it. -/
theorem CostCalculator.tariffResult_success_iff (S : StdSort) (today : Date)
    (order : Order) (tariff : Tariff) (cost : Double) :
    ((CostCalculator.tariffResult S today order tariff).success = true ∧
      (CostCalculator.tariffResult S today order tariff).cost = cost) ↔
    (CostCalculator.calculateCost S today order tariff).2 = .ok cost := by
  unfold CostCalculator.tariffResult CostCalculator.tryTariff
    CostCalculator.calculateCost
  cases hv : tariff.isValidNow today with
  | false => simp
  | true =>
    cases happly : RuleEngine.applyTariffRules S tariff order with
    | error e => simp
    | ok result => cases hd : GetDoubleValue result <;> simp [hd]

theorem CostCalculator.tariffResult_tariffId (S : StdSort) (today : Date)
    (order : Order) (tariff : Tariff) :
    (CostCalculator.tariffResult S today order tariff).tariffId = tariff.id := by
  unfold CostCalculator.tariffResult CostCalculator.tryTariff
  cases hv : tariff.isValidNow today with
  | false => simp
  | true =>
    cases happly : RuleEngine.applyTariffRules S tariff order with
    | error e => simp
    | ok result => cases hd : GetDoubleValue result <;> simp [hd]

theorem lastTariffWithId_of_nodup (tariffs : List Tariff)
    (hids : (tariffs.map (fun t => t.id)).Nodup) (t : Tariff) (ht : t ∈ tariffs) :
    lastTariffWithId tariffs t.id = some t := by
  obtain ⟨pre, post, rfl⟩ := List.append_of_mem ht
  refine lastTariffWithId_append pre post t ?_
  intro u hu hid
  rw [List.map_append, List.map_cons] at hids
  have h2 := (List.nodup_append.1 hids).2.1
  rw [List.nodup_cons] at h2
  exact h2.1 (hid ▸ List.mem_map_of_mem (fun t => t.id) hu)

theorem RuleEngine.applyTariffRules_error (S : StdSort) (tariff : Tariff)
    (order : Order) (e : String)
    (h : RuleEngine.applyTariffRules S tariff order = .error e) :
    tariff.rules = [] ∧ e = CalculationException "Тариф не содержит правил расчета" := by
  by_cases hne : tariff.rules = []
  · simp [RuleEngine.applyTariffRules, hne] at h
    exact ⟨hne, h.symm⟩
  · rw [RuleEngine.applyTariffRules_of_ne_nil S tariff order hne] at h
    cases h

/-- The record of a tariff for which `calculateCost` does not succeed. -/
theorem CostCalculator.tariffResult_failed (S : StdSort) (today : Date)
    (order : Order) (tariff : Tariff)
    (h : ∀ cost, (CostCalculator.calculateCost S today order tariff).2 ≠ .ok cost) :
    (CostCalculator.tariffResult S today order tariff).success = false ∧
    (CostCalculator.tariffResult S today order tariff).cost = Double.fin 0 ∧
    (CostCalculator.tariffResult S today order tariff).errorMessage ≠ "" := by
  unfold CostCalculator.calculateCost at h
  unfold CostCalculator.tariffResult CostCalculator.tryTariff
  cases hv : tariff.isValidNow today with
  | false => simp
  | true =>
    cases happly : RuleEngine.applyTariffRules S tariff order with
    | error e =>
      obtain ⟨-, he⟩ := RuleEngine.applyTariffRules_error S tariff order e happly
      subst he
      simp [CalculationException, TariffSystemException]
    | ok result =>
      cases hd : GetDoubleValue result with
      | none => simp [hd]
      | some cost =>
        exfalso
        refine h cost ?_
        simp [hv, happly, hd]

/-- C6. For tariffs with pairwise distinct ids and a tariff `t` of the list,
the batch has an entry for `t.id`; it is a success exactly when
`calculateCost` on `t` succeeds, and then its cost is the cost that
`calculateCost` returns. -/
theorem calculateWithAllTariffs_agrees_with_calculateCost (S : StdSort)
    (today : Date) (order : Order) (tariffs : List Tariff)
    (hids : (tariffs.map (fun t => t.id)).Nodup) (t : Tariff) (ht : t ∈ tariffs) :
    ∃ entry,
      (CostCalculator.calculateWithAllTariffs S today order tariffs).2.find t.id
        = some entry ∧
      (entry.success = true ↔
        ∃ cost, (CostCalculator.calculateCost S today order t).2 = .ok cost) ∧
      (∀ cost, (CostCalculator.calculateCost S today order t).2 = .ok cost →
        entry.cost = cost) := by
  refine ⟨CostCalculator.tariffResult S today order t, ?_, ?_, ?_⟩
  · rw [CostCalculator.calculateWithAllTariffs_find,
      lastTariffWithId_of_nodup tariffs hids t ht]
    rfl
  · constructor
    · intro hs
      exact ⟨_, (CostCalculator.tariffResult_success_iff S today order t _).1 ⟨hs, rfl⟩⟩
    · rintro ⟨cost, hc⟩
      exact ((CostCalculator.tariffResult_success_iff S today order t cost).2 hc).1
  · intro cost hc
    exact ((CostCalculator.tariffResult_success_iff S today order t cost).2 hc).2

theorem calculateWithAllTariffs_agrees_with_calculateCost_witness :
    (CostCalculator.calculateCost insertionStdSort Examples.today
        Examples.searchOrder Examples.middleTariff).2 = .ok (Double.fin 1500) ∧
    ∃ entry,
      (CostCalculator.calculateWithAllTariffs insertionStdSort Examples.today
        Examples.searchOrder Examples.threeTariffs).2.find 2 = some entry ∧
      entry.cost = Double.fin 1500 := by
  have hc : (CostCalculator.calculateCost insertionStdSort Examples.today
      Examples.searchOrder Examples.middleTariff).2 = .ok (Double.fin 1500) := by
    decide!
  obtain ⟨entry, hfind, -, hcost⟩ :=
    calculateWithAllTariffs_agrees_with_calculateCost insertionStdSort
      Examples.today Examples.searchOrder Examples.threeTariffs (by decide)
      Examples.middleTariff (by simp [Examples.threeTariffs])
  exact ⟨hc, entry, hfind, hcost _ hc⟩

/-- C7, counterexample. In the list of an expired tariff followed by a valid
tariff with the same id, the expired tariff is invalid today, yet the entry
under its id is a success: the record of the later tariff. -/
theorem calculateWithAllTariffs_same_id_hides_failure :
    Examples.expiredTariff ∈ [Examples.expiredTariff, Examples.sameIdTariff] ∧
    Examples.expiredTariff.isValid Examples.today = false ∧
    (CostCalculator.calculateWithAllTariffs insertionStdSort Examples.today
        Examples.searchOrder [Examples.expiredTariff, Examples.sameIdTariff]).2.find
        Examples.expiredTariff.id
      = some { cost := Double.fin 1200, tariffId := 5, tariffName := "Новый",
               success := true, errorMessage := "" } :=
  ⟨List.mem_cons_self _ _, by decide, by decide!⟩

/-- C7, amended. The batch raises nothing and returns a map that has an entry
for an id exactly when a tariff of the list has this id, one entry per id, and
each entry carries its key as `tariffId`. A tariff that is invalid today, has no
rules, has no applicable rule or yields a non-numeric value is recorded as an
entry with `success = false`, cost 0 and a non-empty message, provided no
later tariff of the list has the same id (so always when the ids are pairwise
distinct); the entry of an id is the record of the last tariff with this id. -/
theorem calculateWithAllTariffs_entries (S : StdSort) (hS : IsStdSort S)
    (today : Date) (order : Order) (tariffs : List Tariff) :
    (∀ id, (∃ entry,
        (CostCalculator.calculateWithAllTariffs S today order tariffs).2.find id
          = some entry) ↔ ∃ t ∈ tariffs, t.id = id) ∧
    ((CostCalculator.calculateWithAllTariffs S today order tariffs).2.map
      Prod.fst).Nodup ∧
    (∀ id entry,
      (CostCalculator.calculateWithAllTariffs S today order tariffs).2.find id
        = some entry → entry.tariffId = id) ∧
    (∀ id entry,
      (CostCalculator.calculateWithAllTariffs S today order tariffs).2.find id
        = some entry →
      ∃ t, lastTariffWithId tariffs id = some t ∧
        entry = CostCalculator.tariffResult S today order t) ∧
    (∀ (pre post : List Tariff) (t : Tariff), tariffs = pre ++ t :: post →
      (∀ u ∈ post, u.id ≠ t.id) →
      (t.isValid today = false ∨ t.rules = [] ∨
        (t.rules ≠ [] ∧ ∀ r ∈ t.rules,
          r.evaluate (RuleEngine.createContext order) = .ok .empty ∨
          ∃ e, r.evaluate (RuleEngine.createContext order) = .error e) ∨
        ∃ v, RuleEngine.applyTariffRules S t order = .ok v ∧
          GetDoubleValue v = none) →
      ∃ entry,
        (CostCalculator.calculateWithAllTariffs S today order tariffs).2.find t.id
          = some entry ∧
        entry.success = false ∧ entry.cost = Double.fin 0 ∧
        entry.errorMessage ≠ "") := by
  refine ⟨?_, ?_, ?_, ?_, ?_⟩
  · intro id
    rw [CostCalculator.calculateWithAllTariffs_find]
    cases hl : lastTariffWithId tariffs id with
    | none =>
      constructor
      · rintro ⟨_, h⟩
        cases h
      · rintro ⟨t, ht, hid⟩
        exact absurd hid ((lastTariffWithId_none tariffs id).1 hl t ht)
    | some t =>
      have := lastTariffWithId_some tariffs id t hl
      exact ⟨fun _ => ⟨t, this.1, this.2⟩, fun _ => ⟨_, rfl⟩⟩
  · have h := (CostCalculator.calculateWithAllTariffs_foldl S today order tariffs
      []).2.1 List.Pairwise.nil
    exact h.imp (fun hab => ne_of_lt hab)
  · intro id entry hfind
    rw [CostCalculator.calculateWithAllTariffs_find] at hfind
    cases hl : lastTariffWithId tariffs id with
    | none => simp [hl] at hfind
    | some t =>
      simp only [hl, Option.map_some', Option.some.injEq] at hfind
      subst hfind
      rw [CostCalculator.tariffResult_tariffId]
      exact (lastTariffWithId_some tariffs id t hl).2
  · intro id entry hfind
    rw [CostCalculator.calculateWithAllTariffs_find] at hfind
    cases hl : lastTariffWithId tariffs id with
    | none => simp [hl] at hfind
    | some t =>
      simp only [hl, Option.map_some', Option.some.injEq] at hfind
      exact ⟨t, rfl, hfind.symm⟩
  · intro pre post t htariffs hpost hfail
    refine ⟨CostCalculator.tariffResult S today order t, ?_, ?_⟩
    · rw [CostCalculator.calculateWithAllTariffs_find, htariffs,
        lastTariffWithId_append pre post t hpost]
      rfl
    · apply CostCalculator.tariffResult_failed
      intro cost hcost
      unfold CostCalculator.calculateCost Tariff.isValidNow at hcost
      rcases hfail with hv | hr | ⟨hne, hall⟩ | ⟨v, hv, hd⟩
      · simp [hv] at hcost
      · simp [RuleEngine.applyTariffRules, hr] at hcost
        split at hcost <;> simp at hcost
      · rw [RuleEngine.applyTariffRules_of_none_applicable S hS t order hne hall]
          at hcost
        simp only [GetDoubleValue] at hcost
        split at hcost <;> simp at hcost
      · rw [hv] at hcost
        simp only [hd] at hcost
        split at hcost <;> simp at hcost

/-- Instance: one valid and one expired tariff give one success and one
failure entry. -/
theorem calculateWithAllTariffs_entries_witness :
    (CostCalculator.calculateWithAllTariffs insertionStdSort Examples.today
        Examples.searchOrder [Examples.cheapTariff, Examples.expiredTariff]).2.find 1
      = some { cost := Double.fin 1000, tariffId := 1, tariffName := "Дешевый",
               success := true, errorMessage := "" } ∧
    ∃ entry,
      (CostCalculator.calculateWithAllTariffs insertionStdSort Examples.today
        Examples.searchOrder [Examples.cheapTariff, Examples.expiredTariff]).2.find 5
        = some entry ∧
      entry.success = false ∧ entry.cost = Double.fin 0 ∧ entry.errorMessage ≠ "" :=
  ⟨by decide!,
   (calculateWithAllTariffs_entries insertionStdSort insertionStdSort_isStdSort
      Examples.today Examples.searchOrder
      [Examples.cheapTariff, Examples.expiredTariff]).2.2.2.2
      [Examples.cheapTariff] [] Examples.expiredTariff rfl
      (fun _ hu => absurd hu (List.not_mem_nil _)) (Or.inl (by decide))⟩

/-! ## OptimalSearcher -/

theorem OptimalSearcher.findOptimalTariff_fst (S : StdSort) (today : Date)
    (order : Order) (tariffs : List Tariff) :
    (OptimalSearcher.findOptimalTariff S today order tariffs).1 = order := by
  unfold OptimalSearcher.findOptimalTariff
  split
  · rfl
  · simp only []
    split <;> exact CostCalculator.calculateWithAllTariffs_fst S today order tariffs

theorem OptimalSearcher.compareAllTariffs_fst (S : StdSort) (today : Date)
    (order : Order) (tariffs : List Tariff) :
    (OptimalSearcher.compareAllTariffs S today order tariffs).1 = order :=
  CostCalculator.calculateWithAllTariffs_fst S today order tariffs

theorem OptimalSearcher.findTopNTariffs_fst (S : StdSort) (today : Date)
    (order : Order) (tariffs : List Tariff) (topN : Nat) :
    (OptimalSearcher.findTopNTariffs S today order tariffs topN).1 = order := by
  unfold OptimalSearcher.findTopNTariffs
  simp only []
  split <;> exact OptimalSearcher.compareAllTariffs_fst S today order tariffs

theorem OptimalSearcher.analyzeSavings_fst (S : StdSort) (today : Date)
    (order : Order) (tariffs : List Tariff) :
    (OptimalSearcher.analyzeSavings S today order tariffs).1 = order := by
  unfold OptimalSearcher.analyzeSavings
  simp only []
  split <;> exact OptimalSearcher.compareAllTariffs_fst S today order tariffs

/-- C8. The batch and the searches built on it do not change the order: after
`calculateWithAllTariffs`, `findOptimalTariff`, `compareAllTariffs`,
`findTopNTariffs` and `analyzeSavings` the order (so its `tariffId`,
`calculatedCost`, status and parameters) is the one before the call, whereas a
successful `calculateCost` writes the id of the tariff and the cost into the
order. -/
theorem batch_and_search_leave_order (S : StdSort) (today : Date) (order : Order)
    (tariffs : List Tariff) (topN : Nat) :
    (CostCalculator.calculateWithAllTariffs S today order tariffs).1 = order ∧
    (OptimalSearcher.findOptimalTariff S today order tariffs).1 = order ∧
    (OptimalSearcher.compareAllTariffs S today order tariffs).1 = order ∧
    (OptimalSearcher.findTopNTariffs S today order tariffs topN).1 = order ∧
    (OptimalSearcher.analyzeSavings S today order tariffs).1 = order ∧
    (∀ tariff cost,
      (CostCalculator.calculateCost S today order tariff).2 = .ok cost →
      (CostCalculator.calculateCost S today order tariff).1.tariffId = some tariff.id ∧
      (CostCalculator.calculateCost S today order tariff).1.calculatedCost = cost) := by
  refine ⟨CostCalculator.calculateWithAllTariffs_fst S today order tariffs,
    OptimalSearcher.findOptimalTariff_fst S today order tariffs,
    OptimalSearcher.compareAllTariffs_fst S today order tariffs,
    OptimalSearcher.findTopNTariffs_fst S today order tariffs topN,
    OptimalSearcher.analyzeSavings_fst S today order tariffs, ?_⟩
  intro tariff cost h
  unfold CostCalculator.calculateCost at h ⊢
  split at h
  · cases h
  · rename_i hv
    simp only [hv]
    split at h
    · cases h
    · split at h
      · cases h
      · simp only [Except.ok.injEq] at h
        subst h
        exact ⟨rfl, rfl⟩

/-- Instance, the order and tariff of `CostCalculatorTest`: the batch leaves
`tariffId` unset and the cost 0, `calculateCost` changes both. -/
theorem batch_and_search_leave_order_witness :
    Examples.simpleOrder.tariffId = none ∧
    Examples.simpleOrder.calculatedCost = Double.fin 0 ∧
    (CostCalculator.calculateWithAllTariffs insertionStdSort Examples.today
      Examples.simpleOrder [Examples.simpleTariff]).1 = Examples.simpleOrder ∧
    (CostCalculator.calculateCost insertionStdSort Examples.today
      Examples.simpleOrder Examples.simpleTariff).1.tariffId = some 1 ∧
    (CostCalculator.calculateCost insertionStdSort Examples.today
      Examples.simpleOrder Examples.simpleTariff).1.calculatedCost = Double.fin 50 :=
  have h := batch_and_search_leave_order insertionStdSort Examples.today
    Examples.simpleOrder [Examples.simpleTariff] 0
  ⟨rfl, rfl, h.1,
    (h.2.2.2.2.2 Examples.simpleTariff (Double.fin 50) (by decide!)).1,
    (h.2.2.2.2.2 Examples.simpleTariff (Double.fin 50) (by decide!)).2⟩

theorem Double.lt_irreflexive (a : Double) : Double.lt a a = false := by
  cases a <;> simp [Double.lt]

theorem Double.lt_transitive (a b c : Double) (hab : Double.lt a b = true)
    (hbc : Double.lt b c = true) : Double.lt a c = true := by
  cases a <;> cases b <;> cases c <;> simp_all [Double.lt] <;> linarith

/-- Between two values that are not NaN, `a <= b` holds when `b < a` fails. -/
theorem Double.le_of_not_lt (a b : Double) (ha : a ≠ Double.nan)
    (hb : b ≠ Double.nan) (h : Double.lt b a = false) : Double.le a b = true := by
  cases a <;> cases b <;> simp_all [Double.lt, Double.le, Double.eq]
  all_goals exact lt_or_eq_of_le h

/-- Invariant of the loop of `findOptimalTariff` after the tariffs `visited`:
either nothing is chosen and `minCost` is still `DBL_MAX`, or the chosen tariff
was visited and its successful result has the cost `minCost`, below `DBL_MAX`;
and no successful result of a visited tariff is below `minCost`. -/
theorem OptimalSearcher.searchStep_foldl (results : StdMap CalculationResult)
    (visited : List Tariff) :
    ((visited.foldl (OptimalSearcher.searchStep results)
          (none, Double.fin DBL_MAX)).1 = none ∧
        (visited.foldl (OptimalSearcher.searchStep results)
          (none, Double.fin DBL_MAX)).2 = Double.fin DBL_MAX ∨
      ∃ t ∈ visited, ∃ entry,
        (visited.foldl (OptimalSearcher.searchStep results)
          (none, Double.fin DBL_MAX)).1 = some t ∧
        results.find t.id = some entry ∧ entry.success = true ∧
        entry.cost = (visited.foldl (OptimalSearcher.searchStep results)
          (none, Double.fin DBL_MAX)).2 ∧
        Double.lt entry.cost (Double.fin DBL_MAX) = true) ∧
    ∀ u ∈ visited, ∀ entry, results.find u.id = some entry →
      entry.success = true →
      Double.lt entry.cost (visited.foldl (OptimalSearcher.searchStep results)
        (none, Double.fin DBL_MAX)).2 = false := by
  induction visited using List.reverseRecOn with
  | nil => exact ⟨Or.inl ⟨rfl, rfl⟩, fun u hu => absurd hu (List.not_mem_nil _)⟩
  | append_singleton visited a ih =>
    obtain ⟨ih1, ih2⟩ := ih
    rw [List.foldl_append]
    simp only [List.foldl_cons, List.foldl_nil]
    generalize visited.foldl (OptimalSearcher.searchStep results)
      (none, Double.fin DBL_MAX) = state at ih1 ih2 ⊢
    have keep : OptimalSearcher.searchStep results state a = state →
        (∀ entry, results.find a.id = some entry → entry.success = true →
          Double.lt entry.cost state.2 = false) →
        ((OptimalSearcher.searchStep results state a).1 = none ∧
            (OptimalSearcher.searchStep results state a).2 = Double.fin DBL_MAX ∨
          ∃ t ∈ visited ++ [a], ∃ entry,
            (OptimalSearcher.searchStep results state a).1 = some t ∧
            results.find t.id = some entry ∧ entry.success = true ∧
            entry.cost = (OptimalSearcher.searchStep results state a).2 ∧
            Double.lt entry.cost (Double.fin DBL_MAX) = true) ∧
        ∀ u ∈ visited ++ [a], ∀ entry, results.find u.id = some entry →
          entry.success = true →
          Double.lt entry.cost (OptimalSearcher.searchStep results state a).2
            = false := by
      intro hstep ha
      rw [hstep]
      refine ⟨?_, ?_⟩
      · rcases ih1 with h | ⟨t, ht, entry, h⟩
        · exact Or.inl h
        · exact Or.inr ⟨t, List.mem_append_left _ ht, entry, h⟩
      · intro u hu entry hfind hs
        rcases List.mem_append.1 hu with hu | hu
        · exact ih2 u hu entry hfind hs
        · rw [List.mem_singleton] at hu
          subst hu
          exact ha entry hfind hs
    cases hfind : results.find a.id with
    | none =>
      refine keep (by simp [OptimalSearcher.searchStep, hfind]) ?_
      intro entry h
      rw [hfind] at h
      cases h
    | some found =>
      cases hs : found.success with
      | false =>
        refine keep (by simp [OptimalSearcher.searchStep, hfind, hs]) ?_
        intro entry h hs2
        rw [hfind] at h
        simp only [Option.some.injEq] at h
        subst h
        rw [hs] at hs2
        cases hs2
      | true =>
        cases hlt : Double.lt found.cost state.2 with
        | false =>
          refine keep (by simp [OptimalSearcher.searchStep, hfind, hs, hlt]) ?_
          intro entry h _
          rw [hfind] at h
          simp only [Option.some.injEq] at h
          subst h
          exact hlt
        | true =>
          have hstep : OptimalSearcher.searchStep results state a
              = (some a, found.cost) := by
            simp [OptimalSearcher.searchStep, hfind, hs, hlt]
          rw [hstep]
          have hmax : Double.lt found.cost (Double.fin DBL_MAX) = true := by
            rcases ih1 with ⟨-, h⟩ | ⟨t, _, entry, -, -, -, hc, hm⟩
            · rw [← h]
              exact hlt
            · exact Double.lt_transitive _ _ _ hlt (hc ▸ hm)
          refine ⟨Or.inr ⟨a, by simp, found, rfl, hfind, hs, rfl, hmax⟩, ?_⟩
          intro u hu entry hfu hsu
          rcases List.mem_append.1 hu with hu | hu
          · have h1 := ih2 u hu entry hfu hsu
            cases h2 : Double.lt entry.cost found.cost with
            | false => rfl
            | true =>
              rw [Double.lt_transitive _ _ _ h2 hlt] at h1
              cases h1
          · rw [List.mem_singleton] at hu
            subst hu
            rw [hfind] at hfu
            simp only [Option.some.injEq] at hfu
            subst hfu
            exact Double.lt_irreflexive _

/-- C9, counterexample. For a tariff whose rule yields NaN and a tariff with
cost 1000, `findOptimalTariff` returns the second tariff with cost 1000, the
result of the first is a success with cost NaN, and `1000 <= NaN` is false. -/
theorem findOptimalTariff_not_below_nan :
    (OptimalSearcher.findOptimalTariff insertionStdSort Examples.today
        Examples.searchOrder [Examples.nanTariff, Examples.cheapTariff]).2.map
        (fun found => (found.1.id, found.2)) = some (1, Double.fin 1000) ∧
    (CostCalculator.calculateWithAllTariffs insertionStdSort Examples.today
        Examples.searchOrder [Examples.nanTariff, Examples.cheapTariff]).2.find 6
      = some { cost := Double.nan, tariffId := 6, tariffName := "Не число",
               success := true, errorMessage := "" } ∧
    Double.le (Double.fin 1000) Double.nan = false :=
  ⟨by decide!, by decide!, by decide!⟩

/-- C9, amended. Whenever `findOptimalTariff` returns a pair `(t, c)`: `t` is
a tariff of the list, the batch result for `t.id` is a success with cost `c`,
no successful batch result has a cost below `c`, and `c` is less than or equal
to the cost of every successful batch result whose cost is not NaN. -/
theorem findOptimalTariff_minimal (S : StdSort) (today : Date)
    (order order2 : Order) (tariffs : List Tariff) (t : Tariff) (c : Double)
    (h : OptimalSearcher.findOptimalTariff S today order tariffs
      = (order2, some (t, c))) :
    t ∈ tariffs ∧
    (∃ entry,
      (CostCalculator.calculateWithAllTariffs S today order tariffs).2.find t.id
        = some entry ∧ entry.success = true ∧ entry.cost = c) ∧
    (∀ id entry,
      (CostCalculator.calculateWithAllTariffs S today order tariffs).2.find id
        = some entry → entry.success = true → Double.lt entry.cost c = false) ∧
    (∀ id entry,
      (CostCalculator.calculateWithAllTariffs S today order tariffs).2.find id
        = some entry → entry.success = true → entry.cost ≠ Double.nan →
      Double.le c entry.cost = true) := by
  unfold OptimalSearcher.findOptimalTariff at h
  split at h
  · cases h
  · simp only [] at h
    obtain ⟨h1, h2⟩ := OptimalSearcher.searchStep_foldl
      (CostCalculator.calculateWithAllTariffs S today order tariffs).2 tariffs
    generalize tariffs.foldl (OptimalSearcher.searchStep
      (CostCalculator.calculateWithAllTariffs S today order tariffs).2)
      (none, Double.fin DBL_MAX) = final at h h1 h2
    split at h
    · rename_i optimalTariff hopt
      simp only [Prod.mk.injEq, Option.some.injEq] at h
      obtain ⟨-, ht, hc⟩ := h
      subst ht hc
      rcases h1 with ⟨hnone, -⟩ | ⟨t, ht, entry, hsome, hfind, hs, hcost, hmax⟩
      · rw [hnone] at hopt
        cases hopt
      · rw [hsome] at hopt
        simp only [Option.some.injEq] at hopt
        subst hopt
        have hbelow : ∀ id entry2,
            (CostCalculator.calculateWithAllTariffs S today order tariffs).2.find id
              = some entry2 → entry2.success = true →
            Double.lt entry2.cost final.2 = false := by
          intro id entry2 hf hs2
          have hex : ∃ e, (CostCalculator.calculateWithAllTariffs S today order
              tariffs).2.find id = some e := ⟨entry2, hf⟩
          rw [CostCalculator.calculateWithAllTariffs_find] at hex
          cases hl : lastTariffWithId tariffs id with
          | none => simp [hl] at hex
          | some u =>
            obtain ⟨hu, hid⟩ := lastTariffWithId_some tariffs id u hl
            exact h2 u hu entry2 (hid ▸ hf) hs2
        refine ⟨ht, ⟨entry, hfind, hs, hcost⟩, hbelow, ?_⟩
        intro id entry2 hf hs2 hnan
        refine Double.le_of_not_lt _ _ ?_ hnan (hbelow id entry2 hf hs2)
        intro hc
        rw [hcost, hc] at hmax
        simp [Double.lt] at hmax
    · cases h

/-- Instance, `OptimalSearcherTest.FindOptimalTariff`: costs 1000, 1500 and
2000 give the tariff with id 1 and cost 1000. -/
theorem findOptimalTariff_minimal_witness :
    (OptimalSearcher.findOptimalTariff insertionStdSort Examples.today
        Examples.searchOrder Examples.threeTariffs).2.map
        (fun found => (found.1.id, found.2)) = some (1, Double.fin 1000) ∧
    ∀ id entry,
      (CostCalculator.calculateWithAllTariffs insertionStdSort Examples.today
        Examples.searchOrder Examples.threeTariffs).2.find id = some entry →
      entry.success = true → entry.cost ≠ Double.nan →
      Double.le (Double.fin 1000) entry.cost = true := by
  have hv : (OptimalSearcher.findOptimalTariff insertionStdSort Examples.today
      Examples.searchOrder Examples.threeTariffs).2.map
      (fun found => (found.1.id, found.2)) = some (1, Double.fin 1000) := by decide!
  refine ⟨hv, ?_⟩
  cases hr : OptimalSearcher.findOptimalTariff insertionStdSort Examples.today
      Examples.searchOrder Examples.threeTariffs with
  | mk order2 found =>
    rw [hr] at hv
    cases found with
    | none => cases hv
    | some pair =>
      obtain ⟨t, c⟩ := pair
      simp only [Option.map_some', Option.some.injEq, Prod.mk.injEq] at hv
      obtain ⟨-, hc⟩ := hv
      subst hc
      exact (findOptimalTariff_minimal insertionStdSort Examples.today
        Examples.searchOrder order2 Examples.threeTariffs t _ hr).2.2.2

/-- C10, the failing input. A single tariff whose rule yields the largest
finite `double`: `calculateCost` and the batch succeed for it with that cost,
`compareAllTariffs` lists it, and `findOptimalTariff` returns no result. -/
theorem findOptimalTariff_misses_max_cost :
    (CostCalculator.calculateCost insertionStdSort Examples.today
        Examples.searchOrder Examples.maxCostTariff).2 = .ok (Double.fin DBL_MAX) ∧
    (CostCalculator.calculateWithAllTariffs insertionStdSort Examples.today
        Examples.searchOrder [Examples.maxCostTariff]).2.find 7
      = some { cost := Double.fin DBL_MAX, tariffId := 7, tariffName := "Предельный",
               success := true, errorMessage := "" } ∧
    (OptimalSearcher.compareAllTariffs insertionStdSort Examples.today
        Examples.searchOrder [Examples.maxCostTariff]).2.map (fun e => e.tariffId)
      = [7] ∧
    (OptimalSearcher.findOptimalTariff insertionStdSort Examples.today
        Examples.searchOrder [Examples.maxCostTariff]).2.isNone = true :=
  ⟨by decide!, by decide!, by decide!, by decide!⟩

/-- What `findOptimalTariff` does: it returns no result exactly when no
successful batch result has a cost below `DBL_MAX`. -/
theorem OptimalSearcher.findOptimalTariff_isNone_iff (S : StdSort) (today : Date)
    (order : Order) (tariffs : List Tariff) :
    (OptimalSearcher.findOptimalTariff S today order tariffs).2.isNone = true ↔
    ∀ id entry,
      (CostCalculator.calculateWithAllTariffs S today order tariffs).2.find id
        = some entry → entry.success = true →
      Double.lt entry.cost (Double.fin DBL_MAX) = false := by
  unfold OptimalSearcher.findOptimalTariff
  split
  · rename_i hempty
    have hnil : tariffs = [] := List.isEmpty_iff.1 hempty
    subst hnil
    simp [CostCalculator.calculateWithAllTariffs, StdMap.find]
  · simp only []
    obtain ⟨h1, h2⟩ := OptimalSearcher.searchStep_foldl
      (CostCalculator.calculateWithAllTariffs S today order tariffs).2 tariffs
    generalize tariffs.foldl (OptimalSearcher.searchStep
      (CostCalculator.calculateWithAllTariffs S today order tariffs).2)
      (none, Double.fin DBL_MAX) = final at h1 h2
    rcases h1 with ⟨hnone, hmin⟩ | ⟨t, ht, entry, hsome, hfind, hs, hcost, hmax⟩
    · rw [hnone]
      simp only [Option.isNone_none, true_iff]
      intro id entry hf hs
      have hex : ∃ e, (CostCalculator.calculateWithAllTariffs S today order
          tariffs).2.find id = some e := ⟨entry, hf⟩
      rw [CostCalculator.calculateWithAllTariffs_find] at hex
      cases hl : lastTariffWithId tariffs id with
      | none => simp [hl] at hex
      | some u =>
        obtain ⟨hu, hid⟩ := lastTariffWithId_some tariffs id u hl
        rw [← hmin]
        exact h2 u hu entry (hid ▸ hf) hs
    · rw [hsome]
      constructor
      · intro h
        simp at h
      · intro hall
        rw [hall t.id entry hfind hs] at hmax
        cases hmax

/-! ## Tariff.isValid -/

theorem Date.lt_eq_false_iff (a b : Date) :
    Date.lt a b = false ↔ Date.le b a = true := by
  obtain ⟨y1, m1, d1⟩ := a
  obtain ⟨y2, m2, d2⟩ := b
  simp only [Date.lt, Date.le, Date.mk.injEq, Bool.or_eq_false_iff,
    Bool.and_eq_false_iff, Bool.or_eq_true, Bool.and_eq_true, decide_eq_true_eq,
    decide_eq_false_iff_not]
  omega

/-- C17. `Tariff.isValid(date)` is true if and only if the tariff is active,
`validFrom` is unset or `validFrom <= date`, and `validTo` is unset or
`date <= validTo`; an inactive tariff is valid on no date, and an active
tariff is valid on a date that is one of its bounds and meets the other. -/
theorem isValid_iff (tariff : Tariff) (date : Date) :
    (tariff.isValid date = true ↔
      tariff.isActive = true ∧
      (tariff.validFrom = none ∨
        ∃ validFrom, tariff.validFrom = some validFrom ∧
          Date.le validFrom date = true) ∧
      (tariff.validTo = none ∨
        ∃ validTo, tariff.validTo = some validTo ∧ Date.le date validTo = true)) ∧
    (tariff.isActive = false → tariff.isValid date = false) ∧
    (tariff.isActive = true →
      (tariff.validFrom = none ∨ tariff.validFrom = some date) →
      (tariff.validTo = none ∨ tariff.validTo = some date) →
      tariff.isValid date = true) := by
  refine ⟨?_, ?_, ?_⟩
  · rw [Tariff.isValid_eq_true_iff]
    cases hf : tariff.validFrom <;> cases ht : tariff.validTo <;>
      simp [Date.lt_eq_false_iff]
  · intro h
    simp [Tariff.isValid, h]
  · intro ha hf ht
    have hirr : Date.lt date date = false := by simp [Date.lt]
    rcases hf with hf | hf <;> rcases ht with ht | ht <;>
      simp [Tariff.isValid, ha, hf, ht, hirr]

/-- Instance: a tariff valid from 2025-01-01 to 2025-12-31 is valid on both
end dates and invalid on the day before and the day after. -/
theorem isValid_iff_witness :
    Examples.boundedTariff.isValid { year := 2025, month := 1, day := 1 } = true ∧
    Examples.boundedTariff.isValid { year := 2025, month := 12, day := 31 } = true ∧
    Examples.boundedTariff.isValid { year := 2024, month := 12, day := 31 } = false ∧
    Examples.boundedTariff.isValid { year := 2026, month := 1, day := 1 } = false :=
  ⟨(isValid_iff Examples.boundedTariff _).1.2
      ⟨rfl, Or.inr ⟨_, rfl, by decide⟩, Or.inr ⟨_, rfl, by decide⟩⟩,
   (isValid_iff Examples.boundedTariff _).1.2
      ⟨rfl, Or.inr ⟨_, rfl, by decide⟩, Or.inr ⟨_, rfl, by decide⟩⟩,
   by decide, by decide⟩

/-! ## Rule.evaluate -/

/-- C18. For a rule with an action: `Rule.evaluate` returns what the action
evaluates to when the condition is absent or evaluates to the boolean true,
and returns the empty marker when the condition evaluates to the boolean false
or to a value that is not a boolean; in that case the action is not looked at,
so the rule does not fail even when its action would raise. -/
theorem Rule.evaluate_by_condition (rule : Rule) (action : Expression)
    (context : Context) (haction : rule.action = some action) :
    (rule.condition = none → rule.evaluate context = action.evaluate context) ∧
    (∀ condition, rule.condition = some condition →
      condition.evaluate context = .ok (.boolean true) →
      rule.evaluate context = action.evaluate context) ∧
    (∀ condition v, rule.condition = some condition →
      condition.evaluate context = .ok v → v ≠ .boolean true →
      rule.evaluate context = .ok .empty) ∧
    (∀ condition v e, rule.condition = some condition →
      condition.evaluate context = .ok v → v ≠ .boolean true →
      action.evaluate context = .error e →
      rule.evaluate context = .ok .empty) := by
  have hfalse : ∀ condition v, rule.condition = some condition →
      condition.evaluate context = .ok v → v ≠ .boolean true →
      rule.evaluate context = .ok .empty := by
    intro condition v hc hv hne
    unfold Rule.evaluate
    rw [hc]
    simp only [hv]
    cases v with
    | boolean b =>
      cases b with
      | true => exact absurd rfl hne
      | false => rfl
    | _ => rfl
  refine ⟨?_, ?_, hfalse, fun condition v _ hc hv hne _ => hfalse condition v hc hv hne⟩
  · intro hc
    simp [Rule.evaluate, Rule.evaluateAction, hc, haction]
  · intro condition hc hv
    simp [Rule.evaluate, Rule.evaluateAction, hc, hv, haction, GetBooleanValue]

/-- Instances: the two rules of `RuleTest`, and a rule whose condition is a
number and whose action divides by zero. -/
theorem Rule.evaluate_by_condition_witness :
    Examples.sumRule.evaluate Examples.ruleContext = .ok (.double (Double.fin 150)) ∧
    Examples.falseConditionRule.evaluate Examples.ruleContext = .ok .empty ∧
    Examples.numberConditionRule.evaluate Examples.ruleContext = .ok .empty := by
  refine ⟨?_, ?_, ?_⟩
  · rw [(Rule.evaluate_by_condition Examples.sumRule _ Examples.ruleContext rfl).2.1
      _ rfl (by decide!)]
    decide!
  · exact (Rule.evaluate_by_condition Examples.falseConditionRule _
      Examples.ruleContext rfl).2.2.1 _ (.boolean false) rfl (by decide!) (by decide)
  · exact (Rule.evaluate_by_condition Examples.numberConditionRule _
      Examples.ruleContext rfl).2.2.2 _ (.double (Double.fin 1))
      "Ошибка вычисления: Деление на ноль" rfl (by decide!) (by decide) (by decide!)

/-- C19. An error is not turned into "condition false": when evaluating the
condition raises, `Rule.evaluate` raises the same error; when the condition is
absent or evaluates to the boolean true and evaluating the action raises,
`Rule.evaluate` raises that error. In neither case does it return the empty
marker. -/
theorem Rule.evaluate_raises (rule : Rule) (context : Context) :
    (∀ condition e, rule.condition = some condition →
      condition.evaluate context = .error e →
      rule.evaluate context = .error e ∧ rule.evaluate context ≠ .ok .empty) ∧
    (∀ action e, rule.action = some action →
      (rule.condition = none ∨
        ∃ condition, rule.condition = some condition ∧
          condition.evaluate context = .ok (.boolean true)) →
      action.evaluate context = .error e →
      rule.evaluate context = .error e ∧ rule.evaluate context ≠ .ok .empty) := by
  refine ⟨?_, ?_⟩
  · intro condition e hc he
    have h : rule.evaluate context = .error e := by
      simp [Rule.evaluate, hc, he]
    exact ⟨h, by rw [h]; exact fun h2 => by cases h2⟩
  · intro action e ha hcond he
    have h : rule.evaluate context = .error e := by
      rcases hcond with hc | ⟨condition, hc, hv⟩
      · simp [Rule.evaluate, Rule.evaluateAction, hc, ha, he]
      · simp [Rule.evaluate, Rule.evaluateAction, hc, hv, ha, he, GetBooleanValue]
    exact ⟨h, by rw [h]; exact fun h2 => by cases h2⟩

/-- Instances: a condition that reads a missing parameter, and an action that
divides by zero, make the rule raise. -/
theorem Rule.evaluate_raises_witness :
    Examples.raisingConditionRule.evaluate Examples.ruleContext
      = .error "Ошибка вычисления: Параметр 99 не найден в контексте" ∧
    Examples.raisingActionRule.evaluate Examples.ruleContext
      = .error "Ошибка вычисления: Деление на ноль" :=
  ⟨((Rule.evaluate_raises Examples.raisingConditionRule Examples.ruleContext).1
      _ _ rfl (by decide!)).1,
   ((Rule.evaluate_raises Examples.raisingActionRule Examples.ruleContext).2
      _ _ rfl (Or.inl rfl) (by decide!)).1⟩

/-! ## Rounding to double -/

namespace Double

theorem pow2_eq (e : Int) : pow2 e = (2 : ℚ) ^ e := by
  unfold pow2
  split
  · rename_i h
    obtain ⟨n, rfl⟩ := Int.eq_ofNat_of_zero_le h
    simp
  · rename_i h
    obtain ⟨n, rfl⟩ := Int.exists_eq_neg_ofNat (le_of_not_le h)
    simp

theorem pow2_pos (e : Int) : 0 < pow2 e := by
  rw [pow2_eq]
  positivity

theorem pow2_add (a b : Int) : pow2 (a + b) = pow2 a * pow2 b := by
  rw [pow2_eq, pow2_eq, pow2_eq, zpow_add₀ (by norm_num)]

theorem pow2_le (a b : Int) (h : a ≤ b) : pow2 a ≤ pow2 b := by
  rw [pow2_eq, pow2_eq]
  exact zpow_le_zpow_right₀ (by norm_num) h

theorem pow2_lt_iff (a b : Int) : pow2 a < pow2 b ↔ a < b := by
  rw [pow2_eq, pow2_eq]
  exact zpow_lt_zpow_iff_right₀ (by norm_num)

theorem log2Aux_spec (fuel n : Nat) (hn : 1 ≤ n) (hf : n ≤ fuel) :
    2 ^ log2Aux fuel n ≤ n ∧ n < 2 ^ (log2Aux fuel n + 1) := by
  induction fuel generalizing n with
  | zero => omega
  | succ fuel ih =>
    unfold log2Aux
    split
    · rename_i h2
      have h := ih (n / 2) (by omega) (by omega)
      generalize log2Aux fuel (n / 2) = k at h
      simp only [pow_succ] at h ⊢
      generalize 2 ^ k = p at h ⊢
      omega
    · simp
      omega

theorem log2_spec (n : Nat) (hn : 1 ≤ n) :
    2 ^ log2 n ≤ n ∧ n < 2 ^ (log2 n + 1) :=
  log2Aux_spec n n hn le_rfl

theorem floorLog2_aux (q : ℚ) (N D : Nat) (hD : 1 ≤ D) (hqeq : q = (N : ℚ) / (D : ℚ))
    (hN1 : 2 ^ log2 N ≤ N) (hN2 : N < 2 ^ (log2 N + 1))
    (hD1 : 2 ^ log2 D ≤ D) (hD2 : D < 2 ^ (log2 D + 1)) (e : Int)
    (he : e = (if pow2 ((log2 N : Int) - (log2 D : Int)) ≤ q
      then (log2 N : Int) - (log2 D : Int) else (log2 N : Int) - (log2 D : Int) - 1)) :
    pow2 e ≤ q ∧ q < pow2 (e + 1) := by
  have hDpos : (0 : ℚ) < D := by exact_mod_cast hD
  have hN1q : (2 : ℚ) ^ (log2 N : Int) ≤ N := by exact_mod_cast hN1
  have hN2q : (N : ℚ) < (2 : ℚ) ^ ((log2 N : Int) + 1) := by exact_mod_cast hN2
  have hD1q : (2 : ℚ) ^ (log2 D : Int) ≤ D := by exact_mod_cast hD1
  have hD2q : (D : ℚ) < (2 : ℚ) ^ ((log2 D : Int) + 1) := by exact_mod_cast hD2
  generalize (log2 N : Int) = a at *
  generalize (log2 D : Int) = b at *
  have h2 : (2 : ℚ) ≠ 0 := by norm_num
  split at he
  · rename_i h
    subst he
    refine ⟨h, ?_⟩
    rw [pow2_eq, hqeq, div_lt_iff₀ hDpos]
    calc (N : ℚ) < 2 ^ (a + 1) := hN2q
      _ = 2 ^ (a - b + 1) * 2 ^ b := by rw [← zpow_add₀ h2]; congr 1; ring
      _ ≤ 2 ^ (a - b + 1) * D := by
        apply mul_le_mul_of_nonneg_left hD1q
        positivity
  · rename_i h
    rw [not_le] at h
    subst he
    refine ⟨?_, ?_⟩
    · rw [pow2_eq, hqeq, le_div_iff₀ hDpos]
      calc (2 : ℚ) ^ (a - b - 1) * D ≤ 2 ^ (a - b - 1) * 2 ^ (b + 1) := by
            apply mul_le_mul_of_nonneg_left hD2q.le
            positivity
        _ = 2 ^ a := by rw [← zpow_add₀ h2]; congr 1; ring
        _ ≤ N := hN1q
    · have : a - b - 1 + 1 = a - b := by ring
      rw [this]
      exact h

/-- The binary exponent brackets a positive rational between two powers of 2. -/
theorem floorLog2_spec (q : ℚ) (hq : 0 < q) :
    pow2 (floorLog2 q) ≤ q ∧ q < pow2 (floorLog2 q + 1) := by
  have hnum : 0 < q.num := Rat.num_pos.2 hq
  have hN : 1 ≤ q.num.natAbs := by omega
  have hD : 1 ≤ q.den := q.den_pos
  obtain ⟨hN1, hN2⟩ := log2_spec _ hN
  obtain ⟨hD1, hD2⟩ := log2_spec _ hD
  have hqeq : q = (q.num.natAbs : ℚ) / (q.den : ℚ) := by
    have h := Rat.num_div_den q
    have habs : (q.num : ℚ) = (q.num.natAbs : ℚ) := by
      rw [← Int.cast_natCast, Int.natAbs_of_nonneg hnum.le]
    rw [habs] at h
    exact h.symm
  exact floorLog2_aux q _ _ hD hqeq hN1 hN2 hD1 hD2 _ rfl

theorem floorLog2_mono (p q : ℚ) (hp : 0 < p) (hpq : p ≤ q) :
    floorLog2 p ≤ floorLog2 q := by
  by_contra h
  rw [not_le] at h
  have h1 := (floorLog2_spec p hp).1
  have h2 := (floorLog2_spec q (lt_of_lt_of_le hp hpq)).2
  have h3 : pow2 (floorLog2 q + 1) ≤ pow2 (floorLog2 p) := pow2_le _ _ (by omega)
  linarith

theorem floorLog2_lt (q : ℚ) (hq : 0 < q) (e : Int) (h : q < pow2 e) :
    floorLog2 q < e := by
  have h1 := (floorLog2_spec q hq).1
  exact (pow2_lt_iff _ _).1 (lt_of_le_of_lt h1 h)

theorem floorLog2_ge (q : ℚ) (hq : 0 < q) (e : Int) (h : pow2 e ≤ q) :
    e ≤ floorLog2 q := by
  have h1 := (floorLog2_spec q hq).2
  have := (pow2_lt_iff _ _).1 (lt_of_le_of_lt h h1)
  omega

theorem roundHalfEven_floor (x : ℚ) :
    ((Rat.floor x : Int) : ℚ) ≤ x ∧ x < ((Rat.floor x : Int) : ℚ) + 1 :=
  ⟨Int.floor_le x, Int.lt_floor_add_one x⟩

theorem roundHalfEven_intCast (n : Int) : roundHalfEven (n : ℚ) = n := by
  have hf : Rat.floor (n : ℚ) = n := by
    show ⌊(n : ℚ)⌋ = n
    exact Int.floor_intCast n
  simp [roundHalfEven, hf]

theorem roundHalfEven_le (x : ℚ) (n : Int) (h : x ≤ n) : roundHalfEven x ≤ n := by
  obtain ⟨h1, h2⟩ := roundHalfEven_floor x
  have hfn : Rat.floor x ≤ n := by
    have : ((Rat.floor x : Int) : ℚ) ≤ n := le_trans h1 h
    exact_mod_cast this
  unfold roundHalfEven
  simp only
  split
  · exact hfn
  · rename_i hr
    have hlt : ((Rat.floor x : Int) : ℚ) < n := by linarith
    have hlt2 : Rat.floor x < n := by exact_mod_cast hlt
    split
    · omega
    · split <;> omega

theorem roundHalfEven_ge (x : ℚ) (n : Int) (h : (n : ℚ) ≤ x) : n ≤ roundHalfEven x := by
  have hfn : n ≤ Rat.floor x := Int.le_floor.2 h
  unfold roundHalfEven
  simp only
  split
  · exact hfn
  · split
    · omega
    · split <;> omega

theorem roundHalfEven_abs_sub_le (x : ℚ) : |(roundHalfEven x : ℚ) - x| ≤ 1 / 2 := by
  obtain ⟨h1, h2⟩ := roundHalfEven_floor x
  unfold roundHalfEven
  simp only
  rw [abs_le]
  split
  · constructor <;> linarith
  · rename_i hr
    split
    · push_cast
      constructor <;> linarith
    · rename_i hr2
      split
      · constructor <;> linarith
      · push_cast
        constructor <;> linarith

/-- The rounding of a positive number, in terms of its rounded magnitude. -/
theorem ofRat_of_pos (q : ℚ) (hq : 0 < q) :
    ofRat q =
      if DBL_MAX < (roundHalfEven (q / pow2 (max (floorLog2 q) (-1022) - 52)) : ℚ)
          * pow2 (max (floorLog2 q) (-1022) - 52) then posInf
      else if (roundHalfEven (q / pow2 (max (floorLog2 q) (-1022) - 52)) : ℚ)
          * pow2 (max (floorLog2 q) (-1022) - 52) = 0 then fin 0
      else fin ((roundHalfEven (q / pow2 (max (floorLog2 q) (-1022) - 52)) : ℚ)
          * pow2 (max (floorLog2 q) (-1022) - 52)) := by
  simp [ofRat, abs_of_pos hq, not_lt.2 hq.le, zero, inf]

/-- Rounding commutes with the change of sign. -/
theorem ofRat_neg (q : ℚ) (hq : q ≠ 0) : ofRat (-q) = neg (ofRat q) := by
  rcases lt_or_gt_of_ne hq with h | h
  · have hn : ¬ (-q < 0) := by linarith
    simp only [ofRat, abs_neg, hn, h, decide_True, decide_False, if_true, if_false,
      zero, inf]
    split
    · rfl
    · split
      · rfl
      · rename_i h0
        simp [neg, h0]
  · have hn : ¬ (q < 0) := by linarith
    have hn2 : -q < 0 := by linarith
    simp only [ofRat, abs_neg, hn, hn2, decide_True, decide_False, if_true, if_false,
      zero, inf]
    split
    · rfl
    · split
      · simp [neg]
      · rename_i h0
        simp [neg, h0]

theorem DBL_MAX_eq : DBL_MAX = (2 ^ 53 - 1) * pow2 971 := by
  rw [pow2_eq]
  norm_num [DBL_MAX]

/-- Every number `m * 2 ^ e` with `m < 2 ^ 53` and `-1074 ≤ e ≤ 971` is a
`double`: rounding leaves it as it is. -/
theorem ofRat_exact (m : Nat) (e : Int) (hm : m < 2 ^ 53) (he1 : -1074 ≤ e)
    (he2 : e ≤ 971) : ofRat ((m : ℚ) * pow2 e) = fin ((m : ℚ) * pow2 e) := by
  rcases Nat.eq_zero_or_pos m with rfl | hpos
  · have : ofRat 0 = fin 0 := by decide!
    simpa using this
  have hmq : (0 : ℚ) < m := by exact_mod_cast hpos
  have hq : 0 < (m : ℚ) * pow2 e := mul_pos hmq (pow2_pos e)
  have hlt : floorLog2 ((m : ℚ) * pow2 e) < 53 + e := by
    apply floorLog2_lt _ hq
    rw [pow2_add]
    apply mul_lt_mul_of_pos_right _ (pow2_pos e)
    rw [pow2_eq]
    exact_mod_cast hm
  have hE : max (floorLog2 ((m : ℚ) * pow2 e)) (-1022) - 52 ≤ e := by
    rcases max_cases (floorLog2 ((m : ℚ) * pow2 e)) (-1022) with h | h <;> omega
  rw [ofRat_of_pos _ hq]
  generalize max (floorLog2 ((m : ℚ) * pow2 e)) (-1022) - 52 = u at hE ⊢
  obtain ⟨k, hk⟩ := Int.eq_ofNat_of_zero_le (sub_nonneg.2 hE)
  have he : e = k + u := by omega
  have hdiv : (m : ℚ) * pow2 e / pow2 u = ((m * 2 ^ k : Nat) : Int) := by
    rw [he, pow2_add, pow2_eq (k : Int)]
    field_simp [(pow2_pos u).ne.symm]
    ring
  have hmag : (roundHalfEven ((m : ℚ) * pow2 e / pow2 u) : ℚ) * pow2 u
      = (m : ℚ) * pow2 e := by
    rw [hdiv, roundHalfEven_intCast, ← hdiv]
    field_simp [(pow2_pos u).ne.symm]
  rw [hmag]
  have hmax : ¬ DBL_MAX < (m : ℚ) * pow2 e := by
    rw [not_lt, DBL_MAX_eq]
    have h1 : (m : ℚ) ≤ 2 ^ 53 - 1 := by
      have : m + 1 ≤ 2 ^ 53 := hm
      have h2 : ((m + 1 : Nat) : ℚ) ≤ ((2 ^ 53 : Nat) : ℚ) := by exact_mod_cast this
      push_cast at h2
      linarith
    calc (m : ℚ) * pow2 e ≤ (2 ^ 53 - 1) * pow2 e :=
          mul_le_mul_of_nonneg_right h1 (pow2_pos e).le
      _ ≤ (2 ^ 53 - 1) * pow2 971 :=
          mul_le_mul_of_nonneg_left (pow2_le _ _ he2) (by norm_num)
  simp [hmax, hq.ne.symm]

theorem pow2_zero : pow2 0 = 1 := by
  rw [pow2_eq]
  simp

/-- Every natural number up to `2 ^ 53` is a `double`. -/
theorem ofRat_natCast (n : Nat) (hn : n ≤ 2 ^ 53) : ofRat (n : ℚ) = fin (n : ℚ) := by
  rcases Nat.lt_or_ge n (2 ^ 53) with h | h
  · have := ofRat_exact n 0 h (by norm_num) (by norm_num)
    rwa [pow2_zero, mul_one] at this
  · have hn2 : n = 2 ^ 53 := le_antisymm hn h
    have := ofRat_exact (2 ^ 52) 1 (by norm_num) (by norm_num) (by norm_num)
    have h2 : ((2 ^ 52 : Nat) : ℚ) * pow2 1 = (n : ℚ) := by
      rw [hn2, pow2_eq]
      norm_num
    rwa [h2] at this

/-- Every integer of absolute value up to `2 ^ 53` is a `double`. -/
theorem ofRat_intCast (k : Int) (hk : |k| ≤ 2 ^ 53) : ofRat (k : ℚ) = fin (k : ℚ) := by
  rcases le_or_lt 0 k with h | h
  · obtain ⟨n, rfl⟩ := Int.eq_ofNat_of_zero_le h
    have hn : n ≤ 2 ^ 53 := by
      rw [abs_of_nonneg h] at hk
      exact_mod_cast hk
    exact_mod_cast ofRat_natCast n hn
  · obtain ⟨n, rfl⟩ := Int.exists_eq_neg_ofNat h.le
    have hn : n ≤ 2 ^ 53 := by
      rw [abs_neg, abs_of_nonneg (Int.ofNat_nonneg n)] at hk
      exact_mod_cast hk
    have hn0 : (n : ℚ) ≠ 0 := by
      intro h0
      have : n = 0 := by exact_mod_cast h0
      subst this
      simp at h
    have h1 := ofRat_neg (n : ℚ) hn0
    rw [ofRat_natCast n hn] at h1
    simp only [neg, hn0, if_false] at h1
    push_cast
    exact h1

/-- Rounding is monotone against a `double`: a positive number below the
double `B` rounds to a finite value between 0 and `B`. -/
theorem ofRat_le_of_le (q B : ℚ) (hq : 0 < q) (hqB : q ≤ B) (hB : ofRat B = fin B) :
    ∃ r, ofRat q = fin r ∧ 0 ≤ r ∧ r ≤ B := by
  have hBpos : 0 < B := lt_of_lt_of_le hq hqB
  rw [ofRat_of_pos B hBpos] at hB
  have hE : max (floorLog2 q) (-1022) ≤ max (floorLog2 B) (-1022) :=
    max_le_max (floorLog2_mono q B hq hqB) le_rfl
  rw [ofRat_of_pos q hq]
  generalize max (floorLog2 q) (-1022) = e at hE ⊢
  generalize max (floorLog2 B) (-1022) = f at hE hB
  obtain ⟨k, hk⟩ := Int.eq_ofNat_of_zero_le (sub_nonneg.2 hE)
  have hf : f - 52 = k + (e - 52) := by omega
  have hu := pow2_pos (e - 52)
  have hBmag : B = (roundHalfEven (B / pow2 (f - 52)) : ℚ) * pow2 (f - 52) ∧
      B ≤ DBL_MAX := by
    split at hB
    · cases hB
    · rename_i hmax
      split at hB
      · rename_i h0
        simp only [fin.injEq] at hB
        exact absurd hB.symm hBpos.ne.symm
      · simp only [fin.injEq] at hB
        rw [hB] at hmax
        exact ⟨by nth_rewrite 1 [← hB]; rw [hB], not_lt.1 hmax⟩
  obtain ⟨hBeq, hBmax⟩ := hBmag
  have hBint : B / pow2 (e - 52)
      = ((roundHalfEven (B / pow2 (f - 52)) * ((2 ^ k : Nat) : Int) : Int) : ℚ) := by
    nth_rewrite 1 [hBeq]
    rw [hf, pow2_add, pow2_eq (k : Int)]
    field_simp
    ring
  have hle : (roundHalfEven (q / pow2 (e - 52)) : ℚ) * pow2 (e - 52) ≤ B := by
    have h1 : q / pow2 (e - 52) ≤ B / pow2 (e - 52) :=
      div_le_div_of_nonneg_right hqB hu.le
    rw [hBint] at h1
    have h2 := roundHalfEven_le _ _ h1
    have h3 : (roundHalfEven (q / pow2 (e - 52)) : ℚ)
        ≤ ((roundHalfEven (B / pow2 (f - 52)) * ((2 ^ k : Nat) : Int) : Int) : ℚ) := by
      exact_mod_cast h2
    rw [← hBint] at h3
    calc (roundHalfEven (q / pow2 (e - 52)) : ℚ) * pow2 (e - 52)
        ≤ B / pow2 (e - 52) * pow2 (e - 52) := mul_le_mul_of_nonneg_right h3 hu.le
      _ = B := by field_simp
  have hge : (0 : ℚ) ≤ (roundHalfEven (q / pow2 (e - 52)) : ℚ) * pow2 (e - 52) := by
    have h1 : ((0 : Int) : ℚ) ≤ q / pow2 (e - 52) := by
      push_cast
      exact div_nonneg hq.le hu.le
    have h2 := roundHalfEven_ge _ _ h1
    have h3 : (0 : ℚ) ≤ (roundHalfEven (q / pow2 (e - 52)) : ℚ) := by exact_mod_cast h2
    exact mul_nonneg h3 hu.le
  have hmax : ¬ DBL_MAX
      < (roundHalfEven (q / pow2 (e - 52)) : ℚ) * pow2 (e - 52) := by
    rw [not_lt]
    exact le_trans hle hBmax
  rw [if_neg hmax]
  split
  · exact ⟨0, rfl, le_rfl, hBpos.le⟩
  · exact ⟨_, rfl, hge, hle⟩

theorem roundHalfEven_mul_sub (x u : ℚ) (hu : 0 < u) :
    |(roundHalfEven (x / u) : ℚ) * u - x| ≤ u / 2 := by
  have h1 := roundHalfEven_abs_sub_le (x / u)
  have h2 : (roundHalfEven (x / u) : ℚ) * u - x
      = ((roundHalfEven (x / u) : ℚ) - x / u) * u := by
    field_simp
  rw [h2, abs_mul, abs_of_pos hu]
  calc _ ≤ 1 / 2 * u := mul_le_mul_of_nonneg_right h1 hu.le
    _ = _ := by ring

/-- A finite result of rounding lies within half a unit in the last place of
the exact value. -/
theorem ofRat_error (q r : ℚ) (h : ofRat q = fin r) :
    |r - q| ≤ pow2 (max (floorLog2 |q|) (-1022) - 53) := by
  have hu := pow2_pos (max (floorLog2 |q|) (-1022) - 52)
  have hhalf : pow2 (max (floorLog2 |q|) (-1022) - 53)
      = pow2 (max (floorLog2 |q|) (-1022) - 52) / 2 := by
    have : max (floorLog2 |q|) (-1022) - 52
        = (max (floorLog2 |q|) (-1022) - 53) + 1 := by ring
    rw [this, pow2_add, pow2_eq 1]
    norm_num
  have hmag := roundHalfEven_mul_sub |q| _ hu
  rw [hhalf]
  unfold ofRat at h
  simp only at h
  generalize pow2 (max (floorLog2 |q|) (-1022) - 52) = u at hu hmag h ⊢
  generalize (roundHalfEven (|q| / u) : ℚ) * u = mag at hmag h
  split at h
  · simp only [inf] at h
    split at h <;> cases h
  · split at h
    · rename_i h0
      simp only [zero] at h
      split at h
      · cases h
      · simp only [fin.injEq] at h
        subst h0
        subst h
        rw [zero_sub, abs_neg] at hmag ⊢
        rwa [abs_abs] at hmag
    · simp only [fin.injEq] at h
      rw [← h]
      split
      · rename_i hneg
        rw [abs_of_neg hneg] at hmag
        have : -mag - q = -(mag - -q) := by ring
        rw [this, abs_neg]
        exact hmag
      · rename_i hneg
        rw [abs_of_nonneg (not_lt.1 hneg)] at hmag
        exact hmag

/-- In the normal range the relative error of rounding is at most `2 ^ -53`. -/
theorem ofRat_relative_error (q r : ℚ) (h : ofRat q = fin r)
    (hq : pow2 (-1022) ≤ |q|) : |r - q| ≤ |q| * pow2 (-53) := by
  have hpos : 0 < |q| := lt_of_lt_of_le (pow2_pos _) hq
  have hge := floorLog2_ge |q| hpos _ hq
  have h1 := ofRat_error q r h
  rw [max_eq_left hge] at h1
  have h2 : floorLog2 |q| - 53 = floorLog2 |q| + -53 := by ring
  rw [h2, pow2_add] at h1
  exact le_trans h1
    (mul_le_mul_of_nonneg_right (floorLog2_spec |q| hpos).1 (pow2_pos _).le)

theorem add_fin (x y : ℚ) : add (fin x) (fin y) = ofRat (x + y) := rfl

theorem sub_fin (x y : ℚ) : sub (fin x) (fin y) = ofRat (x - y) := by
  by_cases hy : y = 0
  · subst hy
    simp [sub, neg, add]
  · simp [sub, neg, add, hy, sub_eq_add_neg]

theorem mul_fin (x y : ℚ) (hx : x ≠ 0) (hy : y ≠ 0) :
    mul (fin x) (fin y) = ofRat (x * y) := by
  simp [mul, isInfinite, isZero, toRat, hx, hy]

theorem div_fin (x y : ℚ) (hx : x ≠ 0) (hy : y ≠ 0) :
    div (fin x) (fin y) = ofRat (x / y) := by
  simp [div, isInfinite, isZero, toRat, hx, hy]

/-- A product with a zero factor is a zero, negative when the other factor is. -/
theorem mul_fin_zero (x y : ℚ) (h : x = 0 ∨ y = 0) :
    mul (fin x) (fin y) = zero (xor (decide (x < 0)) (decide (y < 0))) := by
  rcases h with h | h <;> simp [mul, isInfinite, isZero, isNegative, h]

/-- Zero divided by a non-zero number is a zero, negative when the divisor is. -/
theorem div_fin_zero (y : ℚ) (hy : y ≠ 0) :
    div (fin 0) (fin y) = zero (decide (y < 0)) := by
  simp [div, isInfinite, isZero, isNegative, hy]

theorem roundHalfEven_nearest (x : ℚ) (n : Int) :
    |(roundHalfEven x : ℚ) - x| ≤ |(n : ℚ) - x| := by
  by_contra h
  rw [not_le] at h
  have h1 := roundHalfEven_abs_sub_le x
  have h2 : |((n - roundHalfEven x : Int) : ℚ)| < 1 := by
    push_cast
    have h3 : (n : ℚ) - (roundHalfEven x : ℚ)
        = ((n : ℚ) - x) - ((roundHalfEven x : ℚ) - x) := by ring
    rw [h3]
    have h4 := abs_sub ((n : ℚ) - x) ((roundHalfEven x : ℚ) - x)
    linarith
  have h5 : |n - roundHalfEven x| < 1 := by exact_mod_cast h2
  have h6 : n = roundHalfEven x := by
    have := Int.abs_lt_one_iff.1 h5
    omega
  rw [h6] at h
  exact lt_irrefl _ h

theorem roundHalfEven_mul_nearest (x u : ℚ) (hu : 0 < u) (n : Int) :
    |(roundHalfEven (x / u) : ℚ) * u - x| ≤ |(n : ℚ) * u - x| := by
  have h1 := roundHalfEven_nearest (x / u) n
  have h2 : ∀ k : ℚ, k * u - x = (k - x / u) * u := by
    intro k
    field_simp
  rw [h2, h2, abs_mul, abs_mul, abs_of_pos hu]
  exact mul_le_mul_of_nonneg_right h1 hu.le

theorem pow2_natCast_add (n : Nat) (e : Int) :
    pow2 ((n : Int) + e) = (2 : ℚ) ^ n * pow2 e := by
  rw [pow2_add, pow2_eq (n : Int), zpow_natCast]

theorem pow2_le_of_natCast (n : Nat) (a e : Int) (h : a ≤ (n : Int) + e) :
    pow2 a ≤ (2 : ℚ) ^ n * pow2 e := by
  rw [← pow2_natCast_add]
  exact pow2_le _ _ h

theorem pow2_ge_of_natCast (n : Nat) (a e : Int) (h : (n : Int) + e ≤ a) :
    (2 : ℚ) ^ n * pow2 e ≤ pow2 a := by
  rw [← pow2_natCast_add]
  exact pow2_le _ _ h

theorem DBL_MAX_lt : DBL_MAX < pow2 1024 := by
  rw [pow2_eq]
  norm_num [DBL_MAX]

/-- A finite result of rounding a positive number is a `double`, and no
`double` is nearer to the number. -/
theorem ofRat_nearest_of_pos (q r : ℚ) (hq : 0 < q) (h : ofRat q = fin r) :
    IsDouble r ∧ ∀ d, IsDouble d → |r - q| ≤ |d - q| := by
  have hspec := floorLog2_spec q hq
  have hu := pow2_pos (max (floorLog2 q) (-1022) - 52)
  have hE1 : floorLog2 q ≤ max (floorLog2 q) (-1022) := le_max_left _ _
  have hE2 : -1022 ≤ max (floorLog2 q) (-1022) := le_max_right _ _
  have hEcases : max (floorLog2 q) (-1022) = floorLog2 q ∨
      max (floorLog2 q) (-1022) = -1022 := by
    rcases max_cases (floorLog2 q) (-1022) with h | h
    · exact Or.inl h.1
    · exact Or.inr h.1
  have hnear := roundHalfEven_mul_nearest q _ hu
  have hN0 : 0 ≤ roundHalfEven (q / pow2 (max (floorLog2 q) (-1022) - 52)) :=
    roundHalfEven_ge _ 0 (by push_cast; exact div_nonneg hq.le hu.le)
  have hN1 : roundHalfEven (q / pow2 (max (floorLog2 q) (-1022) - 52)) ≤ 2 ^ 53 := by
    apply roundHalfEven_le
    rw [div_le_iff₀ hu]
    have h1 := pow2_le_of_natCast 53 (floorLog2 q + 1)
      (max (floorLog2 q) (-1022) - 52) (by push_cast; omega)
    push_cast
    linarith [hspec.2]
  have hN2 : max (floorLog2 q) (-1022) = floorLog2 q →
      2 ^ 52 ≤ roundHalfEven (q / pow2 (max (floorLog2 q) (-1022) - 52)) := by
    intro hE
    apply roundHalfEven_ge
    rw [le_div_iff₀ hu, hE]
    have h1 := pow2_ge_of_natCast 52 (floorLog2 q) (floorLog2 q - 52)
      (by push_cast; omega)
    push_cast
    linarith [hspec.1]
  rw [ofRat_of_pos q hq] at h
  generalize max (floorLog2 q) (-1022) = E at *
  generalize hNdef : roundHalfEven (q / pow2 (E - 52)) = N at *
  have hr : r = (N : ℚ) * pow2 (E - 52) ∧ (N : ℚ) * pow2 (E - 52) ≤ DBL_MAX := by
    split at h
    · cases h
    · rename_i hmax
      split at h
      · rename_i h0
        simp only [fin.injEq] at h
        exact ⟨by rw [h0, h], not_lt.1 hmax⟩
      · simp only [fin.injEq] at h
        exact ⟨h.symm, not_lt.1 hmax⟩
  obtain ⟨hr, hmax⟩ := hr
  subst hr
  obtain ⟨M, hM⟩ := Int.eq_ofNat_of_zero_le hN0
  have hMq : (N : ℚ) = (M : ℚ) := by
    rw [hM]
    push_cast
    rfl
  have hM1 : M ≤ 2 ^ 53 := by
    rw [hM] at hN1
    exact_mod_cast hN1
  have hbig : ∀ k : Int, 1024 ≤ k → DBL_MAX < pow2 k := fun k hk =>
    lt_of_lt_of_le DBL_MAX_lt (pow2_le _ _ hk)
  constructor
  · rcases Nat.lt_or_ge M (2 ^ 53) with hlt | hge
    · refine ⟨M, E - 52, hlt, by omega, ?_, ?_⟩
      · by_contra hE
        rw [not_le] at hE
        have hEfl : E = floorLog2 q := by
          rcases hEcases with h | h
          · exact h
          · omega
        have h52 := hN2 hEfl
        have h1 : pow2 E ≤ (N : ℚ) * pow2 (E - 52) := by
          have h2 := pow2_le_of_natCast 52 E (E - 52) (by push_cast; omega)
          have h3 : ((2 : ℚ) ^ 52) ≤ (N : ℚ) := by exact_mod_cast h52
          exact le_trans h2 (mul_le_mul_of_nonneg_right h3 hu.le)
        have h5 := hbig E (by omega)
        linarith
      · rw [abs_of_nonneg (mul_nonneg (by rw [hMq]; exact Nat.cast_nonneg M) hu.le), hMq]
    · have hMeq : M = 2 ^ 53 := le_antisymm hM1 hge
      have hval : (N : ℚ) * pow2 (E - 52) = ((2 ^ 52 : Nat) : ℚ) * pow2 (E - 51) := by
        rw [hMq, hMeq]
        have h2 : pow2 (E - 51) = pow2 ((1 : Nat) + (E - 52)) := by
          congr 1
          push_cast
          ring
        rw [h2, pow2_natCast_add]
        push_cast
        ring
      refine ⟨2 ^ 52, E - 51, by norm_num, by omega, ?_, ?_⟩
      · by_contra hE
        rw [not_le] at hE
        have h1 : (N : ℚ) * pow2 (E - 52) = pow2 (E + 1) := by
          rw [hval]
          have h2 : pow2 (E + 1) = pow2 ((52 : Nat) + (E - 51)) := by
            congr 1
            push_cast
            ring
          rw [h2, pow2_natCast_add]
          push_cast
          rfl
        have h5 := hbig (E + 1) (by omega)
        linarith
      · rw [hval, abs_of_nonneg (mul_nonneg (Nat.cast_nonneg _) (pow2_pos _).le)]
  · rintro d ⟨m, e, hm, he1, he2, hd⟩
    rcases le_or_lt d 0 with hd0 | hd0
    · have h0 := hnear 0
      rw [Int.cast_zero, zero_mul, zero_sub, abs_neg, abs_of_pos hq] at h0
      rw [abs_of_nonpos (by linarith : d - q ≤ 0)]
      linarith
    · rw [abs_of_pos hd0] at hd
      rcases le_or_lt (E - 52) e with hle | hlt
      · obtain ⟨k, hk⟩ := Int.eq_ofNat_of_zero_le (sub_nonneg.2 hle)
        have hde : d = ((m * 2 ^ k : Nat) : Int) * pow2 (E - 52) := by
          have he : e = (k : Int) + (E - 52) := by omega
          rw [hd, he, pow2_natCast_add]
          push_cast
          ring
        rw [hde]
        exact hnear _
      · have hEfl : E = floorLog2 q := by
          rcases hEcases with h | h
          · exact h
          · omega
        have hdlt : d ≤ pow2 E := by
          rw [hd]
          have h1 : (m : ℚ) ≤ 2 ^ 53 := by exact_mod_cast hm.le
          have h2 := pow2_ge_of_natCast 53 E e (by push_cast; omega)
          exact le_trans (mul_le_mul_of_nonneg_right h1 (pow2_pos e).le) h2
        have hEq : pow2 E ≤ q := by
          rw [hEfl]
          exact hspec.1
        have h52 := hnear (2 ^ 52)
        have hpow : ((2 ^ 52 : Int) : ℚ) * pow2 (E - 52) = pow2 E := by
          have h2 : pow2 E = pow2 ((52 : Nat) + (E - 52)) := by
            congr 1
            push_cast
            ring
          rw [h2, pow2_natCast_add]
          push_cast
          rfl
        rw [hpow, abs_of_nonpos (by linarith : pow2 E - q ≤ 0)] at h52
        rw [abs_of_nonpos (by linarith : d - q ≤ 0)]
        linarith

theorem isDouble_neg (d : ℚ) (h : IsDouble d) : IsDouble (-d) := by
  obtain ⟨m, e, hm, he1, he2, hd⟩ := h
  exact ⟨m, e, hm, he1, he2, by rw [abs_neg, hd]⟩

/-- The rounding of a negative number is the negated rounding of its absolute
value. -/
theorem ofRat_of_neg (q r : ℚ) (hq : q < 0) (h : ofRat q = fin r) :
    ofRat (-q) = fin (-r) := by
  have hne : -q ≠ 0 := by linarith
  have h1 := ofRat_neg (-q) hne
  rw [neg_neg, h] at h1
  have hpos : 0 < -q := by linarith
  have h2 := ofRat_of_pos (-q) hpos
  generalize (roundHalfEven (-q / pow2 (max (floorLog2 (-q)) (-1022) - 52)) : ℚ)
    * pow2 (max (floorLog2 (-q)) (-1022) - 52) = mag at h2
  split at h2
  · rw [h2] at h1
    cases h1
  · split at h2
    · rw [h2] at h1
      simp [neg] at h1
    · rename_i h0
      rw [h2] at h1
      simp only [neg, h0, if_false, fin.injEq] at h1
      rw [h2, h1, neg_neg]

/-- A finite result of rounding is a `double`, and no `double` is nearer to the
exact value. -/
theorem ofRat_nearest (q r : ℚ) (h : ofRat q = fin r) :
    IsDouble r ∧ ∀ d, IsDouble d → |r - q| ≤ |d - q| := by
  rcases lt_trichotomy q 0 with hq | hq | hq
  · obtain ⟨h1, h2⟩ := ofRat_nearest_of_pos (-q) (-r) (by linarith)
      (ofRat_of_neg q r hq h)
    refine ⟨by simpa using isDouble_neg _ h1, ?_⟩
    intro d hd
    have h3 := h2 (-d) (isDouble_neg d hd)
    have h4 : -r - -q = -(r - q) := by ring
    have h5 : -d - -q = -(d - q) := by ring
    rwa [h4, h5, abs_neg, abs_neg] at h3
  · subst hq
    have h0 : ofRat 0 = fin 0 := by decide!
    rw [h0] at h
    simp only [fin.injEq] at h
    subst h
    refine ⟨⟨0, 0, by norm_num, by norm_num, by norm_num, by simp⟩, ?_⟩
    intro d _
    simp
  · exact ofRat_nearest_of_pos q r hq h

/-- Rounding leaves a `double` as it is. -/
theorem ofRat_of_isDouble (q : ℚ) (h : IsDouble q) : ofRat q = fin q := by
  obtain ⟨m, e, hm, he1, he2, hq⟩ := h
  rcases lt_trichotomy q 0 with hneg | hzero | hpos
  · rw [abs_of_neg hneg] at hq
    have h1 := ofRat_exact m e hm he1 he2
    rw [← hq] at h1
    have h2 := ofRat_neg (-q) (by linarith)
    rw [neg_neg, h1] at h2
    have hne : -q ≠ 0 := by linarith
    simpa [neg, hne] using h2
  · subst hzero
    decide!
  · rw [abs_of_pos hpos] at hq
    rw [hq]
    exact ofRat_exact m e hm he1 he2

theorem ofRat_DBL_MAX : ofRat DBL_MAX = fin DBL_MAX := by
  have h := ofRat_exact (2 ^ 53 - 1) 971 (by norm_num) (by norm_num) (by norm_num)
  have h2 : (((2 ^ 53 - 1 : Nat) : ℚ)) * pow2 971 = DBL_MAX := by
    rw [DBL_MAX_eq]
    norm_num
  rwa [h2] at h

/-- Rounding overflows only beyond `DBL_MAX`: a number of absolute value up to
`DBL_MAX` rounds to a finite value. -/
theorem ofRat_isFinite (q : ℚ) (h : |q| ≤ DBL_MAX) : isFinite (ofRat q) = true := by
  rcases lt_trichotomy q 0 with hneg | hzero | hpos
  · rw [abs_of_neg hneg] at h
    obtain ⟨r, hr, -, -⟩ := ofRat_le_of_le (-q) DBL_MAX (by linarith) h ofRat_DBL_MAX
    have h2 := ofRat_neg (-q) (by linarith)
    rw [neg_neg, hr] at h2
    rw [h2]
    by_cases h0 : r = 0 <;> simp [neg, h0, isFinite]
  · subst hzero
    decide!
  · rw [abs_of_pos hpos] at h
    obtain ⟨r, hr, -, -⟩ := ofRat_le_of_le q DBL_MAX hpos h ofRat_DBL_MAX
    rw [hr]
    rfl

end Double

theorem DBL_MAX_ge : (2 : ℚ) ^ 64 ≤ DBL_MAX := by
  norm_num [DBL_MAX]

/-! ## ArithmeticExpression.evaluate -/

/-- C20. When the children of an arithmetic node evaluate to numbers `a` and
`b`, each an integer (converted to `double`) or a double, the node evaluates to
a double-tagged value: the `double` sum, difference and product for ADD,
SUBTRACT and MULTIPLY, and the `double` quotient for DIVIDE when `b == 0.0` is
false. For finite operands `x` and `y` these are the exact sum, difference,
product and quotient rounded to the nearest `double` (for a product or a
quotient with a zero operand, a zero). For integer operands the sum, the
difference and the product are exact when they do not exceed `2 ^ 53` in
absolute value, and the quotient is the quotient of the two numbers as a
fraction, rounded, not the truncated integer quotient: it is the integer `k`
exactly when the dividend is `k` times the divisor. The rounding leaves a
`double` as it is, gives a finite value for every number of absolute value up
to `DBL_MAX`, and a finite value it gives is a `double` nearest to the
number. -/
theorem arithmetic_evaluate (left right : Expression) (context : Context)
    (l r : ParameterValue) (a b : Double)
    (hleft : left.evaluate context = .ok l)
    (hright : right.evaluate context = .ok r)
    (ha : l = .double a ∨ ∃ n : Integer, l = .integer n ∧ a = Double.ofInt n)
    (hb : r = .double b ∨ ∃ n : Integer, r = .integer n ∧ b = Double.ofInt n) :
    (Expression.arithmetic .ADD left right).evaluate context
      = .ok (.double (Double.add a b)) ∧
    (Expression.arithmetic .SUBTRACT left right).evaluate context
      = .ok (.double (Double.sub a b)) ∧
    (Expression.arithmetic .MULTIPLY left right).evaluate context
      = .ok (.double (Double.mul a b)) ∧
    (Double.eq b (Double.fin 0) = false →
      (Expression.arithmetic .DIVIDE left right).evaluate context
        = .ok (.double (Double.div a b))) ∧
    (∀ x y : ℚ, a = Double.fin x → b = Double.fin y →
      (Expression.arithmetic .ADD left right).evaluate context
        = .ok (.double (Double.ofRat (x + y))) ∧
      (Expression.arithmetic .SUBTRACT left right).evaluate context
        = .ok (.double (Double.ofRat (x - y))) ∧
      (x ≠ 0 → y ≠ 0 →
        (Expression.arithmetic .MULTIPLY left right).evaluate context
          = .ok (.double (Double.ofRat (x * y)))) ∧
      (x = 0 ∨ y = 0 →
        (Expression.arithmetic .MULTIPLY left right).evaluate context
          = .ok (.double (Double.zero (xor (decide (x < 0)) (decide (y < 0)))))) ∧
      (x ≠ 0 → y ≠ 0 →
        (Expression.arithmetic .DIVIDE left right).evaluate context
          = .ok (.double (Double.ofRat (x / y)))) ∧
      (x = 0 → y ≠ 0 →
        (Expression.arithmetic .DIVIDE left right).evaluate context
          = .ok (.double (Double.zero (decide (y < 0)))))) ∧
    (∀ m n : Integer, l = .integer m → r = .integer n →
      (|m + n| ≤ 2 ^ 53 →
        (Expression.arithmetic .ADD left right).evaluate context
          = .ok (.double (Double.fin ((m + n : Int) : ℚ)))) ∧
      (|m - n| ≤ 2 ^ 53 →
        (Expression.arithmetic .SUBTRACT left right).evaluate context
          = .ok (.double (Double.fin ((m - n : Int) : ℚ)))) ∧
      (m ≠ 0 → n ≠ 0 → |m * n| ≤ 2 ^ 53 →
        (Expression.arithmetic .MULTIPLY left right).evaluate context
          = .ok (.double (Double.fin ((m * n : Int) : ℚ)))) ∧
      (m ≠ 0 → n ≠ 0 →
        (Expression.arithmetic .DIVIDE left right).evaluate context
          = .ok (.double (Double.ofRat ((m : ℚ) / (n : ℚ))))) ∧
      (∀ k : Integer, k ≠ 0 → n ≠ 0 → m = k * n → |k| ≤ 2 ^ 53 →
        (Expression.arithmetic .DIVIDE left right).evaluate context
          = .ok (.double (Double.fin (k : ℚ))))) ∧
    (∀ q : ℚ,
      (Double.IsDouble q → Double.ofRat q = Double.fin q) ∧
      (|q| ≤ DBL_MAX → Double.isFinite (Double.ofRat q) = true) ∧
      ∀ r, Double.ofRat q = Double.fin r →
        Double.IsDouble r ∧ ∀ d, Double.IsDouble d → |r - q| ≤ |d - q|) := by
  have hga : GetDoubleValue l = some a := by
    rcases ha with rfl | ⟨n, rfl, rfl⟩ <;> rfl
  have hgb : GetDoubleValue r = some b := by
    rcases hb with rfl | ⟨n, rfl, rfl⟩ <;> rfl
  have hev : ∀ op, (Expression.arithmetic op left right).evaluate context
      = applyArithmetic op a b := by
    intro op
    simp [Expression.evaluate, hleft, hright, hga, hgb]
  have hadd : (Expression.arithmetic .ADD left right).evaluate context
      = .ok (.double (Double.add a b)) := by rw [hev]; rfl
  have hsub : (Expression.arithmetic .SUBTRACT left right).evaluate context
      = .ok (.double (Double.sub a b)) := by rw [hev]; rfl
  have hmul : (Expression.arithmetic .MULTIPLY left right).evaluate context
      = .ok (.double (Double.mul a b)) := by rw [hev]; rfl
  have hdiv : Double.eq b (Double.fin 0) = false →
      (Expression.arithmetic .DIVIDE left right).evaluate context
        = .ok (.double (Double.div a b)) := by
    intro hz
    rw [hev]
    simp [applyArithmetic, hz]
  have hfinite : ∀ x y : ℚ, a = Double.fin x → b = Double.fin y →
      (Expression.arithmetic .ADD left right).evaluate context
        = .ok (.double (Double.ofRat (x + y))) ∧
      (Expression.arithmetic .SUBTRACT left right).evaluate context
        = .ok (.double (Double.ofRat (x - y))) ∧
      (x ≠ 0 → y ≠ 0 →
        (Expression.arithmetic .MULTIPLY left right).evaluate context
          = .ok (.double (Double.ofRat (x * y)))) ∧
      (x = 0 ∨ y = 0 →
        (Expression.arithmetic .MULTIPLY left right).evaluate context
          = .ok (.double (Double.zero (xor (decide (x < 0)) (decide (y < 0)))))) ∧
      (x ≠ 0 → y ≠ 0 →
        (Expression.arithmetic .DIVIDE left right).evaluate context
          = .ok (.double (Double.ofRat (x / y)))) ∧
      (x = 0 → y ≠ 0 →
        (Expression.arithmetic .DIVIDE left right).evaluate context
          = .ok (.double (Double.zero (decide (y < 0))))) := by
    intro x y hx hy
    subst hx hy
    refine ⟨by rw [hadd, Double.add_fin], by rw [hsub, Double.sub_fin], ?_, ?_, ?_, ?_⟩
    · intro hx hy
      rw [hmul, Double.mul_fin x y hx hy]
    · intro h0
      rw [hmul, Double.mul_fin_zero x y h0]
    · intro hx hy
      rw [hdiv (by simp [Double.eq, hy]), Double.div_fin x y hx hy]
    · intro hx hy
      subst hx
      rw [hdiv (by simp [Double.eq, hy]), Double.div_fin_zero y hy]
  refine ⟨hadd, hsub, hmul, hdiv, hfinite, ?_, fun q =>
    ⟨Double.ofRat_of_isDouble q, Double.ofRat_isFinite q, Double.ofRat_nearest q⟩⟩
  intro m n hl hr
  have hmq : a = Double.fin (m : ℚ) := by
    subst hl
    rcases ha with h | ⟨k, hk, rfl⟩
    · cases h
    · cases hk
      rfl
  have hnq : b = Double.fin (n : ℚ) := by
    subst hr
    rcases hb with h | ⟨k, hk, rfl⟩
    · cases h
    · cases hk
      rfl
  obtain ⟨h1, h2, h3, -, h5, -⟩ := hfinite _ _ hmq hnq
  refine ⟨?_, ?_, ?_, ?_, ?_⟩
  · intro hbound
    rw [h1, ← Double.ofRat_intCast _ hbound]
    push_cast
    rfl
  · intro hbound
    rw [h2, ← Double.ofRat_intCast _ hbound]
    push_cast
    rfl
  · intro hm hn hbound
    rw [h3 (by exact_mod_cast hm) (by exact_mod_cast hn),
      ← Double.ofRat_intCast _ hbound]
    push_cast
    rfl
  · intro hm hn
    exact h5 (by exact_mod_cast hm) (by exact_mod_cast hn)
  · intro k hk hn hmk hbound
    have hn0 : (n : ℚ) ≠ 0 := by exact_mod_cast hn
    have hm0 : (m : ℚ) ≠ 0 := by
      rw [hmk]
      push_cast
      exact mul_ne_zero (by exact_mod_cast hk) hn0
    have hquot : (m : ℚ) / (n : ℚ) = (k : ℚ) := by
      rw [hmk]
      push_cast
      field_simp
    rw [h5 hm0 hn0, hquot, Double.ofRat_intCast _ hbound]

/-- Instances, the arithmetic tests of `ExpressionTest`: with 10 and 5 the four
operations give 15, 5, 50 and 2, and (10 + 5) * 2 gives 30. The integers 7 and
2 give the quotient 3.5, and 1 and 3 the double nearest to a third,
`0x1.5555555555555p-2`. The sums `DBL_MAX + 1` and `1e16 + 1` round back to
`DBL_MAX` and `1e16`, and the product of `2 ^ -600` with itself underflows to
0.0. -/
theorem arithmetic_evaluate_witness :
    (Expression.arithmetic .ADD (.parameter 1) (.parameter 2)).evaluate
      Examples.expressionContext = .ok (.double (Double.fin 15)) ∧
    (Expression.arithmetic .SUBTRACT (.parameter 1) (.parameter 2)).evaluate
      Examples.expressionContext = .ok (.double (Double.fin 5)) ∧
    (Expression.arithmetic .MULTIPLY (.parameter 1) (.parameter 2)).evaluate
      Examples.expressionContext = .ok (.double (Double.fin 50)) ∧
    (Expression.arithmetic .DIVIDE (.parameter 1) (.parameter 2)).evaluate
      Examples.expressionContext = .ok (.double (Double.fin 2)) ∧
    (Expression.arithmetic .MULTIPLY
      (.arithmetic .ADD (.parameter 1) (.parameter 2))
      (.constant (.integer 2))).evaluate
      Examples.expressionContext = .ok (.double (Double.fin 30)) ∧
    (Expression.arithmetic .DIVIDE (.constant (.integer 7))
      (.constant (.integer 2))).evaluate
      Examples.expressionContext = .ok (.double (Double.fin (7 / 2))) ∧
    (Expression.arithmetic .DIVIDE (.constant (.integer 1))
      (.constant (.integer 3))).evaluate
      Examples.expressionContext
      = .ok (.double (Double.fin (6004799503160661 / 18014398509481984))) ∧
    (Expression.arithmetic .ADD (Examples.number DBL_MAX) (Examples.number 1)).evaluate
      Examples.expressionContext = .ok (.double (Double.fin DBL_MAX)) ∧
    (Expression.arithmetic .ADD (Examples.number (10 ^ 16))
      (Examples.number 1)).evaluate
      Examples.expressionContext = .ok (.double (Double.fin (10 ^ 16))) ∧
    (Expression.arithmetic .MULTIPLY (Examples.number (1 / 2 ^ 600))
      (Examples.number (1 / 2 ^ 600))).evaluate
      Examples.expressionContext = .ok (.double (Double.fin 0)) := by
  have h := arithmetic_evaluate (.parameter 1) (.parameter 2)
    Examples.expressionContext (.double (Double.fin 10)) (.double (Double.fin 5))
    (Double.fin 10) (Double.fin 5) (by decide!) (by decide!) (Or.inl rfl) (Or.inl rfl)
  have h2 := arithmetic_evaluate (.arithmetic .ADD (.parameter 1) (.parameter 2))
    (.constant (.integer 2)) Examples.expressionContext
    (.double (Double.fin 15)) (.integer 2) (Double.fin 15) (Double.ofInt 2)
    (by decide!) (by decide!) (Or.inl rfl) (Or.inr ⟨2, rfl, rfl⟩)
  have h3 := arithmetic_evaluate (.constant (.integer 7)) (.constant (.integer 2))
    Examples.expressionContext (.integer 7) (.integer 2) (Double.ofInt 7)
    (Double.ofInt 2) rfl rfl (Or.inr ⟨7, rfl, rfl⟩) (Or.inr ⟨2, rfl, rfl⟩)
  have h4 := arithmetic_evaluate (.constant (.integer 1)) (.constant (.integer 3))
    Examples.expressionContext (.integer 1) (.integer 3) (Double.ofInt 1)
    (Double.ofInt 3) rfl rfl (Or.inr ⟨1, rfl, rfl⟩) (Or.inr ⟨3, rfl, rfl⟩)
  have h5 := arithmetic_evaluate (Examples.number DBL_MAX) (Examples.number 1)
    Examples.expressionContext (.double (Double.fin DBL_MAX)) (.double (Double.fin 1))
    (Double.fin DBL_MAX) (Double.fin 1) rfl rfl (Or.inl rfl) (Or.inl rfl)
  have h6 := arithmetic_evaluate (Examples.number (10 ^ 16)) (Examples.number 1)
    Examples.expressionContext (.double (Double.fin (10 ^ 16)))
    (.double (Double.fin 1)) (Double.fin (10 ^ 16)) (Double.fin 1) rfl rfl
    (Or.inl rfl) (Or.inl rfl)
  have h7 := arithmetic_evaluate (Examples.number (1 / 2 ^ 600))
    (Examples.number (1 / 2 ^ 600)) Examples.expressionContext
    (.double (Double.fin (1 / 2 ^ 600))) (.double (Double.fin (1 / 2 ^ 600)))
    (Double.fin (1 / 2 ^ 600)) (Double.fin (1 / 2 ^ 600)) rfl rfl
    (Or.inl rfl) (Or.inl rfl)
  refine ⟨?_, ?_, ?_, ?_, ?_, ?_, ?_, ?_, ?_, ?_⟩
  · rw [h.1]
    decide!
  · rw [h.2.1]
    decide!
  · rw [h.2.2.1]
    decide!
  · rw [h.2.2.2.1 (by decide!)]
    decide!
  · rw [h2.2.2.1]
    decide!
  · rw [(h3.2.2.2.2.2.1 7 2 rfl rfl).2.2.2.1 (by decide) (by decide)]
    decide!
  · rw [(h4.2.2.2.2.2.1 1 3 rfl rfl).2.2.2.1 (by decide) (by decide)]
    decide!
  · rw [(h5.2.2.2.2.1 _ _ rfl rfl).1]
    decide!
  · rw [(h6.2.2.2.2.1 _ _ rfl rfl).1]
    decide!
  · rw [(h7.2.2.2.2.1 _ _ rfl rfl).2.2.1 (by norm_num) (by norm_num)]
    decide!

/-! ## OptimalSearcher.compareAllTariffs -/

/-- Being incomparable under `<` is transitive on values that are not NaN. -/
theorem Double.incomparable_transitive (a b c : Double) (ha : a ≠ Double.nan)
    (hb : b ≠ Double.nan) (hc : c ≠ Double.nan) (h1 : Double.lt a b = false)
    (h2 : Double.lt b a = false) (h3 : Double.lt b c = false)
    (h4 : Double.lt c b = false) :
    Double.lt a c = false ∧ Double.lt c a = false := by
  cases a <;> cases b <;> cases c <;> simp_all [Double.lt] <;>
    constructor <;> linarith

/-- On entries whose costs are not NaN the comparator of `compareAllTariffs`
is a strict weak ordering. -/
theorem OptimalSearcher.costLess_strictWeakOn (l : List TariffComparisonResult)
    (h : ∀ x ∈ l, x.cost ≠ Double.nan) :
    StrictWeakOn OptimalSearcher.costLess l := by
  refine ⟨?_, ?_, ?_⟩
  · intro a _
    exact Double.lt_irreflexive _
  · intro a _ b _ c _ hab hbc
    exact Double.lt_transitive _ _ _ hab hbc
  · intro a ha b hb c hc h1 h2 h3 h4
    simp only [OptimalSearcher.costLess] at *
    exact Double.incomparable_transitive _ _ _ (h a ha) (h b hb) (h c hc) h1 h2 h3 h4

theorem OptimalSearcher.assignRanks_length (i : Nat)
    (l : List TariffComparisonResult) :
    (OptimalSearcher.assignRanks i l).length = l.length := by
  induction l generalizing i with
  | nil => rfl
  | cons e l ih => simp [OptimalSearcher.assignRanks, ih]

/-- The ranking loop changes `rank` and `isOptimal` only. -/
theorem OptimalSearcher.assignRanks_map {β : Type} (f : TariffComparisonResult → β)
    (hf : ∀ (e : TariffComparisonResult) (r : Integer) (o : Bool),
      f { e with rank := r, isOptimal := o } = f e)
    (i : Nat) (l : List TariffComparisonResult) :
    (OptimalSearcher.assignRanks i l).map f = l.map f := by
  induction l generalizing i with
  | nil => rfl
  | cons e l ih => simp [OptimalSearcher.assignRanks, ih, hf]

/-- The entry at position `k` after the ranking loop started at index `i`. -/
theorem OptimalSearcher.assignRanks_getElem? (i k : Nat)
    (l : List TariffComparisonResult) :
    (OptimalSearcher.assignRanks i l)[k]?
      = (l[k]?).map (fun e =>
          { e with
            rank := ((i + k + 1 : Nat) : Integer)
            isOptimal := if i + k = 0 then true else e.isOptimal }) := by
  induction l generalizing i k with
  | nil => simp [OptimalSearcher.assignRanks]
  | cons e l ih =>
    cases k with
    | zero => simp [OptimalSearcher.assignRanks]
    | succ k =>
      simp only [OptimalSearcher.assignRanks, List.getElem?_cons_succ, ih]
      have h : i + 1 + k = i + (k + 1) := by omega
      rw [h]

/-- What `compareAllTariffs` collects for a tariff. -/
theorem OptimalSearcher.comparisonEntry_eq (results : StdMap CalculationResult)
    (t : Tariff) (x : TariffComparisonResult)
    (h : OptimalSearcher.comparisonEntry results t = some x) :
    ∃ found, results.find t.id = some found ∧ found.success = true ∧
      x = { tariffId := t.id, tariffCode := t.code, tariffName := t.name,
            cost := found.cost, isOptimal := false, rank := 0 } := by
  unfold OptimalSearcher.comparisonEntry at h
  cases hf : results.find t.id with
  | none => simp [hf] at h
  | some found =>
    cases hs : found.success with
    | false => simp [hf, hs] at h
    | true =>
      simp only [hf, hs, if_true, Option.some.injEq] at h
      exact ⟨found, rfl, hs, h.symm⟩

theorem OptimalSearcher.comparisonEntry_isSome (results : StdMap CalculationResult)
    (t : Tariff) :
    (OptimalSearcher.comparisonEntry results t).isSome = batchSucceeds results t := by
  unfold OptimalSearcher.comparisonEntry batchSucceeds
  cases hf : results.find t.id with
  | none => rfl
  | some found => cases hs : found.success <;> simp [hs]

theorem OptimalSearcher.collected_core (results : StdMap CalculationResult)
    (tariffs : List Tariff) :
    (tariffs.filterMap (OptimalSearcher.comparisonEntry results)).map
      TariffComparisonResult.core = successfulEntries results tariffs := by
  unfold successfulEntries
  rw [List.map_filterMap]
  congr 1
  funext t
  unfold OptimalSearcher.comparisonEntry
  cases hf : results.find t.id with
  | none => rfl
  | some found => cases hs : found.success <;> simp [hs, TariffComparisonResult.core]

theorem OptimalSearcher.collected_length (results : StdMap CalculationResult)
    (tariffs : List Tariff) :
    (tariffs.filterMap (OptimalSearcher.comparisonEntry results)).length
      = (tariffs.filter (batchSucceeds results)).length := by
  induction tariffs with
  | nil => rfl
  | cons t rest ih =>
    have h := OptimalSearcher.comparisonEntry_isSome results t
    cases hc : OptimalSearcher.comparisonEntry results t with
    | none =>
      rw [hc] at h
      simp [List.filterMap_cons, hc, ← h, ih]
    | some x =>
      rw [hc] at h
      simp [List.filterMap_cons, hc, ← h, ih]

/-- The list that `compareAllTariffs` returns, in terms of what it collects. -/
theorem OptimalSearcher.compareAllTariffs_snd (S : StdSort) (today : Date)
    (order : Order) (tariffs : List Tariff) :
    (OptimalSearcher.compareAllTariffs S today order tariffs).2
      = OptimalSearcher.assignRanks 0
          (S TariffComparisonResult OptimalSearcher.costLess
            (tariffs.filterMap (OptimalSearcher.comparisonEntry
              (CostCalculator.calculateWithAllTariffs S today order tariffs).2))) :=
  rfl

/-- Every entry of the sorted list comes from a tariff of the list whose batch
result is a success. -/
theorem OptimalSearcher.sorted_entry (S : StdSort) (hS : IsStdSort S)
    (results : StdMap CalculationResult) (tariffs : List Tariff)
    (x : TariffComparisonResult)
    (hx : x ∈ S TariffComparisonResult OptimalSearcher.costLess
      (tariffs.filterMap (OptimalSearcher.comparisonEntry results))) :
    ∃ t ∈ tariffs, ∃ found, results.find t.id = some found ∧
      found.success = true ∧
      x = { tariffId := t.id, tariffCode := t.code, tariffName := t.name,
            cost := found.cost, isOptimal := false, rank := 0 } := by
  have hmem := (hS.perm _ _).subset hx
  obtain ⟨t, ht, hc⟩ := List.mem_filterMap.1 hmem
  obtain ⟨found, hf, hs, hxe⟩ := OptimalSearcher.comparisonEntry_eq results t x hc
  exact ⟨t, ht, found, hf, hs, hxe⟩

/-- C11, counterexample. For a tariff whose rule yields NaN and a tariff with
cost 1000 the ranked list has the costs NaN, 1000, and `NaN <= 1000` is
false. -/
theorem compareAllTariffs_nan_not_sorted :
    (OptimalSearcher.compareAllTariffs insertionStdSort Examples.today
        Examples.searchOrder [Examples.nanTariff, Examples.cheapTariff]).2.map
        (fun entry => entry.cost) = [Double.nan, Double.fin 1000] ∧
    Double.le Double.nan (Double.fin 1000) = false ∧
    Double.le (Double.fin 1000) Double.nan = false :=
  ⟨by decide!, by decide!, by decide!⟩

/-- When no successful batch cost is NaN, the costs of the ranked list never
decrease and none of them is NaN. -/
theorem OptimalSearcher.compareAllTariffs_pairwise (S : StdSort) (hS : IsStdSort S)
    (today : Date) (order : Order) (tariffs : List Tariff)
    (hnan : ∀ t ∈ tariffs, ∀ found,
      (CostCalculator.calculateWithAllTariffs S today order tariffs).2.find t.id
        = some found → found.success = true → found.cost ≠ Double.nan) :
    List.Pairwise (fun x y => Double.le x.cost y.cost = true)
      (OptimalSearcher.compareAllTariffs S today order tariffs).2 ∧
    ∀ x ∈ (OptimalSearcher.compareAllTariffs S today order tariffs).2,
      x.cost ≠ Double.nan := by
  have hcost : ∀ (e : TariffComparisonResult) (r : Integer) (o : Bool),
      ({ e with rank := r, isOptimal := o } : TariffComparisonResult).cost
        = e.cost := fun _ _ _ => rfl
  have hmap := OptimalSearcher.assignRanks_map (fun e => e.cost) hcost 0
    (S TariffComparisonResult OptimalSearcher.costLess
      (tariffs.filterMap (OptimalSearcher.comparisonEntry
        (CostCalculator.calculateWithAllTariffs S today order tariffs).2)))
  rw [← OptimalSearcher.compareAllTariffs_snd] at hmap
  have hmem : ∀ z ∈ S TariffComparisonResult OptimalSearcher.costLess
      (tariffs.filterMap (OptimalSearcher.comparisonEntry
        (CostCalculator.calculateWithAllTariffs S today order tariffs).2)),
      z.cost ≠ Double.nan := by
    intro z hz
    obtain ⟨t, ht, found, hf, hs, hze⟩ := OptimalSearcher.sorted_entry S hS _ _ z hz
    rw [hze]
    exact hnan t ht found hf hs
  have hcollected : ∀ z ∈ tariffs.filterMap (OptimalSearcher.comparisonEntry
      (CostCalculator.calculateWithAllTariffs S today order tariffs).2),
      z.cost ≠ Double.nan := fun z hz => hmem z ((hS.perm _ _).symm.subset hz)
  have hpair := hS.sorted OptimalSearcher.costLess _
    (OptimalSearcher.costLess_strictWeakOn _ hcollected)
  have hle : List.Pairwise (fun a b : Double => Double.le a b = true)
      ((OptimalSearcher.compareAllTariffs S today order tariffs).2.map
        (fun e => e.cost)) := by
    rw [hmap, List.pairwise_map]
    refine hpair.imp_of_mem ?_
    intro a b ha hb hab
    exact Double.le_of_not_lt _ _ (hmem a ha) (hmem b hb) hab
  refine ⟨List.pairwise_map.1 hle, ?_⟩
  intro x hx
  have hxc : x.cost ∈ (OptimalSearcher.compareAllTariffs S today order
      tariffs).2.map (fun e => e.cost) := List.mem_map_of_mem _ hx
  rw [hmap] at hxc
  obtain ⟨z, hz, hzc⟩ := List.mem_map.1 hxc
  rw [← hzc]
  exact hmem z hz

/-- C11, amended. When no successful batch result has the cost NaN, the list
returned by `compareAllTariffs` is sorted by ascending cost: for all positions
`i < j`, `result[i].cost <= result[j].cost`. -/
theorem compareAllTariffs_sorted (S : StdSort) (hS : IsStdSort S) (today : Date)
    (order : Order) (tariffs : List Tariff)
    (hnan : ∀ t ∈ tariffs, ∀ found,
      (CostCalculator.calculateWithAllTariffs S today order tariffs).2.find t.id
        = some found → found.success = true → found.cost ≠ Double.nan)
    (i j : Nat) (x y : TariffComparisonResult) (hij : i < j)
    (hx : (OptimalSearcher.compareAllTariffs S today order tariffs).2[i]? = some x)
    (hy : (OptimalSearcher.compareAllTariffs S today order tariffs).2[j]? = some y) :
    Double.le x.cost y.cost = true := by
  have hpair := (OptimalSearcher.compareAllTariffs_pairwise S hS today order
    tariffs hnan).1
  obtain ⟨hi, hxe⟩ := List.getElem?_eq_some_iff.1 hx
  obtain ⟨hj, hye⟩ := List.getElem?_eq_some_iff.1 hy
  have h := List.pairwise_iff_getElem.1 hpair i j hi hj hij
  rw [hxe, hye] at h
  exact h

/-- Instance, `OptimalSearcherTest.CompareAllTariffs`: the costs come out as
1000, 1500, 2000, and the first is not above the last. -/
theorem compareAllTariffs_sorted_witness :
    (OptimalSearcher.compareAllTariffs insertionStdSort Examples.today
        Examples.searchOrder Examples.threeTariffs).2.map
        (fun entry => entry.cost)
      = [Double.fin 1000, Double.fin 1500, Double.fin 2000] ∧
    Double.le (Double.fin 1000) (Double.fin 2000) = true := by
  have hv : (OptimalSearcher.compareAllTariffs insertionStdSort Examples.today
      Examples.searchOrder Examples.threeTariffs).2.map (fun entry => entry.cost)
      = [Double.fin 1000, Double.fin 1500, Double.fin 2000] := by decide!
  refine ⟨hv, ?_⟩
  have h0 : ((OptimalSearcher.compareAllTariffs insertionStdSort Examples.today
      Examples.searchOrder Examples.threeTariffs).2.map
      (fun entry => entry.cost))[0]? = some (Double.fin 1000) := by rw [hv]; rfl
  have h2 : ((OptimalSearcher.compareAllTariffs insertionStdSort Examples.today
      Examples.searchOrder Examples.threeTariffs).2.map
      (fun entry => entry.cost))[2]? = some (Double.fin 2000) := by rw [hv]; rfl
  rw [List.getElem?_map] at h0 h2
  cases hx : (OptimalSearcher.compareAllTariffs insertionStdSort Examples.today
      Examples.searchOrder Examples.threeTariffs).2[0]? with
  | none => simp [hx] at h0
  | some x =>
    cases hy : (OptimalSearcher.compareAllTariffs insertionStdSort Examples.today
        Examples.searchOrder Examples.threeTariffs).2[2]? with
    | none => simp [hy] at h2
    | some y =>
      simp only [hx, hy, Option.map_some', Option.some.injEq] at h0 h2
      rw [← h0, ← h2]
      refine compareAllTariffs_sorted insertionStdSort insertionStdSort_isStdSort
        Examples.today Examples.searchOrder Examples.threeTariffs ?_ 0 2 x y
        (by decide) hx hy
      intro t ht found hf hs
      simp only [Examples.threeTariffs, List.mem_cons, List.mem_singleton,
        List.not_mem_nil, or_false] at ht
      rcases ht with rfl | rfl | rfl
      · have hfind : (CostCalculator.calculateWithAllTariffs insertionStdSort
            Examples.today Examples.searchOrder Examples.threeTariffs).2.find
            Examples.cheapTariff.id
            = some { cost := Double.fin 1000, tariffId := 1, tariffName := "Дешевый",
                     success := true, errorMessage := "" } := by decide!
        rw [hfind] at hf
        cases hf
        exact fun h => by cases h
      · have hfind : (CostCalculator.calculateWithAllTariffs insertionStdSort
            Examples.today Examples.searchOrder Examples.threeTariffs).2.find
            Examples.middleTariff.id
            = some { cost := Double.fin 1500, tariffId := 2, tariffName := "Средний",
                     success := true, errorMessage := "" } := by decide!
        rw [hfind] at hf
        cases hf
        exact fun h => by cases h
      · have hfind : (CostCalculator.calculateWithAllTariffs insertionStdSort
            Examples.today Examples.searchOrder Examples.threeTariffs).2.find
            Examples.dearTariff.id
            = some { cost := Double.fin 2000, tariffId := 3, tariffName := "Дорогой",
                     success := true, errorMessage := "" } := by decide!
        rw [hfind] at hf
        cases hf
        exact fun h => by cases h

/-- C12. The list returned by `compareAllTariffs` is, up to the order and the
fields `rank` and `isOptimal`, the list of the entries (id, code, name, batch
cost under the id) of the tariffs of the input whose batch result is a
success: its length is the number of these tariffs, and a tariff whose batch
result is not a success, or for distinct ids a tariff for which `calculateCost`
fails, does not appear in it. -/
theorem compareAllTariffs_successful (S : StdSort) (hS : IsStdSort S)
    (today : Date) (order : Order) (tariffs : List Tariff) :
    List.Perm
      ((OptimalSearcher.compareAllTariffs S today order tariffs).2.map
        TariffComparisonResult.core)
      (successfulEntries
        (CostCalculator.calculateWithAllTariffs S today order tariffs).2 tariffs) ∧
    (OptimalSearcher.compareAllTariffs S today order tariffs).2.length
      = (tariffs.filter (batchSucceeds
          (CostCalculator.calculateWithAllTariffs S today order tariffs).2)).length ∧
    (∀ t ∈ tariffs,
      batchSucceeds
        (CostCalculator.calculateWithAllTariffs S today order tariffs).2 t = false →
      ∀ x ∈ (OptimalSearcher.compareAllTariffs S today order tariffs).2,
        x.tariffId ≠ t.id) ∧
    ((tariffs.map (fun t => t.id)).Nodup →
      ∀ t ∈ tariffs,
        (∀ cost, (CostCalculator.calculateCost S today order t).2 ≠ .ok cost) →
        ∀ x ∈ (OptimalSearcher.compareAllTariffs S today order tariffs).2,
          x.tariffId ≠ t.id) := by
  have hcore : ∀ (e : TariffComparisonResult) (r : Integer) (o : Bool),
      TariffComparisonResult.core { e with rank := r, isOptimal := o }
        = TariffComparisonResult.core e := fun _ _ _ => rfl
  have hid : ∀ (e : TariffComparisonResult) (r : Integer) (o : Bool),
      ({ e with rank := r, isOptimal := o } : TariffComparisonResult).tariffId
        = e.tariffId := fun _ _ _ => rfl
  have hfail : ∀ t ∈ tariffs,
      batchSucceeds
        (CostCalculator.calculateWithAllTariffs S today order tariffs).2 t = false →
      ∀ x ∈ (OptimalSearcher.compareAllTariffs S today order tariffs).2,
        x.tariffId ≠ t.id := by
    intro t _ hfailed x hx hxt
    have hxid : x.tariffId ∈ ((OptimalSearcher.compareAllTariffs S today order
        tariffs).2.map (fun e => e.tariffId)) := List.mem_map_of_mem _ hx
    rw [OptimalSearcher.compareAllTariffs_snd,
      OptimalSearcher.assignRanks_map (fun e => e.tariffId) hid] at hxid
    obtain ⟨z, hz, hzid⟩ := List.mem_map.1 hxid
    obtain ⟨u, _, found, hf, hs, hze⟩ := OptimalSearcher.sorted_entry S hS _ _ z hz
    have hu : u.id = t.id := by
      rw [← hxt, ← hzid, hze]
    unfold batchSucceeds at hfailed
    rw [← hu, hf] at hfailed
    simp only at hfailed
    rw [hs] at hfailed
    cases hfailed
  refine ⟨?_, ?_, hfail, ?_⟩
  · rw [OptimalSearcher.compareAllTariffs_snd,
      OptimalSearcher.assignRanks_map TariffComparisonResult.core hcore,
      ← OptimalSearcher.collected_core]
    exact (hS.perm _ _).map _
  · rw [OptimalSearcher.compareAllTariffs_snd, OptimalSearcher.assignRanks_length,
      (hS.perm _ _).length_eq, OptimalSearcher.collected_length]
  · intro hids t ht hcalc
    refine hfail t ht ?_
    unfold batchSucceeds
    rw [CostCalculator.calculateWithAllTariffs_find,
      lastTariffWithId_of_nodup tariffs hids t ht]
    simp only [Option.map_some']
    cases hs : (CostCalculator.tariffResult S today order t).success with
    | false => rfl
    | true =>
      exact absurd ((CostCalculator.tariffResult_success_iff S today order t _).1
        ⟨hs, rfl⟩) (hcalc _)

/-- Instance: of the tariffs with costs 1000 and 900 (expired) and a tariff
whose rule yields a string, only the first is listed. -/
theorem compareAllTariffs_successful_witness :
    (OptimalSearcher.compareAllTariffs insertionStdSort Examples.today
        Examples.searchOrder
        [Examples.textTariff, Examples.cheapTariff, Examples.expiredTariff]).2.map
        TariffComparisonResult.core
      = [(1, "TARIFF_001", "Дешевый", Double.fin 1000)] ∧
    List.Perm
      ((OptimalSearcher.compareAllTariffs insertionStdSort Examples.today
        Examples.searchOrder
        [Examples.textTariff, Examples.cheapTariff, Examples.expiredTariff]).2.map
        TariffComparisonResult.core)
      (successfulEntries
        (CostCalculator.calculateWithAllTariffs insertionStdSort Examples.today
          Examples.searchOrder
          [Examples.textTariff, Examples.cheapTariff, Examples.expiredTariff]).2
        [Examples.textTariff, Examples.cheapTariff, Examples.expiredTariff]) :=
  ⟨by decide!,
   (compareAllTariffs_successful insertionStdSort insertionStdSort_isStdSort
      Examples.today Examples.searchOrder
      [Examples.textTariff, Examples.cheapTariff, Examples.expiredTariff]).1⟩

/-- C13. In the list returned by `compareAllTariffs` the entry at index `i`
has `rank = i + 1`, and `isOptimal` is true exactly for the entry at index 0,
the one with rank 1; a non-empty list has exactly one optimal entry, whatever
the costs are. -/
theorem compareAllTariffs_ranks (S : StdSort) (hS : IsStdSort S) (today : Date)
    (order : Order) (tariffs : List Tariff) :
    (∀ (i : Nat) (x : TariffComparisonResult),
      (OptimalSearcher.compareAllTariffs S today order tariffs).2[i]? = some x →
      x.rank = ((i + 1 : Nat) : Integer) ∧ (x.isOptimal = true ↔ i = 0) ∧
      (x.isOptimal = true ↔ x.rank = 1)) ∧
    ((OptimalSearcher.compareAllTariffs S today order tariffs).2 ≠ [] →
      (OptimalSearcher.compareAllTariffs S today order tariffs).2.countP
        (fun x => x.isOptimal) = 1) := by
  have hindex : ∀ (i : Nat) (x : TariffComparisonResult),
      (OptimalSearcher.compareAllTariffs S today order tariffs).2[i]? = some x →
      x.rank = ((i + 1 : Nat) : Integer) ∧ (x.isOptimal = true ↔ i = 0) := by
    intro i x hx
    rw [OptimalSearcher.compareAllTariffs_snd,
      OptimalSearcher.assignRanks_getElem?] at hx
    cases hz : (S TariffComparisonResult OptimalSearcher.costLess
        (tariffs.filterMap (OptimalSearcher.comparisonEntry
          (CostCalculator.calculateWithAllTariffs S today order tariffs).2)))[i]? with
    | none => simp [hz] at hx
    | some z =>
      simp only [hz, Option.map_some', Option.some.injEq, Nat.zero_add] at hx
      obtain ⟨hi, hze⟩ := List.getElem?_eq_some_iff.1 hz
      obtain ⟨t, _, found, _, _, hzt⟩ :=
        OptimalSearcher.sorted_entry S hS _ _ z (hze ▸ List.getElem_mem _)
      subst hx
      subst hzt
      refine ⟨rfl, ?_⟩
      by_cases h0 : i = 0 <;> simp [h0]
  refine ⟨?_, ?_⟩
  · intro i x hx
    obtain ⟨hr, ho⟩ := hindex i x hx
    refine ⟨hr, ho, ?_⟩
    rw [ho, hr]
    constructor
    · intro h
      subst h
      rfl
    · intro h
      have h2 : ((i + 1 : Nat) : Integer) = ((0 + 1 : Nat) : Integer) := h
      have h3 : i + 1 = 0 + 1 := by exact_mod_cast h2
      omega
  · intro hne
    cases hl : (OptimalSearcher.compareAllTariffs S today order tariffs).2 with
    | nil => exact absurd hl hne
    | cons x rest =>
      have hx := (hindex 0 x (by rw [hl]; simp)).2.2 rfl
      have hrest : ∀ y ∈ rest, ¬ (y.isOptimal = true) := by
        intro y hy ho
        obtain ⟨k, hk, hyk⟩ := List.getElem_of_mem hy
        have hget : (OptimalSearcher.compareAllTariffs S today order
            tariffs).2[k + 1]? = some y := by
          rw [hl, List.getElem?_cons_succ, List.getElem?_eq_some_iff]
          exact ⟨hk, hyk⟩
        have := (hindex (k + 1) y hget).2.1 ho
        omega
      rw [List.countP_cons, List.countP_eq_zero.2 hrest]
      simp [hx]

/-- Instance: two tariffs that share the lowest cost 1000 and one with cost
1500 get the ranks 1, 2, 3 and only the first entry is optimal. -/
theorem compareAllTariffs_ranks_witness :
    (OptimalSearcher.compareAllTariffs insertionStdSort Examples.today
        Examples.searchOrder
        [Examples.middleTariff, Examples.cheapTariff,
          Examples.otherCheapTariff]).2.map
        (fun x => (x.cost, x.rank, x.isOptimal))
      = [(Double.fin 1000, 1, true), (Double.fin 1000, 2, false),
         (Double.fin 1500, 3, false)] ∧
    (OptimalSearcher.compareAllTariffs insertionStdSort Examples.today
        Examples.searchOrder
        [Examples.middleTariff, Examples.cheapTariff,
          Examples.otherCheapTariff]).2.countP (fun x => x.isOptimal) = 1 :=
  ⟨by decide!,
   (compareAllTariffs_ranks insertionStdSort insertionStdSort_isStdSort
      Examples.today Examples.searchOrder
      [Examples.middleTariff, Examples.cheapTariff, Examples.otherCheapTariff]).2
      (by decide!)⟩

/-! ## OptimalSearcher.findTopNTariffs and analyzeSavings -/

/-- With distinct ids the batch result of a tariff of the list is a success
exactly when `calculateCost` succeeds for it. -/
theorem batchSucceeds_iff_of_nodup (S : StdSort) (today : Date) (order : Order)
    (tariffs : List Tariff) (hids : (tariffs.map (fun t => t.id)).Nodup)
    (t : Tariff) (ht : t ∈ tariffs) :
    batchSucceeds (CostCalculator.calculateWithAllTariffs S today order tariffs).2 t
        = true ↔
      ∃ cost, (CostCalculator.calculateCost S today order t).2 = .ok cost := by
  unfold batchSucceeds
  rw [CostCalculator.calculateWithAllTariffs_find,
    lastTariffWithId_of_nodup tariffs hids t ht]
  simp only [Option.map_some']
  constructor
  · intro hs
    exact ⟨_, (CostCalculator.tariffResult_success_iff S today order t _).1 ⟨hs, rfl⟩⟩
  · rintro ⟨cost, hc⟩
    exact ((CostCalculator.tariffResult_success_iff S today order t cost).2 hc).1

/-- The ranked list is empty exactly when no batch result of a tariff of the
list is a success. -/
theorem OptimalSearcher.compareAllTariffs_eq_nil_iff (S : StdSort)
    (hS : IsStdSort S) (today : Date) (order : Order) (tariffs : List Tariff) :
    (OptimalSearcher.compareAllTariffs S today order tariffs).2 = [] ↔
      ∀ t ∈ tariffs,
        batchSucceeds
          (CostCalculator.calculateWithAllTariffs S today order tariffs).2 t
          = false := by
  rw [← List.length_eq_zero, OptimalSearcher.compareAllTariffs_snd,
    OptimalSearcher.assignRanks_length, (hS.perm _ _).length_eq,
    OptimalSearcher.collected_length, List.length_eq_zero, List.filter_eq_nil_iff]
  constructor
  · intro h t ht
    cases hb : batchSucceeds
      (CostCalculator.calculateWithAllTariffs S today order tariffs).2 t with
    | false => rfl
    | true => exact absurd hb (h t ht)
  · intro h t ht hb
    rw [h t ht] at hb
    cases hb

/-- `analyzeSavings` returns no result exactly when the ranked list is empty. -/
theorem OptimalSearcher.analyzeSavings_eq_none_iff (S : StdSort) (today : Date)
    (order : Order) (tariffs : List Tariff) :
    (OptimalSearcher.analyzeSavings S today order tariffs).2 = none ↔
      (OptimalSearcher.compareAllTariffs S today order tariffs).2 = [] := by
  unfold OptimalSearcher.analyzeSavings
  simp only []
  cases hl : (OptimalSearcher.compareAllTariffs S today order tariffs).2 with
  | nil => simp
  | cons x rest =>
    cases hlast : (x :: rest).getLast? with
    | none => simp at hlast
    | some back => simp

/-- C15. `analyzeSavings` returns no result if and only if no batch result of
a tariff of the list is a success; for pairwise distinct ids, if and only if
`calculateCost` succeeds for no tariff of the list. For the empty list it
returns no result. It raises nothing. -/
theorem analyzeSavings_none_iff (S : StdSort) (hS : IsStdSort S) (today : Date)
    (order : Order) (tariffs : List Tariff) :
    ((OptimalSearcher.analyzeSavings S today order tariffs).2 = none ↔
      ∀ t ∈ tariffs,
        batchSucceeds
          (CostCalculator.calculateWithAllTariffs S today order tariffs).2 t
          = false) ∧
    ((tariffs.map (fun t => t.id)).Nodup →
      ((OptimalSearcher.analyzeSavings S today order tariffs).2 = none ↔
        ∀ t ∈ tariffs, ∀ cost,
          (CostCalculator.calculateCost S today order t).2 ≠ .ok cost)) ∧
    (OptimalSearcher.analyzeSavings S today order []).2 = none := by
  have hmain := (OptimalSearcher.analyzeSavings_eq_none_iff S today order
    tariffs).trans
    (OptimalSearcher.compareAllTariffs_eq_nil_iff S hS today order tariffs)
  refine ⟨hmain, ?_, ((OptimalSearcher.analyzeSavings_eq_none_iff S today order
    []).trans (OptimalSearcher.compareAllTariffs_eq_nil_iff S hS today order [])).2
    (fun t ht => absurd ht (List.not_mem_nil _))⟩
  intro hids
  rw [hmain]
  constructor
  · intro h t ht cost hc
    have := (batchSucceeds_iff_of_nodup S today order tariffs hids t ht).2 ⟨cost, hc⟩
    rw [h t ht] at this
    cases this
  · intro h t ht
    cases hb : batchSucceeds
      (CostCalculator.calculateWithAllTariffs S today order tariffs).2 t with
    | false => rfl
    | true =>
      obtain ⟨cost, hc⟩ :=
        (batchSucceeds_iff_of_nodup S today order tariffs hids t ht).1 hb
      exact absurd hc (h t ht cost)

/-- Instances: no result for an expired tariff and a tariff that yields a
string, for the empty list; a result for the three tariffs of the test. -/
theorem analyzeSavings_none_iff_witness :
    (OptimalSearcher.analyzeSavings insertionStdSort Examples.today
      Examples.searchOrder [Examples.expiredTariff, Examples.textTariff]).2 = none ∧
    (OptimalSearcher.analyzeSavings insertionStdSort Examples.today
      Examples.searchOrder []).2 = none ∧
    (OptimalSearcher.analyzeSavings insertionStdSort Examples.today
      Examples.searchOrder Examples.threeTariffs).2.isSome = true := by
  refine ⟨?_, ?_, by decide!⟩
  · refine (analyzeSavings_none_iff insertionStdSort insertionStdSort_isStdSort
      Examples.today Examples.searchOrder
      [Examples.expiredTariff, Examples.textTariff]).1.2 ?_
    intro t ht
    simp only [List.mem_cons, List.mem_singleton, List.not_mem_nil, or_false] at ht
    rcases ht with rfl | rfl <;> decide!
  · exact (analyzeSavings_none_iff insertionStdSort insertionStdSort_isStdSort
      Examples.today Examples.searchOrder []).2.2

/-- C16. `findTopNTariffs(order, tariffs, n)` is the list of the first
`min(n, length)` entries of `compareAllTariffs(order, tariffs)`, the entries
themselves unchanged; for `n = 0` it is the empty list. -/
theorem findTopNTariffs_eq_take (S : StdSort) (today : Date) (order : Order)
    (tariffs : List Tariff) (n : Nat) :
    (OptimalSearcher.findTopNTariffs S today order tariffs n).2
      = (OptimalSearcher.compareAllTariffs S today order tariffs).2.take
          (min n (OptimalSearcher.compareAllTariffs S today order tariffs).2.length) ∧
    (OptimalSearcher.findTopNTariffs S today order tariffs n).2.length
      = min n (OptimalSearcher.compareAllTariffs S today order tariffs).2.length ∧
    (∀ i, i < min n (OptimalSearcher.compareAllTariffs S today order tariffs).2.length →
      (OptimalSearcher.findTopNTariffs S today order tariffs n).2[i]?
        = (OptimalSearcher.compareAllTariffs S today order tariffs).2[i]?) ∧
    (OptimalSearcher.findTopNTariffs S today order tariffs 0).2 = [] := by
  have htake : ∀ k, (OptimalSearcher.findTopNTariffs S today order tariffs k).2
      = (OptimalSearcher.compareAllTariffs S today order tariffs).2.take k := by
    intro k
    unfold OptimalSearcher.findTopNTariffs
    simp only []
    split
    · rfl
    · rename_i h
      exact (List.take_of_length_le (Nat.le_of_not_lt h)).symm
  refine ⟨?_, ?_, ?_, ?_⟩
  · rw [htake, List.take_eq_take]
    simp
  · rw [htake, List.length_take]
  · intro i hi
    rw [htake, List.getElem?_take]
    simp [(Nat.lt_min.1 hi).1]
  · rw [htake]
    rfl

/-- Instance, `OptimalSearcherTest.FindTopNTariffs`: three tariffs and `n = 2`
give the costs 1000 and 1500. -/
theorem findTopNTariffs_eq_take_witness :
    (OptimalSearcher.findTopNTariffs insertionStdSort Examples.today
        Examples.searchOrder Examples.threeTariffs 2).2.map
        (fun x => (x.cost, x.rank, x.isOptimal))
      = [(Double.fin 1000, 1, true), (Double.fin 1500, 2, false)] ∧
    (OptimalSearcher.findTopNTariffs insertionStdSort Examples.today
        Examples.searchOrder Examples.threeTariffs 2).2.length = 2 := by
  refine ⟨by decide!, ?_⟩
  rw [(findTopNTariffs_eq_take insertionStdSort Examples.today Examples.searchOrder
    Examples.threeTariffs 2).2.1]
  decide!

theorem mem_successfulEntries (results : StdMap CalculationResult)
    (tariffs : List Tariff) (e : Integer × String × String × Double) :
    e ∈ successfulEntries results tariffs ↔
      ∃ t ∈ tariffs, ∃ found, results.find t.id = some found ∧
        found.success = true ∧ e = (t.id, t.code, t.name, found.cost) := by
  unfold successfulEntries
  rw [List.mem_filterMap]
  constructor
  · rintro ⟨t, ht, h⟩
    cases hf : results.find t.id with
    | none => simp [hf] at h
    | some found =>
      cases hs : found.success with
      | false => simp [hf, hs] at h
      | true =>
        simp only [hf, hs, if_true, Option.some.injEq] at h
        exact ⟨t, ht, found, hf, hs, h.symm⟩
  · rintro ⟨t, ht, found, hf, hs, he⟩
    exact ⟨t, ht, by simp [hf, hs, he]⟩

theorem mem_successfulCosts (results : StdMap CalculationResult)
    (tariffs : List Tariff) (c : Double) :
    c ∈ successfulCosts results tariffs ↔
      ∃ t ∈ tariffs, ∃ found, results.find t.id = some found ∧
        found.success = true ∧ found.cost = c := by
  unfold successfulCosts
  rw [List.mem_map]
  constructor
  · rintro ⟨e, he, hc⟩
    obtain ⟨t, ht, found, hf, hs, hee⟩ := (mem_successfulEntries _ _ e).1 he
    subst hee
    exact ⟨t, ht, found, hf, hs, hc⟩
  · rintro ⟨t, ht, found, hf, hs, hc⟩
    exact ⟨_, (mem_successfulEntries _ _ _).2 ⟨t, ht, found, hf, hs, rfl⟩, hc⟩

/-- The ranked list holds, in some order, the entries of the tariffs whose
batch result is a success. -/
theorem OptimalSearcher.compareAllTariffs_core_perm (S : StdSort) (hS : IsStdSort S)
    (today : Date) (order : Order) (tariffs : List Tariff) :
    List.Perm
      ((OptimalSearcher.compareAllTariffs S today order tariffs).2.map
        TariffComparisonResult.core)
      (successfulEntries
        (CostCalculator.calculateWithAllTariffs S today order tariffs).2 tariffs) := by
  rw [OptimalSearcher.compareAllTariffs_snd,
    OptimalSearcher.assignRanks_map TariffComparisonResult.core (fun _ _ _ => rfl),
    ← OptimalSearcher.collected_core]
  exact (hS.perm _ _).map _

theorem OptimalSearcher.compareAllTariffs_costs_perm (S : StdSort) (hS : IsStdSort S)
    (today : Date) (order : Order) (tariffs : List Tariff) :
    List.Perm
      ((OptimalSearcher.compareAllTariffs S today order tariffs).2.map
        (fun x => x.cost))
      (successfulCosts
        (CostCalculator.calculateWithAllTariffs S today order tariffs).2 tariffs) := by
  have h := (OptimalSearcher.compareAllTariffs_core_perm S hS today order
    tariffs).map (fun entry => entry.2.2.2)
  rw [List.map_map] at h
  exact h

theorem Double.le_self (a : Double) (ha : a ≠ Double.nan) : Double.le a a = true := by
  cases a <;> simp_all [Double.le, Double.eq, Double.lt]

/-- Adding integers to an integer total gives the exact sum, no addition being
rounded, as long as the absolute values add up to at most `2 ^ 53`. -/
theorem Double.foldl_add_exact (l : List Double)
    (hint : ∀ c ∈ l, ∃ k : Int, c = Double.fin (k : ℚ)) (acc : Int)
    (hsum : |(acc : ℚ)| + (l.map (fun c => |c.toRat|)).sum ≤ 2 ^ 53) :
    l.foldl Double.add (Double.fin (acc : ℚ))
        = Double.fin ((acc : ℚ) + (l.map Double.toRat).sum) ∧
    |(acc : ℚ) + (l.map Double.toRat).sum|
      ≤ |(acc : ℚ)| + (l.map (fun c => |c.toRat|)).sum := by
  induction l generalizing acc with
  | nil => simp
  | cons c l ih =>
    obtain ⟨k, hk⟩ := hint c (List.mem_cons_self _ _)
    subst hk
    have hsum2 : |(acc : ℚ)| + (|(k : ℚ)| + (l.map (fun c => |c.toRat|)).sum)
        ≤ 2 ^ 53 := hsum
    show List.foldl Double.add (Double.add (Double.fin acc) (Double.fin k)) l
        = Double.fin ((acc : ℚ) + ((k : ℚ) + (l.map Double.toRat).sum)) ∧
      |(acc : ℚ) + ((k : ℚ) + (l.map Double.toRat).sum)|
        ≤ |(acc : ℚ)| + (|(k : ℚ)| + (l.map (fun c => |c.toRat|)).sum)
    have hq : |(acc : ℚ) + (k : ℚ)| ≤ |(acc : ℚ)| + |(k : ℚ)| := abs_add _ _
    have hnonneg : 0 ≤ (l.map (fun c => |c.toRat|)).sum := by
      apply List.sum_nonneg
      intro x hx
      obtain ⟨c, _, rfl⟩ := List.mem_map.1 hx
      exact abs_nonneg _
    have hbound : |acc + k| ≤ 2 ^ 53 := by
      have h1 : |((acc + k : Int) : ℚ)| ≤ 2 ^ 53 := by
        push_cast
        linarith
      exact_mod_cast h1
    have hstep : Double.add (Double.fin acc) (Double.fin k)
        = Double.fin ((acc + k : Int) : ℚ) := by
      rw [Double.add_fin, ← Double.ofRat_intCast _ hbound]
      push_cast
      rfl
    obtain ⟨ih1, ih2⟩ := ih (fun x hx => hint x (List.mem_cons_of_mem _ hx))
      (acc + k) (by push_cast; linarith)
    rw [hstep, ih1]
    push_cast at ih2 ⊢
    refine ⟨by rw [add_assoc], ?_⟩
    rw [← add_assoc]
    linarith

/-- The record that `analyzeSavings` returns, in terms of the first and the
last entry of the ranked list. -/
theorem OptimalSearcher.analyzeSavings_some (S : StdSort) (today : Date)
    (order : Order) (tariffs : List Tariff) (a : SavingsAnalysis)
    (h : (OptimalSearcher.analyzeSavings S today order tariffs).2 = some a) :
    ∃ front back,
      (OptimalSearcher.compareAllTariffs S today order tariffs).2.head? = some front ∧
      (OptimalSearcher.compareAllTariffs S today order tariffs).2.getLast? = some back ∧
      a = { optimalCost := front.cost, maximumCost := back.cost,
            averageCost := Double.div
              (((OptimalSearcher.compareAllTariffs S today order tariffs).2.map
                (fun x => x.cost)).foldl Double.add (Double.fin 0))
              (Double.ofNat
                (OptimalSearcher.compareAllTariffs S today order tariffs).2.length),
            savings := Double.sub back.cost front.cost,
            savingsPercent := Double.mul
              (Double.div (Double.sub back.cost front.cost) back.cost)
              (Double.fin 100),
            optimalTariffId := front.tariffId,
            expensiveTariffId := back.tariffId } := by
  unfold OptimalSearcher.analyzeSavings at h
  simp only [] at h
  cases hh : (OptimalSearcher.compareAllTariffs S today order tariffs).2.head? with
  | none => simp [hh] at h
  | some front =>
    cases hl : (OptimalSearcher.compareAllTariffs S today order tariffs).2.getLast? with
    | none => simp [hh, hl] at h
    | some back =>
      simp only [hh, hl, Option.some.injEq] at h
      refine ⟨front, back, rfl, rfl, ?_⟩
      rw [← h, List.foldl_map]

/-- C14, counterexample. With a tariff whose rule yields NaN and a tariff with
cost 1000, `analyzeSavings` reports the optimal cost NaN, which is not the
minimum of the costs (`NaN <= 1000` is false). With two tariffs of cost
`DBL_MAX` the sum overflows and the reported average is infinite, while both
costs, and so their mean, are `DBL_MAX`. With the costs 0.1 and 0.2 (the
doubles nearest to them) the sum is rounded, and the reported average
`0x1.3333333333334p-3` is not the mean of the two costs. -/
theorem analyzeSavings_nan_and_overflow :
    (OptimalSearcher.analyzeSavings insertionStdSort Examples.today
        Examples.searchOrder [Examples.nanTariff, Examples.cheapTariff]).2.map
        (fun a => (a.optimalCost, a.maximumCost))
      = some (Double.nan, Double.fin 1000) ∧
    Double.le Double.nan (Double.fin 1000) = false ∧
    successfulCosts
        (CostCalculator.calculateWithAllTariffs insertionStdSort Examples.today
          Examples.searchOrder
          [Examples.maxCostTariff, Examples.otherMaxCostTariff]).2
        [Examples.maxCostTariff, Examples.otherMaxCostTariff]
      = [Double.fin DBL_MAX, Double.fin DBL_MAX] ∧
    (DBL_MAX + DBL_MAX) / 2 = DBL_MAX ∧
    (OptimalSearcher.analyzeSavings insertionStdSort Examples.today
        Examples.searchOrder
        [Examples.maxCostTariff, Examples.otherMaxCostTariff]).2.map
        (fun a => a.averageCost)
      = some Double.posInf ∧
    successfulCosts
        (CostCalculator.calculateWithAllTariffs insertionStdSort Examples.today
          Examples.searchOrder [Examples.tenthTariff, Examples.fifthTariff]).2
        [Examples.tenthTariff, Examples.fifthTariff]
      = [Double.fin (3602879701896397 / 36028797018963968),
         Double.fin (3602879701896397 / 18014398509481984)] ∧
    (OptimalSearcher.analyzeSavings insertionStdSort Examples.today
        Examples.searchOrder [Examples.tenthTariff, Examples.fifthTariff]).2.map
        (fun a => a.averageCost)
      = some (Double.fin (1351079888211149 / 9007199254740992)) ∧
    (1351079888211149 / 9007199254740992 : ℚ)
      ≠ (3602879701896397 / 36028797018963968
          + 3602879701896397 / 18014398509481984) / 2 :=
  ⟨by decide!, by decide!, by decide!, by ring, by decide!, by decide!, by decide!,
    by norm_num⟩

/-- C14, amended. Whenever `analyzeSavings` returns a result: `savings` is
`maximumCost - optimalCost` and `savingsPercent` is
`savings / maximumCost * 100` in `double` arithmetic; `optimalTariffId` and
`expensiveTariffId` are ids of tariffs of the list whose successful batch
costs are `optimalCost` and `maximumCost`; when no successful cost is NaN,
`optimalCost` is the least and `maximumCost` the greatest of the successful
costs; `averageCost` is the `double` sum of the successful costs, added in
ranked order starting from 0.0, each addition rounded, divided by their
number; when the costs are integers whose absolute values add up to at most
`2 ^ 53` no addition is rounded, and `averageCost` is their arithmetic mean
rounded to the nearest `double`. -/
theorem analyzeSavings_result (S : StdSort) (hS : IsStdSort S) (today : Date)
    (order : Order) (tariffs : List Tariff) (a : SavingsAnalysis)
    (h : (OptimalSearcher.analyzeSavings S today order tariffs).2 = some a) :
    a.savings = Double.sub a.maximumCost a.optimalCost ∧
    a.savingsPercent
      = Double.mul (Double.div a.savings a.maximumCost) (Double.fin 100) ∧
    (∃ t ∈ tariffs, t.id = a.optimalTariffId ∧ ∃ found,
      (CostCalculator.calculateWithAllTariffs S today order tariffs).2.find t.id
        = some found ∧ found.success = true ∧ found.cost = a.optimalCost) ∧
    (∃ t ∈ tariffs, t.id = a.expensiveTariffId ∧ ∃ found,
      (CostCalculator.calculateWithAllTariffs S today order tariffs).2.find t.id
        = some found ∧ found.success = true ∧ found.cost = a.maximumCost) ∧
    ((∀ c ∈ successfulCosts
        (CostCalculator.calculateWithAllTariffs S today order tariffs).2 tariffs,
        c ≠ Double.nan) →
      ∀ c ∈ successfulCosts
        (CostCalculator.calculateWithAllTariffs S today order tariffs).2 tariffs,
        Double.le a.optimalCost c = true ∧ Double.le c a.maximumCost = true) ∧
    (∃ ranked,
      List.Perm ranked (successfulCosts
        (CostCalculator.calculateWithAllTariffs S today order tariffs).2 tariffs) ∧
      a.averageCost = Double.div (ranked.foldl Double.add (Double.fin 0))
        (Double.ofNat ranked.length)) ∧
    (∀ ks : List Int,
      successfulCosts
          (CostCalculator.calculateWithAllTariffs S today order tariffs).2 tariffs
        = ks.map (fun k : Int => Double.fin (k : ℚ)) →
      ((ks.map (fun k : Int => |k|)).sum : Int) ≤ 2 ^ 53 → ks.length ≤ 2 ^ 53 →
      a.averageCost = Double.ofRat ((ks.sum : ℚ) / (ks.length : ℚ))) := by
  obtain ⟨front, back, hfront, hback, ha⟩ :=
    OptimalSearcher.analyzeSavings_some S today order tariffs a h
  have hperm := OptimalSearcher.compareAllTariffs_costs_perm S hS today order tariffs
  have hcore := OptimalSearcher.compareAllTariffs_core_perm S hS today order tariffs
  have hfmem := List.mem_of_mem_head? hfront
  have hbmem := List.mem_of_getLast?_eq_some hback
  have hentry : ∀ x ∈ (OptimalSearcher.compareAllTariffs S today order tariffs).2,
      ∃ t ∈ tariffs, t.id = x.tariffId ∧ ∃ found,
        (CostCalculator.calculateWithAllTariffs S today order tariffs).2.find t.id
          = some found ∧ found.success = true ∧ found.cost = x.cost := by
    intro x hx
    have hxc := hcore.subset (List.mem_map_of_mem TariffComparisonResult.core hx)
    obtain ⟨t, ht, found, hf, hs, he⟩ := (mem_successfulEntries _ _ _).1 hxc
    simp only [TariffComparisonResult.core, Prod.mk.injEq] at he
    exact ⟨t, ht, he.1.symm, found, hf, hs, he.2.2.2.symm⟩
  subst ha
  refine ⟨rfl, rfl, hentry front hfmem, hentry back hbmem, ?_, ?_, ?_⟩
  · intro hnan c hc
    have hnan2 : ∀ t ∈ tariffs, ∀ found,
        (CostCalculator.calculateWithAllTariffs S today order tariffs).2.find t.id
          = some found → found.success = true → found.cost ≠ Double.nan :=
      fun t ht found hf hs =>
        hnan _ ((mem_successfulCosts _ _ _).2 ⟨t, ht, found, hf, hs, rfl⟩)
    obtain ⟨hpair, hne⟩ :=
      OptimalSearcher.compareAllTariffs_pairwise S hS today order tariffs hnan2
    obtain ⟨y, hy, hyc⟩ := List.mem_map.1 (hperm.symm.subset hc)
    subst hyc
    obtain ⟨rest, hrest⟩ := List.head?_eq_some_iff.1 hfront
    obtain ⟨init, hinit⟩ := List.getLast?_eq_some_iff.1 hback
    constructor
    · rw [hrest] at hpair hy
      rcases List.mem_cons.1 hy with rfl | hy
      · exact Double.le_self _ (hne _ hfmem)
      · exact (List.pairwise_cons.1 hpair).1 y hy
    · rw [hinit] at hpair hy
      rcases List.mem_append.1 hy with hy | hy
      · exact (List.pairwise_append.1 hpair).2.2 y hy back (List.mem_singleton_self _)
      · rw [List.mem_singleton] at hy
        subst hy
        exact Double.le_self _ (hne _ hbmem)
  · refine ⟨_, hperm, ?_⟩
    simp only [List.length_map]
  · intro ks hks hsum hlen
    have hint : ∀ c ∈ (OptimalSearcher.compareAllTariffs S today order
        tariffs).2.map (fun x => x.cost), ∃ k : Int, c = Double.fin (k : ℚ) := by
      intro c hc
      have hc2 := hperm.subset hc
      rw [hks] at hc2
      obtain ⟨k, -, hk⟩ := List.mem_map.1 hc2
      exact ⟨k, hk.symm⟩
    have hsumeq := (hperm.map (fun c => |c.toRat|)).sum_eq
    have hsumeq2 := (hperm.map Double.toRat).sum_eq
    have hleneq := hperm.length_eq
    rw [List.length_map] at hleneq
    rw [hks] at hsumeq hsumeq2 hleneq
    have habsum : ((ks.map (fun k : Int => Double.fin (k : ℚ))).map
        (fun c => |c.toRat|)).sum = (((ks.map (fun k : Int => |k|)).sum : Int) : ℚ) := by
      clear hks hsum hlen hsumeq hsumeq2 hleneq
      induction ks with
      | nil => simp
      | cons k ks ih =>
        rw [List.map_cons, List.map_cons, List.sum_cons, ih, List.map_cons,
          List.sum_cons]
        push_cast
        rfl
    have hratsum : ((ks.map (fun k : Int => Double.fin (k : ℚ))).map Double.toRat).sum
        = ((ks.sum : Int) : ℚ) := by
      clear hks hsum hlen hsumeq hsumeq2 hleneq habsum
      induction ks with
      | nil => simp
      | cons k ks ih =>
        rw [List.map_cons, List.map_cons, List.sum_cons, ih, List.sum_cons]
        push_cast
        rfl
    rw [habsum] at hsumeq
    rw [hratsum] at hsumeq2
    rw [List.length_map] at hleneq
    have hsumq : (((ks.map (fun k : Int => |k|)).sum : Int) : ℚ) ≤ 2 ^ 53 := by
      exact_mod_cast hsum
    obtain ⟨hfold, -⟩ := Double.foldl_add_exact _ hint 0
      (by rw [Int.cast_zero, abs_zero, zero_add, hsumeq]; exact hsumq)
    rw [Int.cast_zero, zero_add, hsumeq2] at hfold
    show Double.div _ _ = _
    rw [hfold, hleneq]
    have hn0 : ks.length ≠ 0 := by
      intro h0
      rw [h0, List.length_eq_zero] at hleneq
      rw [hleneq] at hfront
      cases hfront
    have hnq : ((ks.length : Nat) : ℚ) ≠ 0 := by exact_mod_cast hn0
    have hof : Double.ofNat ks.length = Double.fin (ks.length : ℚ) :=
      Double.ofRat_natCast _ hlen
    rw [hof]
    by_cases hs0 : ((ks.sum : Int) : ℚ) = 0
    · rw [hs0, Double.div_fin_zero _ hnq, zero_div]
      have hpos : ¬ ((ks.length : ℚ) < 0) := not_lt.2 (Nat.cast_nonneg _)
      simp only [hpos, decide_False, Double.zero]
      decide!
    · rw [Double.div_fin _ _ hs0 hnq]

/-- Instance, `OptimalSearcherTest.AnalyzeSavings`: the costs 1000, 1500 and
2000 give 1000, 2000, 1500, 1000 and 50, and 1500 is the mean of the three
costs. -/
theorem analyzeSavings_result_witness :
    (OptimalSearcher.analyzeSavings insertionStdSort Examples.today
        Examples.searchOrder Examples.threeTariffs).2
      = some { optimalCost := Double.fin 1000, maximumCost := Double.fin 2000,
               averageCost := Double.fin 1500, savings := Double.fin 1000,
               savingsPercent := Double.fin 50, optimalTariffId := 1,
               expensiveTariffId := 3 } ∧
    Double.fin 1000 = Double.sub (Double.fin 2000) (Double.fin 1000) ∧
    Double.fin 50
      = Double.mul (Double.div (Double.fin 1000) (Double.fin 2000)) (Double.fin 100) ∧
    Double.fin 1500 = Double.ofRat ((([1000, 1500, 2000] : List Int).sum : ℚ)
      / (([1000, 1500, 2000] : List Int).length : ℚ)) := by
  have hv : (OptimalSearcher.analyzeSavings insertionStdSort Examples.today
      Examples.searchOrder Examples.threeTariffs).2
      = some { optimalCost := Double.fin 1000, maximumCost := Double.fin 2000,
               averageCost := Double.fin 1500, savings := Double.fin 1000,
               savingsPercent := Double.fin 50, optimalTariffId := 1,
               expensiveTariffId := 3 } := by decide!
  have h := analyzeSavings_result insertionStdSort insertionStdSort_isStdSort
    Examples.today Examples.searchOrder Examples.threeTariffs _ hv
  exact ⟨hv, h.1, h.2.1,
    h.2.2.2.2.2.2 [1000, 1500, 2000] (by decide!) (by decide) (by decide)⟩

/-! ## Division by zero -/

/-- The values that `== 0.0` accepts are the two zeros. -/
theorem Double.eq_zero_iff (y : Double) :
    Double.eq y (Double.fin 0) = true ↔ y = Double.fin 0 ∨ y = Double.negZero := by
  cases y <;> simp [Double.eq]

/-- C21. When the left operand of a DIVIDE node evaluates to a number `x`: if
the right operand evaluates to the double 0.0 (of either sign) or to the
integer 0, the node raises "division by zero" and returns no value; if the
right operand evaluates to a number `y` other than zero, the node returns the
quotient and so raises nothing; the node raises "division by zero" exactly
when `y` is zero. -/
theorem divide_by_zero (left right : Expression) (context : Context)
    (l : ParameterValue) (x : Double)
    (hleft : left.evaluate context = .ok l) (hx : GetDoubleValue l = some x) :
    (∀ r, right.evaluate context = .ok r →
      (r = .double (Double.fin 0) ∨ r = .double Double.negZero ∨ r = .integer 0) →
      (Expression.arithmetic .DIVIDE left right).evaluate context
        = .error (CalculationException "Деление на ноль") ∧
      ∀ v, (Expression.arithmetic .DIVIDE left right).evaluate context ≠ .ok v) ∧
    (∀ r y, right.evaluate context = .ok r → GetDoubleValue r = some y →
      y ≠ Double.fin 0 → y ≠ Double.negZero →
      (Expression.arithmetic .DIVIDE left right).evaluate context
        = .ok (.double (Double.div x y))) ∧
    (∀ r y, right.evaluate context = .ok r → GetDoubleValue r = some y →
      ((Expression.arithmetic .DIVIDE left right).evaluate context
        = .error (CalculationException "Деление на ноль") ↔
        y = Double.fin 0 ∨ y = Double.negZero)) := by
  have hev : ∀ r y, right.evaluate context = .ok r → GetDoubleValue r = some y →
      (Expression.arithmetic .DIVIDE left right).evaluate context
        = applyArithmetic .DIVIDE x y := by
    intro r y hr hy
    simp [Expression.evaluate, hleft, hr, hx, hy]
  have hzero : ∀ r y, right.evaluate context = .ok r → GetDoubleValue r = some y →
      y = Double.fin 0 ∨ y = Double.negZero →
      (Expression.arithmetic .DIVIDE left right).evaluate context
        = .error (CalculationException "Деление на ноль") := by
    intro r y hr hy h0
    rw [hev r y hr hy]
    rcases h0 with rfl | rfl <;> simp [applyArithmetic, Double.eq]
  have hnonzero : ∀ r y, right.evaluate context = .ok r →
      GetDoubleValue r = some y → y ≠ Double.fin 0 → y ≠ Double.negZero →
      (Expression.arithmetic .DIVIDE left right).evaluate context
        = .ok (.double (Double.div x y)) := by
    intro r y hr hy h0 h1
    have hne : Double.eq y (Double.fin 0) = false := by
      cases h : Double.eq y (Double.fin 0) with
      | false => rfl
      | true => exact ((Double.eq_zero_iff y).1 h).elim (absurd · h0) (absurd · h1)
    rw [hev r y hr hy]
    simp [applyArithmetic, hne]
  refine ⟨?_, hnonzero, ?_⟩
  · intro r hr h0
    have h : (Expression.arithmetic .DIVIDE left right).evaluate context
        = .error (CalculationException "Деление на ноль") := by
      rcases h0 with rfl | rfl | rfl
      · exact hzero _ (Double.fin 0) hr rfl (Or.inl rfl)
      · exact hzero _ Double.negZero hr rfl (Or.inr rfl)
      · exact hzero _ (Double.fin 0) hr (by simp [GetDoubleValue, Double.ofInt])
          (Or.inl rfl)
    refine ⟨h, ?_⟩
    intro v hv
    rw [h] at hv
    cases hv
  · intro r y hr hy
    constructor
    · intro h
      by_contra h0
      rw [hnonzero r y hr hy (fun h1 => h0 (Or.inl h1)) (fun h1 => h0 (Or.inr h1))] at h
      cases h
    · exact hzero r y hr hy

/-- Instances, after `ExpressionTest.DivisionByZero`: 10 divided by the double
0.0, by the double -0.0 and by the integer 0 raises, also when the dividend is
itself zero or NaN; 10 divided by 5 is 2. -/
theorem divide_by_zero_witness :
    (Expression.arithmetic .DIVIDE (.parameter 1) (Examples.number 0)).evaluate
      Examples.expressionContext = .error "Ошибка вычисления: Деление на ноль" ∧
    (Expression.arithmetic .DIVIDE (.parameter 1) (.constant (.integer 0))).evaluate
      Examples.expressionContext = .error "Ошибка вычисления: Деление на ноль" ∧
    (Expression.arithmetic .DIVIDE (.parameter 1)
      (.constant (.double Double.negZero))).evaluate
      Examples.expressionContext = .error "Ошибка вычисления: Деление на ноль" ∧
    (Expression.arithmetic .DIVIDE (Examples.number 0) (Examples.number 0)).evaluate
      Examples.expressionContext = .error "Ошибка вычисления: Деление на ноль" ∧
    (Expression.arithmetic .DIVIDE (.constant (.double Double.nan))
      (Examples.number 0)).evaluate
      Examples.expressionContext = .error "Ошибка вычисления: Деление на ноль" ∧
    (Expression.arithmetic .DIVIDE (.parameter 1) (.parameter 2)).evaluate
      Examples.expressionContext = .ok (.double (Double.fin 2)) := by
  refine ⟨?_, ?_, ?_, ?_, ?_, ?_⟩
  · exact ((divide_by_zero (.parameter 1) (Examples.number 0)
      Examples.expressionContext (.double (Double.fin 10)) (Double.fin 10)
      (by decide!) rfl).1 _ rfl (Or.inl rfl)).1
  · exact ((divide_by_zero (.parameter 1) (.constant (.integer 0))
      Examples.expressionContext (.double (Double.fin 10)) (Double.fin 10)
      (by decide!) rfl).1 _ rfl (Or.inr (Or.inr rfl))).1
  · exact ((divide_by_zero (.parameter 1) (.constant (.double Double.negZero))
      Examples.expressionContext (.double (Double.fin 10)) (Double.fin 10)
      (by decide!) rfl).1 _ rfl (Or.inr (Or.inl rfl))).1
  · exact ((divide_by_zero (Examples.number 0) (Examples.number 0)
      Examples.expressionContext (.double (Double.fin 0)) (Double.fin 0)
      rfl rfl).1 _ rfl (Or.inl rfl)).1
  · exact ((divide_by_zero (.constant (.double Double.nan)) (Examples.number 0)
      Examples.expressionContext (.double Double.nan) Double.nan
      rfl rfl).1 _ rfl (Or.inl rfl)).1
  · rw [(divide_by_zero (.parameter 1) (.parameter 2)
      Examples.expressionContext (.double (Double.fin 10)) (Double.fin 10)
      (by decide!) rfl).2.1 (.double (Double.fin 5)) (Double.fin 5) (by decide!) rfl
      (by decide) (by decide)]
    decide!

/-! ## ComparisonExpression.evaluate -/

/-- Between values that are not NaN, `<=` is the negation of `>`. -/
theorem Double.le_eq_not_gt (a b : Double) (ha : a ≠ Double.nan)
    (hb : b ≠ Double.nan) : Double.le a b = !Double.lt b a := by
  cases a <;> cases b <;> simp_all [Double.le, Double.lt, Double.eq]
  · rename_i q
    rcases lt_trichotomy q 0 with h | h | h
    · simp [h, not_lt.2 h.le, h.ne, h.ne.symm]
    · simp [h]
    · simp [h, not_lt.2 h.le, h.ne, h.ne.symm]
  · rename_i q
    rcases lt_trichotomy q 0 with h | h | h
    · simp [h, not_lt.2 h.le, h.ne, h.ne.symm]
    · simp [h]
    · simp [h, not_lt.2 h.le, h.ne, h.ne.symm]
  · rename_i p q
    rcases lt_trichotomy p q with h | h | h
    · simp [h, not_lt.2 h.le, h.ne, h.ne.symm]
    · simp [h]
    · simp [h, not_lt.2 h.le, h.ne, h.ne.symm]

/-- Operator `==` holds between a value other than NaN and itself, and between
the two zeros. -/
theorem Double.eq_iff (a b : Double) :
    Double.eq a b = true ↔
      (a ≠ Double.nan ∧ a = b) ∨ (Double.isZero a = true ∧ Double.isZero b = true) := by
  cases a <;> cases b <;> simp [Double.eq, Double.isZero]
  · exact eq_comm
  · intro h1 h2
    rw [h1, h2]

/-- C22. When the children of a comparison node evaluate to numbers `a` and
`b`, each an integer (converted to `double`) or a double, the node returns the
boolean that the `double` operator `<`, `<=`, `==`, `>=`, `>`, `!=` gives on
`a` and `b`. For finite values these are the order and equality of the numbers
denoted, so an integer and a double of the same numeric value compare equal.
`!=` is always the negation of `==`, and when neither value is NaN `<=` is the
negation of `>`, `>=` the negation of `<`, and `==` holds exactly between a
value and itself and between the two zeros. -/
theorem comparison_evaluate (left right : Expression) (context : Context)
    (l r : ParameterValue) (a b : Double)
    (hleft : left.evaluate context = .ok l)
    (hright : right.evaluate context = .ok r)
    (ha : l = .double a ∨ ∃ n : Integer, l = .integer n ∧ a = Double.ofInt n)
    (hb : r = .double b ∨ ∃ n : Integer, r = .integer n ∧ b = Double.ofInt n) :
    ((Expression.comparison .LESS_THAN left right).evaluate context
        = .ok (.boolean (Double.lt a b)) ∧
      (Expression.comparison .LESS_EQUAL left right).evaluate context
        = .ok (.boolean (Double.le a b)) ∧
      (Expression.comparison .EQUAL left right).evaluate context
        = .ok (.boolean (Double.eq a b)) ∧
      (Expression.comparison .GREATER_EQUAL left right).evaluate context
        = .ok (.boolean (Double.ge a b)) ∧
      (Expression.comparison .GREATER_THAN left right).evaluate context
        = .ok (.boolean (Double.gt a b)) ∧
      (Expression.comparison .NOT_EQUAL left right).evaluate context
        = .ok (.boolean (Double.ne a b))) ∧
    (∀ x y : ℚ, a = Double.fin x → b = Double.fin y →
      (Expression.comparison .LESS_THAN left right).evaluate context
        = .ok (.boolean (decide (x < y))) ∧
      (Expression.comparison .LESS_EQUAL left right).evaluate context
        = .ok (.boolean (decide (x ≤ y))) ∧
      (Expression.comparison .EQUAL left right).evaluate context
        = .ok (.boolean (decide (x = y))) ∧
      (Expression.comparison .GREATER_EQUAL left right).evaluate context
        = .ok (.boolean (decide (x ≥ y))) ∧
      (Expression.comparison .GREATER_THAN left right).evaluate context
        = .ok (.boolean (decide (x > y))) ∧
      (Expression.comparison .NOT_EQUAL left right).evaluate context
        = .ok (.boolean (decide (x ≠ y)))) ∧
    (∀ n : Integer,
      (l = .integer n ∧ r = .double (Double.fin (n : ℚ))) ∨
        (l = .double (Double.fin (n : ℚ)) ∧ r = .integer n) →
      (Expression.comparison .EQUAL left right).evaluate context
        = .ok (.boolean true)) ∧
    (Double.ne a b = !Double.eq a b) ∧
    (a ≠ Double.nan → b ≠ Double.nan →
      Double.le a b = !Double.gt a b ∧ Double.ge a b = !Double.lt a b ∧
      (Double.eq a b = true ↔
        a = b ∨ (Double.isZero a = true ∧ Double.isZero b = true))) := by
  have hga : GetDoubleValue l = some a := by
    rcases ha with rfl | ⟨n, rfl, rfl⟩ <;> rfl
  have hgb : GetDoubleValue r = some b := by
    rcases hb with rfl | ⟨n, rfl, rfl⟩ <;> rfl
  have hev : ∀ op, (Expression.comparison op left right).evaluate context
      = .ok (.boolean (applyComparison op a b)) := by
    intro op
    simp [Expression.evaluate, hleft, hright, hga, hgb]
  refine ⟨⟨hev _, hev _, hev _, hev _, hev _, hev _⟩, ?_, ?_, rfl, ?_⟩
  · intro x y hx hy
    subst hx hy
    refine ⟨?_, ?_, ?_, ?_, ?_, ?_⟩ <;> rw [hev]
    · simp [applyComparison, Double.lt]
    · simp [applyComparison, Double.le, Double.lt, Double.eq, le_iff_lt_or_eq]
    · simp [applyComparison, Double.eq]
    · simp [applyComparison, Double.ge, Double.le, Double.lt, Double.eq,
        le_iff_lt_or_eq, eq_comm]
    · simp [applyComparison, Double.gt, Double.lt]
    · simp [applyComparison, Double.ne, Double.eq]
  · intro n hn
    have hab : a = Double.fin (n : ℚ) ∧ b = Double.fin (n : ℚ) := by
      rcases hn with ⟨hl, hr⟩ | ⟨hl, hr⟩
      · subst hl hr
        simp only [GetDoubleValue, Double.ofInt, Option.some.injEq] at hga hgb
        exact ⟨hga.symm, hgb.symm⟩
      · subst hl hr
        simp only [GetDoubleValue, Double.ofInt, Option.some.injEq] at hga hgb
        exact ⟨hga.symm, hgb.symm⟩
    rw [hev, hab.1, hab.2]
    simp [applyComparison, Double.eq]
  · intro hna hnb
    exact ⟨Double.le_eq_not_gt a b hna hnb, Double.le_eq_not_gt b a hnb hna,
      (Double.eq_iff a b).trans (by simp [hna])⟩

/-- Instances, the comparison tests of `ExpressionTest` with 10 and 5, and the
integer 10 against the double 10. -/
theorem comparison_evaluate_witness :
    (Expression.comparison .GREATER_THAN (.parameter 1) (.parameter 2)).evaluate
      Examples.expressionContext = .ok (.boolean true) ∧
    (Expression.comparison .LESS_THAN (.parameter 1) (.parameter 2)).evaluate
      Examples.expressionContext = .ok (.boolean false) ∧
    (Expression.comparison .EQUAL (.parameter 1) (Examples.number 10)).evaluate
      Examples.expressionContext = .ok (.boolean true) ∧
    (Expression.comparison .EQUAL (.constant (.integer 10)) (.parameter 1)).evaluate
      Examples.expressionContext = .ok (.boolean true) ∧
    (Expression.comparison .NOT_EQUAL (.constant (.double Double.nan))
      (.constant (.double Double.nan))).evaluate
      Examples.expressionContext = .ok (.boolean true) := by
  have h := comparison_evaluate (.parameter 1) (.parameter 2)
    Examples.expressionContext (.double (Double.fin 10)) (.double (Double.fin 5))
    (Double.fin 10) (Double.fin 5) (by decide!) (by decide!) (Or.inl rfl) (Or.inl rfl)
  have h2 := comparison_evaluate (.parameter 1) (Examples.number 10)
    Examples.expressionContext (.double (Double.fin 10)) (.double (Double.fin 10))
    (Double.fin 10) (Double.fin 10) (by decide!) rfl (Or.inl rfl) (Or.inl rfl)
  have h3 := comparison_evaluate (.constant (.integer 10)) (.parameter 1)
    Examples.expressionContext (.integer 10) (.double (Double.fin 10))
    (Double.ofInt 10) (Double.fin 10) rfl (by decide!) (Or.inr ⟨10, rfl, rfl⟩)
    (Or.inl rfl)
  have h4 := comparison_evaluate (.constant (.double Double.nan))
    (.constant (.double Double.nan)) Examples.expressionContext
    (.double Double.nan) (.double Double.nan) Double.nan Double.nan rfl rfl
    (Or.inl rfl) (Or.inl rfl)
  refine ⟨?_, ?_, ?_, ?_, ?_⟩
  · rw [(h.2.1 10 5 rfl rfl).2.2.2.2.1]
    decide!
  · rw [(h.2.1 10 5 rfl rfl).1]
    decide!
  · rw [(h2.2.1 10 10 rfl rfl).2.2.1]
    decide!
  · exact h3.2.2.1 10 (Or.inl ⟨rfl, by decide!⟩)
  · rw [h4.1.2.2.2.2.2]
    rfl

/-! ## Type mismatch and the logical operators -/

theorem GetDoubleValue_eq_none_iff (v : ParameterValue) :
    GetDoubleValue v = none ↔
      v = .empty ∨ (∃ s, v = .string s) ∨ (∃ b, v = .boolean b) ∨ ∃ d, v = .date d := by
  cases v <;> simp [GetDoubleValue]

theorem GetBooleanValue_eq_none_iff (v : ParameterValue) :
    GetBooleanValue v = none ↔ ∀ b, v ≠ .boolean b := by
  cases v <;> simp [GetBooleanValue]

/-- Operands of AND that evaluate to the boolean true are passed over. -/
theorem Expression.evaluateOperands_and_skip (context : Context)
    (pre rest : List Expression)
    (hpre : ∀ e ∈ pre, e.evaluate context = .ok (.boolean true)) :
    Expression.evaluateOperands context true true (pre ++ rest)
      = Expression.evaluateOperands context true true rest := by
  induction pre with
  | nil => rfl
  | cons e pre ih =>
    have he := hpre e (List.mem_cons_self _ _)
    have ih2 := ih (fun x hx => hpre x (List.mem_cons_of_mem _ hx))
    simp [Expression.evaluateOperands, he, GetBooleanValue, ih2]

/-- Operands of OR that evaluate to the boolean false are passed over. -/
theorem Expression.evaluateOperands_or_skip (context : Context)
    (pre rest : List Expression)
    (hpre : ∀ e ∈ pre, e.evaluate context = .ok (.boolean false)) :
    Expression.evaluateOperands context false false (pre ++ rest)
      = Expression.evaluateOperands context false false rest := by
  induction pre with
  | nil => rfl
  | cons e pre ih =>
    have he := hpre e (List.mem_cons_self _ _)
    have ih2 := ih (fun x hx => hpre x (List.mem_cons_of_mem _ hx))
    simp [Expression.evaluateOperands, he, GetBooleanValue, ih2]

/-- C23, counterexample. The left child of these nodes evaluates to a string,
yet the nodes do not fail with the type-mismatch error: the right child, which
is evaluated before the operands are checked, reads a parameter that the
context does not have, and the nodes fail with that error. When the left child
raises, the right child, here a string, is not evaluated at all. -/
theorem type_mismatch_behind_other_error :
    (Expression.constant (.string "abc")).evaluate Context.new
      = .ok (.string "abc") ∧
    (Expression.arithmetic .ADD (.constant (.string "abc")) (.parameter 99)).evaluate
      Context.new = .error "Ошибка вычисления: Параметр 99 не найден в контексте" ∧
    (Expression.arithmetic .ADD (.constant (.string "abc")) (.parameter 99)).evaluate
      Context.new
      ≠ .error (CalculationException "Некорректные аргументы арифметической операции") ∧
    (Expression.comparison .EQUAL (.constant (.string "abc")) (.parameter 99)).evaluate
      Context.new = .error "Ошибка вычисления: Параметр 99 не найден в контексте" ∧
    (Expression.comparison .EQUAL (.constant (.string "abc")) (.parameter 99)).evaluate
      Context.new
      ≠ .error (CalculationException "Некорректные аргументы операции сравнения") ∧
    (Expression.arithmetic .ADD (.parameter 99) (.constant (.string "abc"))).evaluate
      Context.new = .error "Ошибка вычисления: Параметр 99 не найден в контексте" := by
  decide
/-- C23, amended. The only conversion is integer to double. When both children
of an arithmetic or comparison node evaluate without raising and one of them
yields a value that is not a number (a string, a boolean, a date or the empty
value), the node fails with the type-mismatch error of its kind; when a child
raises, the node raises that error instead, the left child first. A logical
node fails with its type-mismatch error when an operand that it evaluates
yields a value that is not a boolean: the operand of NOT, and for AND (OR) the
operand that follows operands which all evaluated to true (false). -/
theorem type_mismatch (context : Context) :
    (∀ op left right l r, left.evaluate context = .ok l →
      right.evaluate context = .ok r →
      (GetDoubleValue l = none ∨ GetDoubleValue r = none) →
      (Expression.arithmetic op left right).evaluate context
        = .error (CalculationException
            "Некорректные аргументы арифметической операции")) ∧
    (∀ op left right l r, left.evaluate context = .ok l →
      right.evaluate context = .ok r →
      (GetDoubleValue l = none ∨ GetDoubleValue r = none) →
      (Expression.comparison op left right).evaluate context
        = .error (CalculationException "Некорректные аргументы операции сравнения")) ∧
    (∀ v, GetDoubleValue v = none ↔
      v = .empty ∨ (∃ s, v = .string s) ∨ (∃ b, v = .boolean b) ∨ ∃ d, v = .date d) ∧
    (∀ left right e, left.evaluate context = .error e →
      (∀ op, (Expression.arithmetic op left right).evaluate context = .error e) ∧
      (∀ op, (Expression.comparison op left right).evaluate context = .error e)) ∧
    (∀ left right l e, left.evaluate context = .ok l →
      right.evaluate context = .error e →
      (∀ op, (Expression.arithmetic op left right).evaluate context = .error e) ∧
      (∀ op, (Expression.comparison op left right).evaluate context = .error e)) ∧
    (∀ pre operand post v,
      (∀ e ∈ pre, e.evaluate context = .ok (.boolean true)) →
      operand.evaluate context = .ok v → GetBooleanValue v = none →
      (Expression.logical .AND (pre ++ operand :: post)).evaluate context
        = .error (CalculationException "Некорректный аргумент логической операции")) ∧
    (∀ pre operand post v,
      (∀ e ∈ pre, e.evaluate context = .ok (.boolean false)) →
      operand.evaluate context = .ok v → GetBooleanValue v = none →
      (Expression.logical .OR (pre ++ operand :: post)).evaluate context
        = .error (CalculationException "Некорректный аргумент логической операции")) ∧
    (∀ operand v, operand.evaluate context = .ok v → GetBooleanValue v = none →
      (Expression.logical .NOT [operand]).evaluate context
        = .error (CalculationException
            "Некорректный аргумент логической операции NOT")) ∧
    (∀ v, GetBooleanValue v = none ↔ ∀ b, v ≠ .boolean b) := by
  refine ⟨?_, ?_, GetDoubleValue_eq_none_iff, ?_, ?_, ?_, ?_, ?_,
    GetBooleanValue_eq_none_iff⟩
  · intro op left right l r hl hr hnone
    rcases hnone with h | h
    · simp [Expression.evaluate, hl, hr, h]
    · cases hgl : GetDoubleValue l <;> simp [Expression.evaluate, hl, hr, h, hgl]
  · intro op left right l r hl hr hnone
    rcases hnone with h | h
    · simp [Expression.evaluate, hl, hr, h]
    · cases hgl : GetDoubleValue l <;> simp [Expression.evaluate, hl, hr, h, hgl]
  · intro left right e hl
    exact ⟨fun op => by simp [Expression.evaluate, hl],
      fun op => by simp [Expression.evaluate, hl]⟩
  · intro left right l e hl hr
    exact ⟨fun op => by simp [Expression.evaluate, hl, hr],
      fun op => by simp [Expression.evaluate, hl, hr]⟩
  · intro pre operand post v hpre hv hnone
    rw [Expression.evaluate, Expression.evaluateOperands_and_skip context pre _ hpre]
    simp [Expression.evaluateOperands, hv, hnone]
  · intro pre operand post v hpre hv hnone
    rw [Expression.evaluate, Expression.evaluateOperands_or_skip context pre _ hpre]
    simp [Expression.evaluateOperands, hv, hnone]
  · intro operand v hv hnone
    simp [Expression.evaluate, hv, hnone]

/-- Instances: a string plus a number, two strings compared, two booleans
compared, a boolean times a number, a number as operand of AND after a true
operand, of OR and of NOT. -/
theorem type_mismatch_witness :
    (Expression.arithmetic .ADD (.constant (.string "abc")) (Examples.number 1)).evaluate
      Examples.expressionContext
      = .error "Ошибка вычисления: Некорректные аргументы арифметической операции" ∧
    (Expression.comparison .EQUAL (.constant (.string "a"))
      (.constant (.string "a"))).evaluate Examples.expressionContext
      = .error "Ошибка вычисления: Некорректные аргументы операции сравнения" ∧
    (Expression.comparison .EQUAL (.constant (.boolean true))
      (.constant (.boolean true))).evaluate Examples.expressionContext
      = .error "Ошибка вычисления: Некорректные аргументы операции сравнения" ∧
    (Expression.arithmetic .MULTIPLY (.constant (.boolean true))
      (.parameter 1)).evaluate Examples.expressionContext
      = .error "Ошибка вычисления: Некорректные аргументы арифметической операции" ∧
    (Expression.logical .AND [.constant (.boolean true), Examples.number 1,
      .constant (.boolean false)]).evaluate Examples.expressionContext
      = .error "Ошибка вычисления: Некорректный аргумент логической операции" ∧
    (Expression.logical .OR [Examples.number 1]).evaluate Examples.expressionContext
      = .error "Ошибка вычисления: Некорректный аргумент логической операции" ∧
    (Expression.logical .NOT [Examples.number 0]).evaluate Examples.expressionContext
      = .error "Ошибка вычисления: Некорректный аргумент логической операции NOT" := by
  have h := type_mismatch Examples.expressionContext
  refine ⟨?_, ?_, ?_, ?_, ?_, ?_, ?_⟩
  · exact h.1 .ADD _ _ (.string "abc") (.double (Double.fin 1)) rfl rfl (Or.inl rfl)
  · exact h.2.1 .EQUAL _ _ (.string "a") (.string "a") rfl rfl (Or.inl rfl)
  · exact h.2.1 .EQUAL _ _ (.boolean true) (.boolean true) rfl rfl (Or.inr rfl)
  · exact h.1 .MULTIPLY _ _ (.boolean true) (.double (Double.fin 10)) rfl
      (by decide!) (Or.inl rfl)
  · exact h.2.2.2.2.2.1 [.constant (.boolean true)] (Examples.number 1)
      [.constant (.boolean false)] (.double (Double.fin 1))
      (by simp [Expression.evaluate]) rfl rfl
  · exact h.2.2.2.2.2.2.1 [] (Examples.number 1) [] (.double (Double.fin 1))
      (by simp) rfl rfl
  · exact h.2.2.2.2.2.2.2.1 (Examples.number 0) (.double (Double.fin 0)) rfl rfl

/-- The loop of AND over operands that all evaluate to booleans. -/
theorem Expression.evaluateOperands_and_all (context : Context)
    (operands : List Expression)
    (hall : ∀ e ∈ operands, ∃ b, e.evaluate context = .ok (.boolean b)) :
    Expression.evaluateOperands context true true operands
      = .ok (.boolean (operands.all
          (fun e => decide (e.evaluate context = .ok (.boolean true))))) := by
  induction operands with
  | nil => rfl
  | cons e rest ih =>
    obtain ⟨b, hb⟩ := hall e (List.mem_cons_self _ _)
    have ih2 := ih (fun x hx => hall x (List.mem_cons_of_mem _ hx))
    cases b with
    | false => simp [Expression.evaluateOperands, hb, GetBooleanValue]
    | true => simp [Expression.evaluateOperands, hb, GetBooleanValue, ih2]

/-- The loop of OR over operands that all evaluate to booleans. -/
theorem Expression.evaluateOperands_or_any (context : Context)
    (operands : List Expression)
    (hall : ∀ e ∈ operands, ∃ b, e.evaluate context = .ok (.boolean b)) :
    Expression.evaluateOperands context false false operands
      = .ok (.boolean (operands.any
          (fun e => decide (e.evaluate context = .ok (.boolean true))))) := by
  induction operands with
  | nil => rfl
  | cons e rest ih =>
    obtain ⟨b, hb⟩ := hall e (List.mem_cons_self _ _)
    have ih2 := ih (fun x hx => hall x (List.mem_cons_of_mem _ hx))
    cases b with
    | false => simp [Expression.evaluateOperands, hb, GetBooleanValue, ih2]
    | true => simp [Expression.evaluateOperands, hb, GetBooleanValue]

/-- C24. When all operands of an AND or OR node evaluate to booleans, the node
returns a boolean: for AND it is true exactly when every operand evaluates to
true, for OR exactly when at least one operand evaluates to true. For the empty
operand list AND returns true and OR returns false. -/
theorem logical_and_or (context : Context) (operands : List Expression)
    (hall : ∀ e ∈ operands, ∃ b, e.evaluate context = .ok (.boolean b)) :
    (∃ b, (Expression.logical .AND operands).evaluate context = .ok (.boolean b) ∧
      (b = true ↔ ∀ e ∈ operands, e.evaluate context = .ok (.boolean true))) ∧
    (∃ b, (Expression.logical .OR operands).evaluate context = .ok (.boolean b) ∧
      (b = true ↔ ∃ e ∈ operands, e.evaluate context = .ok (.boolean true))) ∧
    (Expression.logical .AND []).evaluate context = .ok (.boolean true) ∧
    (Expression.logical .OR []).evaluate context = .ok (.boolean false) := by
  refine ⟨⟨operands.all
      (fun e => decide (e.evaluate context = .ok (.boolean true))), ?_, ?_⟩,
    ⟨operands.any
      (fun e => decide (e.evaluate context = .ok (.boolean true))), ?_, ?_⟩, rfl, rfl⟩
  · rw [Expression.evaluate]
    exact Expression.evaluateOperands_and_all context operands hall
  · simp
  · rw [Expression.evaluate]
    exact Expression.evaluateOperands_or_any context operands hall
  · simp

/-- Instances, the tests `LogicalAND` and `LogicalOR` of `ExpressionTest`, and
the empty operand lists. -/
theorem logical_and_or_witness :
    (Expression.logical .AND
      [.constant (.boolean true), .constant (.boolean true)]).evaluate
      Examples.expressionContext = .ok (.boolean true) ∧
    (Expression.logical .AND
      [.constant (.boolean true), .constant (.boolean false)]).evaluate
      Examples.expressionContext = .ok (.boolean false) ∧
    (Expression.logical .OR
      [.constant (.boolean false), .constant (.boolean true)]).evaluate
      Examples.expressionContext = .ok (.boolean true) ∧
    (Expression.logical .OR
      [.constant (.boolean false), .constant (.boolean false)]).evaluate
      Examples.expressionContext = .ok (.boolean false) ∧
    (Expression.logical .AND []).evaluate Examples.expressionContext
      = .ok (.boolean true) ∧
    (Expression.logical .OR []).evaluate Examples.expressionContext
      = .ok (.boolean false) := by
  have hbool : ∀ l : List Bool, ∀ e ∈ l.map (fun b => Expression.constant (.boolean b)),
      ∃ b, e.evaluate Examples.expressionContext = .ok (.boolean b) := by
    intro l e he
    obtain ⟨b, -, rfl⟩ := List.mem_map.1 he
    exact ⟨b, rfl⟩
  refine ⟨?_, ?_, ?_, ?_, ?_, ?_⟩
  · obtain ⟨b, hb, hiff⟩ := (logical_and_or Examples.expressionContext _
      (hbool [true, true])).1
    rw [show [Expression.constant (.boolean true), .constant (.boolean true)]
      = [true, true].map (fun b => Expression.constant (.boolean b)) from rfl, hb,
      hiff.2 (by simp [Expression.evaluate])]
  · obtain ⟨b, hb, hiff⟩ := (logical_and_or Examples.expressionContext _
      (hbool [true, false])).1
    have hf : b = false := by
      cases b with
      | false => rfl
      | true =>
        have := hiff.1 rfl (.constant (.boolean false)) (by simp)
        simp [Expression.evaluate] at this
    rw [show [Expression.constant (.boolean true), .constant (.boolean false)]
      = [true, false].map (fun b => Expression.constant (.boolean b)) from rfl, hb, hf]
  · obtain ⟨b, hb, hiff⟩ := (logical_and_or Examples.expressionContext _
      (hbool [false, true])).2.1
    rw [show [Expression.constant (.boolean false), .constant (.boolean true)]
      = [false, true].map (fun b => Expression.constant (.boolean b)) from rfl, hb,
      hiff.2 ⟨.constant (.boolean true), by simp, rfl⟩]
  · obtain ⟨b, hb, hiff⟩ := (logical_and_or Examples.expressionContext _
      (hbool [false, false])).2.1
    have hf : b = false := by
      cases b with
      | false => rfl
      | true =>
        obtain ⟨e, he, hev⟩ := hiff.1 rfl
        simp only [List.map_cons, List.map_nil, List.mem_cons, List.mem_singleton,
          List.not_mem_nil, or_false, or_self] at he
        subst he
        simp [Expression.evaluate] at hev
    rw [show [Expression.constant (.boolean false), .constant (.boolean false)]
      = [false, false].map (fun b => Expression.constant (.boolean b)) from rfl, hb, hf]
  · exact (logical_and_or Examples.expressionContext [] (by simp)).2.2.1
  · exact (logical_and_or Examples.expressionContext [] (by simp)).2.2.2

/-- C25. Short circuit: when the operands of AND before some operand all
evaluate to true and that operand evaluates to false, AND returns false
whatever the operands after it are; when the operands of OR before some operand
all evaluate to false and that operand evaluates to true, OR returns true
whatever follows. The operands after it are not evaluated: they may raise or
yield values that are not booleans. -/
theorem logical_short_circuit (context : Context) (pre post : List Expression)
    (operand : Expression) :
    ((∀ e ∈ pre, e.evaluate context = .ok (.boolean true)) →
      operand.evaluate context = .ok (.boolean false) →
      (Expression.logical .AND (pre ++ operand :: post)).evaluate context
        = .ok (.boolean false)) ∧
    ((∀ e ∈ pre, e.evaluate context = .ok (.boolean false)) →
      operand.evaluate context = .ok (.boolean true) →
      (Expression.logical .OR (pre ++ operand :: post)).evaluate context
        = .ok (.boolean true)) := by
  constructor
  · intro hpre hv
    rw [Expression.evaluate, Expression.evaluateOperands_and_skip context pre _ hpre]
    simp [Expression.evaluateOperands, hv, GetBooleanValue]
  · intro hpre hv
    rw [Expression.evaluate, Expression.evaluateOperands_or_skip context pre _ hpre]
    simp [Expression.evaluateOperands, hv, GetBooleanValue]

/-- Instances: behind the deciding operand stand a division by zero, a read of
a missing parameter and a number. -/
theorem logical_short_circuit_witness :
    (Expression.logical .AND [.constant (.boolean true), .constant (.boolean false),
      .arithmetic .DIVIDE (Examples.number 1) (Examples.number 0), .parameter 99,
      Examples.number 5]).evaluate Examples.expressionContext
      = .ok (.boolean false) ∧
    (Expression.logical .OR [.constant (.boolean false), .constant (.boolean true),
      .arithmetic .DIVIDE (Examples.number 1) (Examples.number 0), .parameter 99,
      Examples.number 5]).evaluate Examples.expressionContext
      = .ok (.boolean true) ∧
    (Expression.logical .AND [.constant (.boolean true),
      .arithmetic .DIVIDE (Examples.number 1) (Examples.number 0),
      .constant (.boolean false)]).evaluate Examples.expressionContext
      = .error "Ошибка вычисления: Деление на ноль" :=
  ⟨(logical_short_circuit Examples.expressionContext [.constant (.boolean true)]
      [.arithmetic .DIVIDE (Examples.number 1) (Examples.number 0), .parameter 99,
        Examples.number 5] (.constant (.boolean false))).1
      (by simp [Expression.evaluate]) rfl,
   (logical_short_circuit Examples.expressionContext [.constant (.boolean false)]
      [.arithmetic .DIVIDE (Examples.number 1) (Examples.number 0), .parameter 99,
        Examples.number 5] (.constant (.boolean true))).2
      (by simp [Expression.evaluate]) rfl,
   by decide!⟩

/-- C26. A NOT node whose operand list does not have exactly one element fails
with the error "NOT needs one operand", in every context and whatever the
operands are (none of them is evaluated); with the single operand evaluating to
the boolean `b` it returns the boolean `!b`. -/
theorem logical_not (context : Context) :
    (∀ operands : List Expression, operands.length ≠ 1 →
      (Expression.logical .NOT operands).evaluate context
        = .error (CalculationException "Операция NOT требует один операнд")) ∧
    (∀ operand b, operand.evaluate context = .ok (.boolean b) →
      (Expression.logical .NOT [operand]).evaluate context = .ok (.boolean (!b))) := by
  constructor
  · intro operands hlen
    match operands, hlen with
    | [], _ => simp [Expression.evaluate]
    | [_], h => exact absurd rfl h
    | _ :: _ :: _, _ => simp [Expression.evaluate]
  · intro operand b hb
    simp [Expression.evaluate, hb, GetBooleanValue]

/-- Instances, after `ExpressionTest.LogicalNOT`: NOT(false) is true and
NOT(true) is false; NOT of no operand and NOT of two operands fail, the latter
although its operands would raise other errors. -/
theorem logical_not_witness :
    (Expression.logical .NOT [.constant (.boolean false)]).evaluate
      Examples.expressionContext = .ok (.boolean true) ∧
    (Expression.logical .NOT [.constant (.boolean true)]).evaluate
      Examples.expressionContext = .ok (.boolean false) ∧
    (Expression.logical .NOT []).evaluate Examples.expressionContext
      = .error "Ошибка вычисления: Операция NOT требует один операнд" ∧
    (Expression.logical .NOT [.parameter 99,
      .arithmetic .DIVIDE (Examples.number 1) (Examples.number 0)]).evaluate
      Examples.expressionContext
      = .error "Ошибка вычисления: Операция NOT требует один операнд" :=
  ⟨(logical_not Examples.expressionContext).2 _ false rfl,
   (logical_not Examples.expressionContext).2 _ true rfl,
   (logical_not Examples.expressionContext).1 [] (by decide),
   (logical_not Examples.expressionContext).1 _ (by decide)⟩

/-! ## ParameterExpression.evaluate and RuleEngine.createContext -/

/-- C27. Evaluating a reference to parameter `parameterId`: when the context
binds the parameter, the result is the bound value as it is, tag included; the
evaluation fails with "parameter not found" exactly when the context does not
bind it. A parameter set to the empty value is bound, and the reference yields
the empty value. -/
theorem parameter_evaluate (context : Context) (parameterId : Integer) :
    (∀ value, context.getParameter parameterId = some value →
      (Expression.parameter parameterId).evaluate context = .ok value) ∧
    ((Expression.parameter parameterId).evaluate context
        = .error (CalculationException
            ("Параметр " ++ toString parameterId ++ " не найден в контексте"))
      ↔ context.getParameter parameterId = none) ∧
    ((∃ e, (Expression.parameter parameterId).evaluate context = .error e)
      ↔ context.getParameter parameterId = none) ∧
    (∀ value, (Expression.parameter parameterId).evaluate
        (context.setParameter parameterId value) = .ok value) ∧
    (Expression.parameter parameterId).evaluate
        (context.setParameter parameterId .empty) = .ok .empty := by
  have hset : ∀ value, (Expression.parameter parameterId).evaluate
      (context.setParameter parameterId value) = .ok value := by
    intro value
    simp [Expression.evaluate, Context.getParameter, Context.setParameter,
      StdMap.find_set]
  refine ⟨?_, ?_, ?_, hset, hset .empty⟩
  · intro value h
    simp [Expression.evaluate, h]
  · cases h : context.getParameter parameterId <;> simp [Expression.evaluate, h]
  · cases h : context.getParameter parameterId <;> simp [Expression.evaluate, h]

/-- Instances, after `ExpressionTest.ParameterExpression`: parameter 1 of the
test context is 10, parameter 99 is not bound, and values of every tag come
back unchanged. -/
theorem parameter_evaluate_witness :
    (Expression.parameter 1).evaluate Examples.expressionContext
      = .ok (.double (Double.fin 10)) ∧
    (Expression.parameter 99).evaluate Examples.expressionContext
      = .error "Ошибка вычисления: Параметр 99 не найден в контексте" ∧
    (Expression.parameter 3).evaluate
      (Examples.expressionContext.setParameter 3 (.integer 7)) = .ok (.integer 7) ∧
    (Expression.parameter 3).evaluate
      (Examples.expressionContext.setParameter 3 .empty) = .ok .empty :=
  ⟨(parameter_evaluate Examples.expressionContext 1).1 _ (by decide!),
   (parameter_evaluate Examples.expressionContext 99).2.1.2 (by decide!),
   (parameter_evaluate Examples.expressionContext 3).2.2.2.1 _,
   (parameter_evaluate Examples.expressionContext 3).2.2.2.2⟩

/-- Assignment under a key above all keys of the map adds the entry at the end. -/
theorem StdMap.set_of_keys_lt {ν : Type} (m : StdMap ν) (key : Integer) (value : ν)
    (h : ∀ k ∈ m.map Prod.fst, k < key) :
    m.set key value = m ++ [(key, value)] := by
  induction m with
  | nil => rfl
  | cons entry rest ih =>
    obtain ⟨k0, v0⟩ := entry
    have hk0 : k0 < key := h k0 (by simp)
    have ih2 := ih (fun k hk => h k (by simp [List.mem_map] at hk ⊢; exact Or.inr hk))
    simp [StdMap.set, not_lt.2 hk0.le, hk0.ne.symm, ih2]

/-- The loop of `createContext` over entries in key order, started from a
context whose keys lie below them: the entries are appended as they are. -/
theorem RuleEngine.createContext_foldl (entries : StdMap ParameterValue)
    (context : Context)
    (h : List.Pairwise (fun a b : Integer => a < b)
      ((context.parameters ++ entries).map Prod.fst)) :
    entries.foldl (fun context entry => context.setParameter entry.1 entry.2) context
      = { parameters := context.parameters ++ entries,
          constants := context.constants } := by
  induction entries generalizing context with
  | nil => simp
  | cons entry rest ih =>
    obtain ⟨k, v⟩ := entry
    have hlt : ∀ k0 ∈ context.parameters.map Prod.fst, k0 < k := by
      intro k0 hk0
      rw [List.map_append, List.pairwise_append] at h
      exact h.2.2 k0 hk0 k (by simp)
    have hset : context.setParameter k v
        = { parameters := context.parameters ++ [(k, v)],
            constants := context.constants } := by
      simp [Context.setParameter, StdMap.set_of_keys_lt _ k v hlt]
    simp only [List.foldl_cons]
    rw [hset, ih]
    · simp
    · simpa using h

/-- A new order has no parameters, and `addParameter` keeps the keys of the
parameter map in strictly ascending order, as in every `std::map`. -/
theorem Order.parameters_sorted (id : Integer) (code name : String)
    (serviceId : Integer) (orderDate : Date) :
    List.Pairwise (fun a b : Integer => a < b)
      ((Order.new id code name serviceId orderDate).parameters.map Prod.fst) ∧
    ∀ (order : Order) (parameterId : Integer) (value : ParameterValue),
      List.Pairwise (fun a b : Integer => a < b) (order.parameters.map Prod.fst) →
      List.Pairwise (fun a b : Integer => a < b)
        ((order.addParameter parameterId value).parameters.map Prod.fst) :=
  ⟨List.Pairwise.nil, fun order parameterId value h =>
    StdMap.set_keys_sorted order.parameters parameterId value h⟩

/-- C28. For an order whose parameter map is a `std::map` (keys in strictly
ascending order, which `Order::addParameter` maintains): the context built by
`createContext` holds the parameter map of the order, so for every id
`getParameter` of the context is `getParameter` of the order, the same value or
absent in both; and `getConstant` of the context is absent for every name. -/
theorem createContext_binds_parameters (order : Order)
    (hmap : List.Pairwise (fun a b : Integer => a < b)
      (order.parameters.map Prod.fst)) :
    (∀ parameterId, (RuleEngine.createContext order).getParameter parameterId
      = order.getParameter parameterId) ∧
    (∀ name, (RuleEngine.createContext order).getConstant name = none) ∧
    (RuleEngine.createContext order).parameters = order.parameters := by
  have h : RuleEngine.createContext order
      = { parameters := order.parameters, constants := [] } := by
    unfold RuleEngine.createContext
    rw [RuleEngine.createContext_foldl order.parameters Context.new
      (by simpa [Context.new] using hmap)]
    simp [Context.new]
  rw [h]
  exact ⟨fun _ => rfl, fun _ => rfl, rfl⟩

/-- Instance, after `RuleEngineTest.CreateContextFromOrder`: the context of
the test order binds parameter 1 to 100, and also the string and the empty
value that were added to the order; parameter 4 and every constant are absent. -/
theorem createContext_binds_parameters_witness :
    (RuleEngine.createContext Examples.engineOrder).getParameter 1
      = some (.double (Double.fin 100)) ∧
    (RuleEngine.createContext Examples.engineOrder).getParameter 5
      = some (.string "test") ∧
    (RuleEngine.createContext Examples.engineOrder).getParameter 3 = some .empty ∧
    (RuleEngine.createContext Examples.engineOrder).getParameter 4 = none ∧
    (RuleEngine.createContext Examples.engineOrder).getConstant "PI" = none := by
  have h := createContext_binds_parameters Examples.engineOrder (by decide)
  refine ⟨?_, ?_, ?_, ?_, h.2.1 "PI"⟩
  · rw [h.1 1]
    decide!
  · rw [h.1 5]
    decide!
  · rw [h.1 3]
    decide!
  · rw [h.1 4]
    decide!

/-! ## A tariff without rules -/

/-- C29. For a tariff whose rule list is empty, and every order:
`applyTariffRules` fails with the error "the tariff has no rules"; and when the
tariff is valid today, `calculateCost` fails, with that error inside its
message, and leaves the order as it was: no tariff id and no cost are set and
the status does not change. -/
theorem applyTariffRules_no_rules (S : StdSort) (today : Date) (tariff : Tariff)
    (order : Order) (hrules : tariff.rules = []) :
    RuleEngine.applyTariffRules S tariff order
      = .error (CalculationException "Тариф не содержит правил расчета") ∧
    (tariff.isValidNow today = true →
      CostCalculator.calculateCost S today order tariff
        = (order, .error (CostCalculator.tariffError tariff
            (CalculationException "Тариф не содержит правил расчета")))) ∧
    (∃ e, (CostCalculator.calculateCost S today order tariff).2 = .error e) ∧
    (CostCalculator.calculateCost S today order tariff).1 = order := by
  have happly : RuleEngine.applyTariffRules S tariff order
      = .error (CalculationException "Тариф не содержит правил расчета") := by
    simp [RuleEngine.applyTariffRules, hrules]
  have hvalid : tariff.isValidNow today = true →
      CostCalculator.calculateCost S today order tariff
        = (order, .error (CostCalculator.tariffError tariff
            (CalculationException "Тариф не содержит правил расчета"))) := by
    intro hv
    simp [CostCalculator.calculateCost, hv, happly]
  refine ⟨happly, hvalid, ?_, ?_⟩
  · cases hv : tariff.isValidNow today with
    | true => exact ⟨_, by rw [hvalid hv]⟩
    | false =>
      exact ⟨CalculationException "Тариф недействителен",
        by simp [CostCalculator.calculateCost, hv]⟩
  · cases hv : tariff.isValidNow today with
    | true => rw [hvalid hv]
    | false => simp [CostCalculator.calculateCost, hv]

/-- Instance: a new tariff, which has no rules, and the order of
`CostCalculatorTest`, which stays a draft with cost 0 and without tariff. -/
theorem applyTariffRules_no_rules_witness :
    RuleEngine.applyTariffRules insertionStdSort Examples.emptyTariff
        Examples.simpleOrder
      = .error "Ошибка вычисления: Тариф не содержит правил расчета" ∧
    (CostCalculator.calculateCost insertionStdSort Examples.today
        Examples.simpleOrder Examples.emptyTariff).2
      = .error ("Ошибка вычисления: Ошибка при расчете стоимости по тарифу " ++
          "'Пустой тариф': Ошибка вычисления: Тариф не содержит правил расчета") ∧
    (CostCalculator.calculateCost insertionStdSort Examples.today
        Examples.simpleOrder Examples.emptyTariff).1.status = .DRAFT ∧
    (CostCalculator.calculateCost insertionStdSort Examples.today
        Examples.simpleOrder Examples.emptyTariff).1.tariffId = none ∧
    (CostCalculator.calculateCost insertionStdSort Examples.today
        Examples.simpleOrder Examples.emptyTariff).1.calculatedCost = Double.fin 0 := by
  have h := applyTariffRules_no_rules insertionStdSort Examples.today
    Examples.emptyTariff Examples.simpleOrder rfl
  refine ⟨h.1, ?_, ?_, ?_, ?_⟩
  · rw [h.2.1 (by decide)]
    decide
  · rw [h.2.2.2]
    rfl
  · rw [h.2.2.2]
    rfl
  · rw [h.2.2.2]
    rfl

/-! ## Rules of equal priority -/

/-- Insertion into a range sorted by key puts the element behind the elements
of its own key. -/
theorem insertSorted_filter_key {α : Type} (key : α → Integer) (k : Integer) (x : α)
    (acc : List α)
    (hp : List.Pairwise (fun a b => decide (key b < key a) = false) acc) :
    (insertSorted (fun a b => decide (key a < key b)) x acc).filter
        (fun a => decide (key a = k))
      = acc.filter (fun a => decide (key a = k))
        ++ [x].filter (fun a => decide (key a = k)) := by
  induction acc with
  | nil => simp [insertSorted]
  | cons b acc ih =>
    rw [List.pairwise_cons] at hp
    have ih2 := ih hp.2
    unfold insertSorted
    split
    · rename_i hxb
      have hxb2 : key x < key b := by simpa using hxb
      by_cases hx : key x = k
      · have hnone : (b :: acc).filter (fun a => decide (key a = k)) = [] := by
          rw [List.filter_eq_nil_iff]
          intro a ha
          have hba : key b ≤ key a := by
            rcases List.mem_cons.1 ha with rfl | ha
            · exact le_refl _
            · simpa using hp.1 a ha
          have : key x < key a := lt_of_lt_of_le hxb2 hba
          simp only [decide_eq_true_eq]
          intro hak
          rw [hak, ← hx] at this
          exact lt_irrefl _ this
        rw [List.filter_cons, hnone]
        simp [hx]
      · rw [List.filter_cons]
        simp [hx]
    · by_cases hb : key b = k <;> simp [List.filter_cons, hb, ih2]

theorem foldl_insertSorted_filter_key {α : Type} (key : α → Integer) (k : Integer)
    (l acc : List α)
    (hp : List.Pairwise (fun a b => decide (key b < key a) = false) acc) :
    (l.foldl (fun sortedPart a =>
        insertSorted (fun a b => decide (key a < key b)) a sortedPart) acc).filter
        (fun a => decide (key a = k))
      = acc.filter (fun a => decide (key a = k))
        ++ l.filter (fun a => decide (key a = k)) := by
  induction l generalizing acc with
  | nil => simp
  | cons x l ih =>
    simp only [List.foldl_cons]
    have hsorted := insertSorted_pairwise (fun a b => decide (key a < key b))
      (x :: acc) (strictWeakOn_of_key key (x :: acc)) x (List.mem_cons_self _ _) acc
      (fun y hy => List.mem_cons_of_mem _ hy) hp
    rw [ih _ hsorted, insertSorted_filter_key key k x acc hp, List.append_assoc]
    by_cases hx : key x = k <;> simp [List.filter_cons, hx]

/-- Insertion sort from the first element to the last is stable. -/
theorem insertionStdSort_keepsOrder : KeepsOrderOfEqualKeys insertionStdSort := by
  intro α key l k
  simpa [insertionStdSort, insertionSort] using
    foldl_insertSorted_filter_key key k l [] List.Pairwise.nil

/-- Insertion from the back into a range that descends by key, the range given
last element first: the value comes to stand before the elements that it is not
less than. -/
theorem Libstdcxx.linearInsertBackward_eq {α : Type} (key : α → Integer) (val : α)
    (r : List α) (hr : List.Pairwise (fun a b => key b ≤ key a) r) :
    Libstdcxx.linearInsertBackward (fun a b => decide (key a < key b)) val r
      = r.filter (fun a => decide (key val < key a))
        ++ val :: r.filter (fun a => !decide (key val < key a)) := by
  induction r with
  | nil => rfl
  | cons next rest ih =>
    rw [List.pairwise_cons] at hr
    unfold Libstdcxx.linearInsertBackward
    by_cases h : key val < key next
    · simp [h, ih hr.2]
    · have hall : ∀ a ∈ rest, ¬ key val < key a := by
        intro a ha hlt
        exact h (lt_of_lt_of_le hlt (hr.1 a ha))
      have h1 : rest.filter (fun a => decide (key val < key a)) = [] := by
        rw [List.filter_eq_nil_iff]
        intro a ha
        simpa using hall a ha
      have h2 : rest.filter (fun a => !decide (key val < key a)) = rest := by
        rw [List.filter_eq_self]
        intro a ha
        simpa using hall a ha
      simp [h, h1, h2]

/-- Insertion from the front into a range that ascends by key: the value comes
to stand behind the elements that it is not less than. -/
theorem insertSorted_eq_filter {α : Type} (key : α → Integer) (val : α)
    (l : List α) (hl : List.Pairwise (fun a b => key a ≤ key b) l) :
    insertSorted (fun a b => decide (key a < key b)) val l
      = l.filter (fun a => !decide (key val < key a))
        ++ val :: l.filter (fun a => decide (key val < key a)) := by
  induction l with
  | nil => rfl
  | cons b l ih =>
    rw [List.pairwise_cons] at hl
    unfold insertSorted
    by_cases h : key val < key b
    · have hall : ∀ a ∈ l, key val < key a := fun a ha => lt_of_lt_of_le h (hl.1 a ha)
      have h1 : l.filter (fun a => !decide (key val < key a)) = [] := by
        rw [List.filter_eq_nil_iff]
        intro a ha
        simpa using hall a ha
      have h2 : l.filter (fun a => decide (key val < key a)) = l := by
        rw [List.filter_eq_self]
        intro a ha
        simpa using hall a ha
      simp [h, h1, h2]
    · simp [h, ih hl.2]

/-- On a range sorted by key, one pass of the insertion sort of libstdc++
inserts the element where insertion from the front does. -/
theorem Libstdcxx.insertionStep_eq {α : Type} (key : α → Integer) (val : α)
    (front : List α) (hfront : List.Pairwise (fun a b => key a ≤ key b) front) :
    Libstdcxx.insertionStep (fun a b => decide (key a < key b)) front val
      = insertSorted (fun a b => decide (key a < key b)) val front := by
  have hlinear : Libstdcxx.unguardedLinearInsert (fun a b => decide (key a < key b))
      front val = insertSorted (fun a b => decide (key a < key b)) val front := by
    unfold Libstdcxx.unguardedLinearInsert
    rw [Libstdcxx.linearInsertBackward_eq key val front.reverse
      (List.pairwise_reverse.2 hfront), insertSorted_eq_filter key val front hfront]
    simp [List.filter_reverse]
  cases front with
  | nil => rfl
  | cons first rest =>
    unfold Libstdcxx.insertionStep
    by_cases h : key val < key first
    · simp [h, insertSorted]
    · simp only [h, decide_False, Bool.false_eq_true, if_false]
      exact hlinear

theorem Libstdcxx.foldl_insertionStep_eq {α : Type} (key : α → Integer)
    (l front : List α) (hfront : List.Pairwise (fun a b => key a ≤ key b) front) :
    l.foldl (Libstdcxx.insertionStep (fun a b => decide (key a < key b))) front
      = l.foldl (fun sortedPart a =>
          insertSorted (fun a b => decide (key a < key b)) a sortedPart) front := by
  induction l generalizing front with
  | nil => rfl
  | cons x l ih =>
    simp only [List.foldl_cons]
    rw [Libstdcxx.insertionStep_eq key x front hfront]
    apply ih
    have hp : List.Pairwise (fun a b => decide (key b < key a) = false) front :=
      hfront.imp (fun h => by simpa using h)
    have hsorted := insertSorted_pairwise (fun a b => decide (key a < key b))
      (x :: front) (strictWeakOn_of_key key (x :: front)) x (List.mem_cons_self _ _)
      front (fun y hy => List.mem_cons_of_mem _ hy) hp
    exact hsorted.imp (fun h => by simpa using h)

/-- On a range of at most sixteen elements compared by a key, the `std::sort`
of libstdc++ is the insertion sort from the first element to the last. -/
theorem libstdcxxSort_of_short {α : Type} (key : α → Integer) (l : List α)
    (h : l.length ≤ 16) :
    libstdcxxSort α (fun a b => decide (key a < key b)) l
      = insertionStdSort α (fun a b => decide (key a < key b)) l := by
  have hloop : ∀ depth, Libstdcxx.introsortLoop (fun a b => decide (key a < key b))
      depth l = l := by
    intro depth
    have hnot : ¬ l.length > Libstdcxx.threshold := by
      simp only [Libstdcxx.threshold]
      omega
    cases depth <;> simp [Libstdcxx.introsortLoop, hnot]
  have hnot : ¬ l.length > Libstdcxx.threshold := by
    simp only [Libstdcxx.threshold]
    omega
  unfold libstdcxxSort insertionStdSort Libstdcxx.sort
  cases l with
  | nil => rfl
  | cons x l =>
    simp only [List.isEmpty_cons, Bool.false_eq_true, if_false, hloop,
      Libstdcxx.finalInsertionSort, hnot, Libstdcxx.insertionSort, insertionSort]
    exact Libstdcxx.foldl_insertionStep_eq key (x :: l) [] List.Pairwise.nil

/-- A list has one first element with a given property. -/
theorem first_of_split_unique {α : Type} (P : α → Prop) (A A2 B B2 : List α)
    (r r2 : α) (h : A ++ r :: B = A2 ++ r2 :: B2) (hA : ∀ x ∈ A, ¬ P x) (hr : P r)
    (hA2 : ∀ x ∈ A2, ¬ P x) (hr2 : P r2) : r = r2 := by
  induction A generalizing A2 with
  | nil =>
    cases A2 with
    | nil => exact (List.cons.inj h).1
    | cons a A2 =>
      have ha : r = a := (List.cons.inj h).1
      exact absurd (ha ▸ hr) (hA2 a (List.mem_cons_self _ _))
  | cons a A ih =>
    cases A2 with
    | nil =>
      have ha : a = r2 := (List.cons.inj h).1
      exact absurd (ha ▸ hr2) (hA a (List.mem_cons_self _ _))
    | cons a2 A2 =>
      exact ih A2 (List.cons.inj h).2 (fun x hx => hA x (List.mem_cons_of_mem _ hx))
        (fun x hx => hA2 x (List.mem_cons_of_mem _ hx))

/-- A walk that holds a rule evaluating to a non-empty value has a first such
rule. -/
theorem RuleEngine.exists_first_applicable (context : Context) (rules : List Rule)
    (rule : Rule) (v : ParameterValue) (hmem : rule ∈ rules)
    (hrule : rule.evaluate context = .ok v) (hv : v ≠ .empty) :
    ∃ pre r post w, rules = pre ++ r :: post ∧
      (∀ x ∈ pre, ∀ u, x.evaluate context = .ok u → u = .empty) ∧
      r.evaluate context = .ok w ∧ w ≠ .empty := by
  induction rules with
  | nil => exact absurd hmem (List.not_mem_nil _)
  | cons x xs ih =>
    by_cases hx : ∃ w, x.evaluate context = .ok w ∧ w ≠ .empty
    · obtain ⟨w, hw, hne⟩ := hx
      exact ⟨[], x, xs, w, rfl, by simp, hw, hne⟩
    · have hxs : rule ∈ xs := by
        rcases List.mem_cons.1 hmem with rfl | h
        · exact absurd ⟨v, hrule, hv⟩ hx
        · exact h
      obtain ⟨pre, r, post, w, hsplit, hpre, hr, hw⟩ := ih hxs
      refine ⟨x :: pre, r, post, w, by simp [hsplit], ?_, hr, hw⟩
      intro y hy u hu
      rcases List.mem_cons.1 hy with rfl | hy
      · by_contra hne
        exact hx ⟨u, hu, hne⟩
      · exact hpre y hy u hu

/-- The rule that supplies the result of `applyTariffRules`, when some rule of
priority `p` applies and no rule of a priority below `p` does: the first rule
of the walk that applies, which has priority `p`. -/
theorem RuleEngine.applyTariffRules_least_priority (S : StdSort) (hS : IsStdSort S)
    (tariff : Tariff) (order : Order) (rule : Rule) (v : ParameterValue)
    (hmem : rule ∈ tariff.rules)
    (hrule : rule.evaluate (RuleEngine.createContext order) = .ok v)
    (hv : v ≠ .empty)
    (hlow : ∀ r ∈ tariff.rules, r.priority < rule.priority →
      ∀ w, r.evaluate (RuleEngine.createContext order) = .ok w → w = .empty) :
    ∃ pre r post w,
      S Rule RuleEngine.priorityLess tariff.rules = pre ++ r :: post ∧
      (∀ x ∈ pre, ∀ u,
        x.evaluate (RuleEngine.createContext order) = .ok u → u = .empty) ∧
      r.evaluate (RuleEngine.createContext order) = .ok w ∧ w ≠ .empty ∧
      r ∈ tariff.rules ∧ r.priority = rule.priority ∧
      RuleEngine.applyTariffRules S tariff order = .ok w := by
  have hne : tariff.rules ≠ [] := List.ne_nil_of_mem hmem
  have hperm := hS.perm RuleEngine.priorityLess tariff.rules
  have hsorted := hS.sorted RuleEngine.priorityLess tariff.rules
    (priorityLess_strictWeakOn tariff.rules)
  obtain ⟨pre, r, post, w, hsplit, hpre, hr, hw⟩ :=
    RuleEngine.exists_first_applicable (RuleEngine.createContext order) _ rule v
      (hperm.mem_iff.2 hmem) hrule hv
  have hrmem : r ∈ tariff.rules := hperm.mem_iff.1 (by rw [hsplit]; simp)
  refine ⟨pre, r, post, w, hsplit, hpre, hr, hw, hrmem, ?_, ?_⟩
  · apply le_antisymm
    · have hin : rule ∈ pre ++ r :: post := hsplit ▸ hperm.mem_iff.2 hmem
      rcases List.mem_append.1 hin with h | h
      · exact absurd (hpre rule h v hrule) hv
      · rcases List.mem_cons.1 h with rfl | h
        · exact le_refl _
        · rw [hsplit, List.pairwise_append, List.pairwise_cons] at hsorted
          simpa [RuleEngine.priorityLess] using hsorted.2.1.1 rule h
    · by_contra hlt
      exact hw (hlow r hrmem (not_le.1 hlt) w hr)
  · rw [RuleEngine.applyTariffRules_of_ne_nil S tariff order hne, hsplit,
      RuleEngine.applyRules_skip _ pre _ hpre,
      RuleEngine.applyRules_hit _ r post _ w hr hw]

/-- The same, when the rules of priority `p` are known in walk order: the
result is the value of the first of them that applies. -/
theorem RuleEngine.applyTariffRules_of_segment (S : StdSort) (hS : IsStdSort S)
    (tariff : Tariff) (order : Order) (A B : List Rule) (rule : Rule)
    (v : ParameterValue)
    (hseg : (S Rule RuleEngine.priorityLess tariff.rules).filter
      (fun r => decide (r.priority = rule.priority)) = A ++ rule :: B)
    (hA : ∀ x ∈ A, ∀ u,
      x.evaluate (RuleEngine.createContext order) = .ok u → u = .empty)
    (hrule : rule.evaluate (RuleEngine.createContext order) = .ok v)
    (hv : v ≠ .empty)
    (hlow : ∀ r ∈ tariff.rules, r.priority < rule.priority →
      ∀ w, r.evaluate (RuleEngine.createContext order) = .ok w → w = .empty) :
    RuleEngine.applyTariffRules S tariff order = .ok v := by
  have hperm := hS.perm RuleEngine.priorityLess tariff.rules
  have hmemS : rule ∈ S Rule RuleEngine.priorityLess tariff.rules := by
    have : rule ∈ A ++ rule :: B := by simp
    rw [← hseg] at this
    exact (List.mem_filter.1 this).1
  obtain ⟨pre, r, post, w, hsplit, hpre, hr, hw, -, hprio, hresult⟩ :=
    RuleEngine.applyTariffRules_least_priority S hS tariff order rule v
      (hperm.mem_iff.1 hmemS) hrule hv hlow
  rw [hsplit, List.filter_append, List.filter_cons] at hseg
  simp only [hprio, decide_True, if_true] at hseg
  have heq : r = rule :=
    first_of_split_unique
      (fun x => ∃ u, x.evaluate (RuleEngine.createContext order) = .ok u ∧ u ≠ .empty)
      _ A _ B r rule hseg
      (fun x hx ⟨u, hu, hne⟩ => hne (hpre x (List.mem_filter.1 hx).1 u hu))
      ⟨w, hr, hw⟩
      (fun x hx ⟨u, hu, hne⟩ => hne (hA x hx u hu))
      ⟨v, hrule, hv⟩
  subst heq
  rw [hresult]
  rw [hr] at hrule
  exact hrule

/-- The walk of `applyTariffRules` depends on the sort only through the sorted
rule list. -/
theorem RuleEngine.applyTariffRules_of_sort_eq (S T : StdSort) (tariff : Tariff)
    (order : Order)
    (h : S Rule RuleEngine.priorityLess tariff.rules
      = T Rule RuleEngine.priorityLess tariff.rules) :
    RuleEngine.applyTariffRules S tariff order
      = RuleEngine.applyTariffRules T tariff order := by
  unfold RuleEngine.applyTariffRules
  simp only [h]

/-- C30, counterexample. The tariff with seventeen rules of priority 1 without
condition, added in the order of the values 100, 200, ..., 1700 that they
yield: with the `std::sort` of libstdc++ the walk starts at the rule added
ninth, and the result is 900, not the value 100 of the rule added first. -/
theorem applyTariffRules_tie_not_first_added :
    Examples.seventeenTieTariff.rules.length = 17 ∧
    Examples.seventeenTieTariff.rules.map (fun r => r.priority)
      = List.replicate 17 1 ∧
    Examples.seventeenTieTariff.rules.map
        (fun r => r.evaluate (RuleEngine.createContext Examples.simpleOrder))
      = (List.range 17).map
        (fun i => .ok (.double (Double.fin (100 * ((i : ℚ) + 1))))) ∧
    (libstdcxxSort Rule RuleEngine.priorityLess Examples.seventeenTieTariff.rules).map
        (fun r => r.id)
      = [38, 46, 45, 44, 43, 42, 41, 40, 39, 30, 37, 36, 35, 34, 33, 32, 31] ∧
    RuleEngine.applyTariffRules libstdcxxSort Examples.seventeenTieTariff
      Examples.simpleOrder = .ok (.double (Double.fin 900)) ∧
    RuleEngine.applyTariffRules libstdcxxSort Examples.seventeenTieTariff
      Examples.simpleOrder ≠ .ok (.double (Double.fin 100)) :=
  ⟨by decide!, by decide!, by decide!, by decide!, by decide!, by decide!⟩

/-- C30, amended. `applyTariffRules` walks the rules by ascending priority.
For a tariff in which the rules `first` and `second`, added in this order, have
the same priority and both evaluate to non-empty values, and no rule of a lower
priority number applies: the result is the value of a rule of that priority
that applies, for every length of the rule list, so the value of `first` or of
`second` when no other rule of that priority applies. Which one is left to
`std::sort`: it is the value of the first of them added to the tariff when the
sort is stable, and also with the `std::sort` of libstdc++ when the tariff has
at most sixteen rules. -/
theorem applyTariffRules_equal_priority (S : StdSort) (hS : IsStdSort S)
    (tariff : Tariff) (order : Order) (pre mid post : List Rule)
    (first second : Rule) (v1 v2 : ParameterValue)
    (hrules : tariff.rules = pre ++ first :: (mid ++ second :: post))
    (h1 : first.evaluate (RuleEngine.createContext order) = .ok v1)
    (hv1 : v1 ≠ .empty)
    (h2 : first.priority = second.priority ∧
      second.evaluate (RuleEngine.createContext order) = .ok v2 ∧ v2 ≠ .empty)
    (hlow : ∀ r ∈ tariff.rules, r.priority < first.priority →
      ∀ w, r.evaluate (RuleEngine.createContext order) = .ok w → w = .empty) :
    List.Pairwise (fun a b => a.priority ≤ b.priority)
      (S Rule RuleEngine.priorityLess tariff.rules) ∧
    (∃ r ∈ tariff.rules, r.priority = first.priority ∧
      ∃ v, r.evaluate (RuleEngine.createContext order) = .ok v ∧ v ≠ .empty ∧
        RuleEngine.applyTariffRules S tariff order = .ok v) ∧
    ((∀ r ∈ pre ++ (mid ++ post), r.priority = first.priority →
        ∀ w, r.evaluate (RuleEngine.createContext order) = .ok w → w = .empty) →
      RuleEngine.applyTariffRules S tariff order = .ok v1 ∨
        RuleEngine.applyTariffRules S tariff order = .ok v2) ∧
    (KeepsOrderOfEqualKeys S →
      (∀ r ∈ pre, r.priority = first.priority →
        ∀ w, r.evaluate (RuleEngine.createContext order) = .ok w → w = .empty) →
      RuleEngine.applyTariffRules S tariff order = .ok v1) ∧
    (tariff.rules.length ≤ 16 →
      (∀ r ∈ pre, r.priority = first.priority →
        ∀ w, r.evaluate (RuleEngine.createContext order) = .ok w → w = .empty) →
      RuleEngine.applyTariffRules libstdcxxSort tariff order = .ok v1) := by
  have hmem1 : first ∈ tariff.rules := by rw [hrules]; simp
  have hstable : ∀ T : StdSort, IsStdSort T → KeepsOrderOfEqualKeys T →
      (∀ r ∈ pre, r.priority = first.priority →
        ∀ w, r.evaluate (RuleEngine.createContext order) = .ok w → w = .empty) →
      RuleEngine.applyTariffRules T tariff order = .ok v1 := by
    intro T hT hkeeps hpre
    have hseg := hkeeps Rule.priority tariff.rules first.priority
    have hfilter : tariff.rules.filter (fun r => decide (r.priority = first.priority))
        = pre.filter (fun r => decide (r.priority = first.priority))
          ++ first :: (mid ++ second :: post).filter
              (fun r => decide (r.priority = first.priority)) := by
      rw [hrules, List.filter_append, List.filter_cons]
      simp
    rw [hfilter] at hseg
    refine RuleEngine.applyTariffRules_of_segment T hT tariff order _ _ first v1
      hseg ?_ h1 hv1 hlow
    intro x hx u hu
    have hx2 := List.mem_filter.1 hx
    exact hpre x hx2.1 (by simpa using hx2.2) u hu
  obtain ⟨-, r, -, w, -, -, hr, hw, hrmem, hp, hresult⟩ :=
    RuleEngine.applyTariffRules_least_priority S hS tariff order first v1 hmem1 h1
      hv1 hlow
  refine ⟨?_, ⟨r, hrmem, hp, w, hr, hw, hresult⟩, ?_, hstable S hS, ?_⟩
  · refine (hS.sorted _ _ (priorityLess_strictWeakOn tariff.rules)).imp ?_
    intro a b hab
    simpa [RuleEngine.priorityLess] using hab
  · intro hothers
    have hcases : r ∈ pre ++ (mid ++ post) ∨ r = first ∨ r = second := by
      rw [hrules] at hrmem
      simp only [List.mem_append, List.mem_cons] at hrmem ⊢
      tauto
    rcases hcases with h | h | h
    · exact absurd (hothers r h hp w hr) hw
    · subst h
      rw [hr] at h1
      left
      rw [hresult, h1]
    · subst h
      rw [hr] at h2
      right
      rw [hresult, h2.2.1]
  · intro hshort hpre
    rw [RuleEngine.applyTariffRules_of_sort_eq libstdcxxSort insertionStdSort tariff
      order (libstdcxxSort_of_short Rule.priority tariff.rules hshort)]
    exact hstable insertionStdSort insertionStdSort_isStdSort
      insertionStdSort_keepsOrder hpre

/-- Instance: the tariff with a rule of priority 0 that does not apply, two
applicable rules of priority 1 yielding 100 and 200, and a rule of priority 4.
Insertion sort and the `std::sort` of libstdc++ both give 100. -/
theorem applyTariffRules_equal_priority_witness :
    RuleEngine.applyTariffRules insertionStdSort Examples.tieTariff
      Examples.simpleOrder = .ok (.double (Double.fin 100)) ∧
    RuleEngine.applyTariffRules libstdcxxSort Examples.tieTariff
      Examples.simpleOrder = .ok (.double (Double.fin 100)) := by
  have hnever : ∀ r ∈ Examples.tieTariff.rules,
      r.priority < Examples.firstTieRule.priority →
      ∀ w, r.evaluate (RuleEngine.createContext Examples.simpleOrder) = .ok w →
        w = .empty := by
    intro r hr hlt w hw
    have hr2 : r = Examples.neverRule 0 ∨ r = Examples.firstTieRule ∨
        r = Examples.secondTieRule ∨ r = Examples.fallbackRule := by
      simpa [Examples.tieTariff, Tariff.addRule, Tariff.new] using hr
    rcases hr2 with rfl | rfl | rfl | rfl
    · have h : (Examples.neverRule 0).evaluate
          (RuleEngine.createContext Examples.simpleOrder) = .ok .empty := by decide!
      rw [h] at hw
      cases hw
      rfl
    · exact absurd hlt (by decide)
    · exact absurd hlt (by decide)
    · exact absurd hlt (by decide)
  have h := applyTariffRules_equal_priority insertionStdSort
    insertionStdSort_isStdSort Examples.tieTariff Examples.simpleOrder
    [Examples.neverRule 0] [] [Examples.fallbackRule] Examples.firstTieRule
    Examples.secondTieRule (.double (Double.fin 100)) (.double (Double.fin 200))
    rfl (by decide!) (by decide) ⟨rfl, by decide!, by decide⟩ hnever
  have hpre : ∀ r ∈ [Examples.neverRule 0],
      r.priority = Examples.firstTieRule.priority →
      ∀ w, r.evaluate (RuleEngine.createContext Examples.simpleOrder) = .ok w →
        w = .empty := by
    intro r hr hp
    rw [List.mem_singleton] at hr
    subst hr
    exact absurd hp (by decide)
  exact ⟨h.2.2.2.1 insertionStdSort_keepsOrder hpre, h.2.2.2.2 (by decide) hpre⟩

/-! ## The messages of CostCalculator.calculateCost -/

theorem startsWith_append (part rest : List Char) :
    startsWith (part ++ rest) part = true := by
  induction part with
  | nil => cases rest <;> rfl
  | cons c part ih => simp [startsWith, ih]

theorem startsWith_iff (text part : List Char) :
    startsWith text part = true ↔ ∃ rest, text = part ++ rest := by
  induction part generalizing text with
  | nil => cases text <;> simp [startsWith]
  | cons d part ih =>
    cases text with
    | nil => simp [startsWith]
    | cons c text =>
      simp only [startsWith, Bool.and_eq_true, beq_iff_eq, ih, List.cons_append,
        List.cons.injEq]
      constructor
      · rintro ⟨rfl, rest, rfl⟩
        exact ⟨rest, rfl, rfl⟩
      · rintro ⟨rest, rfl, rfl⟩
        exact ⟨rfl, rest, rfl⟩

theorem occursIn_iff (part text : List Char) :
    occursIn part text = true ↔ ∃ before after, text = before ++ part ++ after := by
  induction text with
  | nil =>
    simp only [occursIn, startsWith_iff]
    constructor
    · rintro ⟨rest, h⟩
      exact ⟨[], rest, by simpa using h⟩
    · rintro ⟨before, after, h⟩
      have h2 := congrArg List.length h
      simp only [List.length_nil, List.length_append] at h2
      have hb : before = [] := List.length_eq_zero.1 (by omega)
      subst hb
      exact ⟨after, by simpa using h⟩
  | cons c text ih =>
    simp only [occursIn, Bool.or_eq_true, startsWith_iff, ih]
    constructor
    · rintro (⟨rest, h⟩ | ⟨before, after, h⟩)
      · exact ⟨[], rest, by simpa using h⟩
      · exact ⟨c :: before, after, by simp [h]⟩
    · rintro ⟨before, after, h⟩
      cases before with
      | nil => exact Or.inl ⟨after, by simpa using h⟩
      | cons b before =>
        simp only [List.cons_append, List.cons.injEq] at h
        exact Or.inr ⟨before, after, h.2⟩

/-- The message contains `part` exactly when it is `part` with some text before
and some text after it. -/
theorem messageContains_iff (message part : String) :
    messageContains message part = true ↔
      ∃ before after : String, message = before ++ part ++ after := by
  unfold messageContains
  rw [occursIn_iff]
  constructor
  · rintro ⟨before, after, h⟩
    refine ⟨String.mk before, String.mk after, ?_⟩
    apply String.ext
    simpa [String.data_append] using h
  · rintro ⟨before, after, h⟩
    exact ⟨before.data, after.data, by simp [h, String.data_append]⟩

theorem CostCalculator.tariffError_contains_name (tariff : Tariff) (what : String) :
    messageContains (CostCalculator.tariffError tariff what) tariff.name = true := by
  rw [messageContains_iff]
  refine ⟨"Ошибка вычисления: Ошибка при расчете стоимости по тарифу '",
    "': " ++ what, ?_⟩
  have hlit : "Ошибка вычисления: Ошибка при расчете стоимости по тарифу '"
      = "Ошибка вычисления: " ++ "Ошибка при расчете стоимости по тарифу '" := by
    decide
  rw [hlit]
  simp only [CostCalculator.tariffError, CalculationException, TariffSystemException,
    String.append_assoc]

/-- C31, counterexample. For the inactive tariff named "Тестовый тариф",
`calculateCost` fails with the message "Ошибка вычисления: Тариф
недействителен", which does not contain the name of the tariff. -/
theorem calculateCost_invalid_message_without_name :
    Examples.inactiveTariff.name = "Тестовый тариф" ∧
    (CostCalculator.calculateCost insertionStdSort Examples.today
        Examples.simpleOrder Examples.inactiveTariff).2
      = .error "Ошибка вычисления: Тариф недействителен" ∧
    messageContains "Ошибка вычисления: Тариф недействителен"
      Examples.inactiveTariff.name = false := by
  refine ⟨rfl, by decide, by decide⟩

/-- C31, amended. A failure of `calculateCost` on a tariff that is valid today
(no rules, no applicable rule, a result that is not a number) carries the
message "Ошибка при расчете стоимости по тарифу 'name': ..." around the text
of the cause, so it contains the name of the tariff. The failure for a tariff
that is not valid today is raised before that wrapping and carries the fixed
message "Тариф недействителен", whatever the name of the tariff. -/
theorem calculateCost_error_message (S : StdSort) (today : Date) (order : Order)
    (tariff : Tariff) (e : String)
    (h : (CostCalculator.calculateCost S today order tariff).2 = .error e) :
    (tariff.isValidNow today = true →
      messageContains e tariff.name = true ∧
      ((tariff.rules = [] ∧
          e = CostCalculator.tariffError tariff
            (CalculationException "Тариф не содержит правил расчета")) ∨
        (tariff.rules ≠ [] ∧
          e = CostCalculator.tariffError tariff
            (CalculationException "Результат расчета не является числом")))) ∧
    (tariff.isValidNow today = false →
      e = CalculationException "Тариф недействителен") := by
  constructor
  · intro hv
    have hshape : (tariff.rules = [] ∧
          e = CostCalculator.tariffError tariff
            (CalculationException "Тариф не содержит правил расчета")) ∨
        (tariff.rules ≠ [] ∧
          e = CostCalculator.tariffError tariff
            (CalculationException "Результат расчета не является числом")) := by
      unfold CostCalculator.calculateCost at h
      simp only [hv, Bool.not_true, Bool.false_eq_true, if_false] at h
      cases happly : RuleEngine.applyTariffRules S tariff order with
      | error inner =>
        obtain ⟨hnil, hinner⟩ := RuleEngine.applyTariffRules_error S tariff order
          inner happly
        rw [happly] at h
        simp only [Except.error.injEq] at h
        exact Or.inl ⟨hnil, by rw [← h, hinner]⟩
      | ok result =>
        have hne : tariff.rules ≠ [] := by
          intro hnil
          simp [RuleEngine.applyTariffRules, hnil] at happly
        rw [happly] at h
        cases hcost : GetDoubleValue result with
        | none =>
          simp only [hcost, Except.error.injEq] at h
          exact Or.inr ⟨hne, h.symm⟩
        | some cost => simp [hcost] at h
    refine ⟨?_, hshape⟩
    rcases hshape with ⟨-, rfl⟩ | ⟨-, rfl⟩ <;>
      exact CostCalculator.tariffError_contains_name tariff _
  · intro hv
    unfold CostCalculator.calculateCost at h
    simp only [hv, Bool.not_false, if_true, Except.error.injEq] at h
    exact h.symm

/-- Instances: a tariff without rules, a tariff whose rules do not apply and a
tariff whose rule yields a string, all valid today, and an expired tariff. -/
theorem calculateCost_error_message_witness :
    messageContains
      "Ошибка вычисления: Ошибка при расчете стоимости по тарифу 'Пустой тариф': Ошибка вычисления: Тариф не содержит правил расчета"
      "Пустой тариф" = true ∧
    (CostCalculator.calculateCost insertionStdSort Examples.today
        Examples.simpleOrder Examples.noApplicableTariff).2
      = .error "Ошибка вычисления: Ошибка при расчете стоимости по тарифу 'Нет подходящего правила': Ошибка вычисления: Результат расчета не является числом" ∧
    messageContains
      "Ошибка вычисления: Ошибка при расчете стоимости по тарифу 'Нет подходящего правила': Ошибка вычисления: Результат расчета не является числом"
      "Нет подходящего правила" = true ∧
    messageContains
      "Ошибка вычисления: Ошибка при расчете стоимости по тарифу 'Текстовый': Ошибка вычисления: Результат расчета не является числом"
      "Текстовый" = true ∧
    (CostCalculator.calculateCost insertionStdSort Examples.today
        Examples.simpleOrder Examples.expiredTariff).2
      = .error "Ошибка вычисления: Тариф недействителен" := by
  refine ⟨?_, by decide!, ?_, ?_, ?_⟩
  · exact ((calculateCost_error_message insertionStdSort Examples.today
      Examples.simpleOrder Examples.emptyTariff _ (by decide)).1 (by decide)).1
  · exact ((calculateCost_error_message insertionStdSort Examples.today
      Examples.simpleOrder Examples.noApplicableTariff _ (by decide!)).1
      (by decide)).1
  · exact ((calculateCost_error_message insertionStdSort Examples.today
      Examples.simpleOrder Examples.textTariff _ (by decide!)).1 (by decide)).1
  · have he : (CostCalculator.calculateCost insertionStdSort Examples.today
        Examples.simpleOrder Examples.expiredTariff).2
        = .error "Ошибка вычисления: Тариф недействителен" := by decide
    rw [he, (calculateCost_error_message insertionStdSort Examples.today
      Examples.simpleOrder Examples.expiredTariff _ he).2 (by decide)]

/-! ## The life cycle of an order -/

/-- C32. `setCalculatedCost(cost)` stores the cost, moves the status from DRAFT
to CALCULATED and leaves every other status as it is, and changes no other
field. It is a total function: it returns for every order and every cost. -/
theorem setCalculatedCost_effect (order : Order) (cost : Double) :
    (order.setCalculatedCost cost).calculatedCost = cost ∧
    (order.status = .DRAFT → (order.setCalculatedCost cost).status = .CALCULATED) ∧
    (order.status ≠ .DRAFT → (order.setCalculatedCost cost).status = order.status) ∧
    order.setCalculatedCost cost
      = { order with
          calculatedCost := cost
          status := if order.status = .DRAFT then .CALCULATED else order.status } ∧
    ((order.setCalculatedCost cost).id = order.id ∧
      (order.setCalculatedCost cost).code = order.code ∧
      (order.setCalculatedCost cost).name = order.name ∧
      (order.setCalculatedCost cost).serviceId = order.serviceId ∧
      (order.setCalculatedCost cost).tariffId = order.tariffId ∧
      (order.setCalculatedCost cost).orderDate = order.orderDate ∧
      (order.setCalculatedCost cost).note = order.note ∧
      (order.setCalculatedCost cost).customerName = order.customerName ∧
      (order.setCalculatedCost cost).parameters = order.parameters) := by
  refine ⟨rfl, ?_, ?_, rfl, rfl, rfl, rfl, rfl, rfl, rfl, rfl, rfl, rfl⟩
  · intro h
    simp [Order.setCalculatedCost, h]
  · intro h
    simp [Order.setCalculatedCost, h]

/-- Instances, after `OrderTest.StatusTransitions`: a new order is a draft and
becomes CALCULATED with cost 1000; a cancelled order keeps its status. -/
theorem setCalculatedCost_effect_witness :
    (Examples.simpleOrder.setCalculatedCost (Double.fin 1000)).status = .CALCULATED ∧
    (Examples.simpleOrder.setCalculatedCost (Double.fin 1000)).calculatedCost
      = Double.fin 1000 ∧
    ((Examples.simpleOrder.cancel.1).setCalculatedCost (Double.fin 1000)).status
      = .CANCELLED :=
  ⟨(setCalculatedCost_effect Examples.simpleOrder (Double.fin 1000)).2.1 rfl,
   (setCalculatedCost_effect Examples.simpleOrder (Double.fin 1000)).1,
   (setCalculatedCost_effect Examples.simpleOrder.cancel.1 (Double.fin 1000)).2.2.1
     (by decide)⟩

/-- C33. `confirm` returns exactly when the status is CALCULATED and then sets
it to CONFIRMED; `complete` returns exactly when the status is CONFIRMED and
then sets it to COMPLETED; `cancel` returns exactly when the status is not
COMPLETED and then sets it to CANCELLED. A call that returns changes the status
only, and a call that raises leaves the order as it was. -/
theorem guarded_transitions (order : Order) :
    ((order.confirm.2 = .ok () ↔ order.status = .CALCULATED) ∧
      (order.status = .CALCULATED →
        order.confirm.1 = { order with status := .CONFIRMED }) ∧
      (order.status ≠ .CALCULATED →
        order.confirm = (order, .error (TariffSystemException
          "Заказ должен быть рассчитан перед подтверждением")))) ∧
    ((order.complete.2 = .ok () ↔ order.status = .CONFIRMED) ∧
      (order.status = .CONFIRMED →
        order.complete.1 = { order with status := .COMPLETED }) ∧
      (order.status ≠ .CONFIRMED →
        order.complete = (order, .error (TariffSystemException
          "Заказ должен быть подтвержден перед завершением")))) ∧
    ((order.cancel.2 = .ok () ↔ order.status ≠ .COMPLETED) ∧
      (order.status ≠ .COMPLETED →
        order.cancel.1 = { order with status := .CANCELLED }) ∧
      (order.status = .COMPLETED →
        order.cancel = (order, .error (TariffSystemException
          "Невозможно отменить завершенный заказ")))) := by
  refine ⟨⟨?_, ?_, ?_⟩, ⟨?_, ?_, ?_⟩, ⟨?_, ?_, ?_⟩⟩
  · by_cases h : order.status = .CALCULATED <;> simp [Order.confirm, h]
  · intro h
    simp [Order.confirm, h]
  · intro h
    simp [Order.confirm, h]
  · by_cases h : order.status = .CONFIRMED <;> simp [Order.complete, h]
  · intro h
    simp [Order.complete, h]
  · intro h
    simp [Order.complete, h]
  · by_cases h : order.status = .COMPLETED <;> simp [Order.cancel, h]
  · intro h
    simp [Order.cancel, h]
  · intro h
    simp [Order.cancel, h]

/-- Instances, after `OrderTest.InvalidStatusTransition`, `CancelOrder` and
`CannotCancelCompletedOrder`: a draft cannot be confirmed and can be cancelled;
an order that was calculated, confirmed and completed cannot be cancelled. -/
theorem guarded_transitions_witness :
    Examples.simpleOrder.confirm
      = (Examples.simpleOrder,
          .error "Заказ должен быть рассчитан перед подтверждением") ∧
    Examples.simpleOrder.cancel.1.status = .CANCELLED ∧
    Examples.completedOrder.status = .COMPLETED ∧
    Examples.completedOrder.cancel
      = (Examples.completedOrder, .error "Невозможно отменить завершенный заказ") := by
  refine ⟨(guarded_transitions Examples.simpleOrder).1.2.2 (by decide), ?_, rfl,
    (guarded_transitions Examples.completedOrder).2.2.2.2 rfl⟩
  rw [(guarded_transitions Examples.simpleOrder).2.2.2.1 (by decide)]

/-- One operation leaves the status as it is or makes an allowed change. -/
theorem OrderOperation.apply_status (S : StdSort) (order : Order)
    (operation : OrderOperation) :
    (operation.apply S order).status = order.status ∨
      allowedStatusChange order.status (operation.apply S order).status = true := by
  cases operation with
  | setCalculatedCost cost =>
    cases h : order.status <;>
      simp [OrderOperation.apply, Order.setCalculatedCost, h, allowedStatusChange]
  | confirm =>
    cases h : order.status <;>
      simp [OrderOperation.apply, Order.confirm, h, allowedStatusChange]
  | complete =>
    cases h : order.status <;>
      simp [OrderOperation.apply, Order.complete, h, allowedStatusChange]
  | cancel =>
    cases h : order.status <;>
      simp [OrderOperation.apply, Order.cancel, h, allowedStatusChange]
  | calculateCost today tariff =>
    simp only [OrderOperation.apply, CostCalculator.calculateCost]
    split
    · exact Or.inl rfl
    · split
      · exact Or.inl rfl
      · split
        · exact Or.inl rfl
        · cases h : order.status <;>
            simp [Order.setCalculatedCost, Order.setTariffId, h, allowedStatusChange]

theorem runOperations_append (S : StdSort) (order : Order)
    (first second : List OrderOperation) :
    runOperations S order (first ++ second)
      = runOperations S (runOperations S order first) second := by
  simp [runOperations, List.foldl_append]

/-- A status that no allowed change leaves is kept by every sequence of
operations. -/
theorem runOperations_final_status (S : StdSort) (status : OrderStatus)
    (hfinal : ∀ next, allowedStatusChange status next = true → next = status)
    (order : Order) (operations : List OrderOperation)
    (h : order.status = status) :
    (runOperations S order operations).status = status := by
  induction operations generalizing order with
  | nil => exact h
  | cons operation rest ih =>
    apply ih (operation.apply S order)
    rcases OrderOperation.apply_status S order operation with hsame | hallowed
    · rw [hsame, h]
    · rw [h] at hallowed
      exact hfinal _ hallowed

/-- On the way from DRAFT to CONFIRMED the order was CALCULATED, and on the way
to COMPLETED it was CALCULATED and later CONFIRMED. -/
theorem runOperations_history (S : StdSort) (order : Order)
    (hdraft : order.status = .DRAFT) (operations : List OrderOperation) :
    ((runOperations S order operations).status = .CONFIRMED →
      ∃ first second, operations = first ++ second ∧
        (runOperations S order first).status = .CALCULATED) ∧
    ((runOperations S order operations).status = .COMPLETED →
      ∃ first second third, operations = first ++ second ++ third ∧
        (runOperations S order first).status = .CALCULATED ∧
        (runOperations S order (first ++ second)).status = .CONFIRMED) := by
  induction operations using List.reverseRecOn with
  | nil =>
    constructor
    · intro h
      rw [show runOperations S order [] = order from rfl, hdraft] at h
      cases h
    · intro h
      rw [show runOperations S order [] = order from rfl, hdraft] at h
      cases h
  | append_singleton operations operation ih =>
    have hrun : runOperations S order (operations ++ [operation])
        = operation.apply S (runOperations S order operations) := by
      rw [runOperations_append]
      rfl
    have hstep := OrderOperation.apply_status S (runOperations S order operations)
      operation
    rw [hrun]
    constructor
    · intro h
      rw [h] at hstep
      rcases hstep with hsame | hallowed
      · obtain ⟨first, second, hsplit, hcalc⟩ := ih.1 hsame.symm
        exact ⟨first, second ++ [operation], by rw [hsplit, List.append_assoc], hcalc⟩
      · refine ⟨operations, [operation], rfl, ?_⟩
        cases hs : (runOperations S order operations).status <;>
          simp [hs, allowedStatusChange] at hallowed ⊢
    · intro h
      rw [h] at hstep
      rcases hstep with hsame | hallowed
      · obtain ⟨first, second, third, hsplit, hcalc, hconf⟩ := ih.2 hsame.symm
        exact ⟨first, second, third ++ [operation],
          by rw [hsplit, List.append_assoc], hcalc, hconf⟩
      · have hconf : (runOperations S order operations).status = .CONFIRMED := by
          cases hs : (runOperations S order operations).status <;>
            simp [hs, allowedStatusChange] at hallowed ⊢
        obtain ⟨first, second, hsplit, hcalc⟩ := ih.1 hconf
        exact ⟨first, second, [operation], by rw [hsplit], hcalc,
          by rw [← hsplit]; exact hconf⟩

/-- C34. Every operation among `setCalculatedCost`, `confirm`, `complete`,
`cancel` and `calculateCost`, whether it returns or raises, leaves the status
as it is or changes it along DRAFT to CALCULATED, CALCULATED to CONFIRMED,
CONFIRMED to COMPLETED, or to CANCELLED from a status other than COMPLETED.
So under every sequence of these operations a COMPLETED order stays COMPLETED,
a CANCELLED order stays CANCELLED, and an order that starts as DRAFT and ends
as COMPLETED was CALCULATED and, later, CONFIRMED on the way. -/
theorem order_status_changes (S : StdSort) (order : Order)
    (operations : List OrderOperation) :
    (∀ (current : Order) (operation : OrderOperation),
      (operation.apply S current).status = current.status ∨
        allowedStatusChange current.status (operation.apply S current).status
          = true) ∧
    (order.status = .COMPLETED →
      (runOperations S order operations).status = .COMPLETED) ∧
    (order.status = .CANCELLED →
      (runOperations S order operations).status = .CANCELLED) ∧
    (order.status = .DRAFT →
      (runOperations S order operations).status = .COMPLETED →
      ∃ first second third, operations = first ++ second ++ third ∧
        (runOperations S order first).status = .CALCULATED ∧
        (runOperations S order (first ++ second)).status = .CONFIRMED) := by
  refine ⟨OrderOperation.apply_status S, ?_, ?_, ?_⟩
  · exact runOperations_final_status S .COMPLETED
      (fun next h => by cases next <;> simp [allowedStatusChange] at h)
      order operations
  · exact runOperations_final_status S .CANCELLED
      (fun next h => by cases next <;> simp [allowedStatusChange] at h ⊢)
      order operations
  · intro hdraft
    exact (runOperations_history S order hdraft operations).2

/-- Instances: the completed order stays COMPLETED under cancel, a new cost and
a calculation; a cancelled order stays CANCELLED; and the new order that is
calculated, confirmed and completed passes CALCULATED and CONFIRMED. -/
theorem order_status_changes_witness :
    (runOperations insertionStdSort Examples.completedOrder
      [.cancel, .setCalculatedCost (Double.fin 5), .confirm,
        .calculateCost Examples.today Examples.simpleTariff]).status = .COMPLETED ∧
    (runOperations insertionStdSort Examples.simpleOrder.cancel.1
      [.calculateCost Examples.today Examples.simpleTariff, .confirm, .complete,
        .cancel]).status = .CANCELLED ∧
    (∃ first second third,
      [OrderOperation.confirm, .calculateCost Examples.today Examples.simpleTariff,
        .complete, .confirm, .complete] = first ++ second ++ third ∧
      (runOperations insertionStdSort Examples.simpleOrder first).status
        = .CALCULATED ∧
      (runOperations insertionStdSort Examples.simpleOrder (first ++ second)).status
        = .CONFIRMED) :=
  ⟨(order_status_changes insertionStdSort Examples.completedOrder _).2.1 rfl,
   (order_status_changes insertionStdSort Examples.simpleOrder.cancel.1 _).2.2.1 rfl,
   (order_status_changes insertionStdSort Examples.simpleOrder _).2.2.2 rfl
     (by decide!)⟩

/-! ## A failing calculation leaves the order alone -/

/-- C36. When `calculateCost` raises, for whatever cause, the order after the
call is the order before the call: tariff id, calculated cost, status,
parameters and all other fields are as they were. -/
theorem calculateCost_atomic (S : StdSort) (today : Date) (order : Order)
    (tariff : Tariff) (e : String)
    (h : (CostCalculator.calculateCost S today order tariff).2 = .error e) :
    (CostCalculator.calculateCost S today order tariff).1 = order ∧
    (CostCalculator.calculateCost S today order tariff).1.tariffId = order.tariffId ∧
    (CostCalculator.calculateCost S today order tariff).1.calculatedCost
      = order.calculatedCost ∧
    (CostCalculator.calculateCost S today order tariff).1.status = order.status ∧
    (CostCalculator.calculateCost S today order tariff).1.parameters
      = order.parameters := by
  have hsame : (CostCalculator.calculateCost S today order tariff).1 = order := by
    unfold CostCalculator.calculateCost at h ⊢
    split
    · rfl
    · rename_i hv
      simp only [hv, if_false] at h
      cases happly : RuleEngine.applyTariffRules S tariff order with
      | error inner => rfl
      | ok result =>
        rw [happly] at h
        cases hcost : GetDoubleValue result with
        | none => simp [hcost]
        | some cost => simp [hcost] at h
  rw [hsame]
  exact ⟨rfl, rfl, rfl, rfl, rfl⟩

/-- Instances: an inactive tariff, a tariff without rules, a tariff whose rules
do not apply and a tariff whose rule yields a string leave the order of
`CostCalculatorTest` a draft without tariff and with cost 0. -/
theorem calculateCost_atomic_witness :
    (CostCalculator.calculateCost insertionStdSort Examples.today
      Examples.simpleOrder Examples.inactiveTariff).1 = Examples.simpleOrder ∧
    (CostCalculator.calculateCost insertionStdSort Examples.today
      Examples.simpleOrder Examples.emptyTariff).1 = Examples.simpleOrder ∧
    (CostCalculator.calculateCost insertionStdSort Examples.today
      Examples.simpleOrder Examples.noApplicableTariff).1 = Examples.simpleOrder ∧
    (CostCalculator.calculateCost insertionStdSort Examples.today
      Examples.simpleOrder Examples.textTariff).1 = Examples.simpleOrder ∧
    Examples.simpleOrder.status = .DRAFT ∧ Examples.simpleOrder.tariffId = none ∧
    Examples.simpleOrder.calculatedCost = Double.fin 0 :=
  ⟨(calculateCost_atomic insertionStdSort Examples.today Examples.simpleOrder
      Examples.inactiveTariff "Ошибка вычисления: Тариф недействителен"
      (by decide)).1,
   (calculateCost_atomic insertionStdSort Examples.today Examples.simpleOrder
      Examples.emptyTariff
      "Ошибка вычисления: Ошибка при расчете стоимости по тарифу 'Пустой тариф': Ошибка вычисления: Тариф не содержит правил расчета"
      (by decide)).1,
   (calculateCost_atomic insertionStdSort Examples.today Examples.simpleOrder
      Examples.noApplicableTariff
      "Ошибка вычисления: Ошибка при расчете стоимости по тарифу 'Нет подходящего правила': Ошибка вычисления: Результат расчета не является числом"
      (by decide!)).1,
   (calculateCost_atomic insertionStdSort Examples.today Examples.simpleOrder
      Examples.textTariff
      "Ошибка вычисления: Ошибка при расчете стоимости по тарифу 'Текстовый': Ошибка вычисления: Результат расчета не является числом"
      (by decide!)).1,
   rfl, rfl, rfl⟩

/-! ## Parameter.setValue -/

/-- The check of `setValue` accepts the empty value and the values whose tag
the declared type asks for, and no others. -/
theorem Parameter.validateValue_iff (parameter : Parameter) (value : ParameterValue) :
    parameter.validateValue value = true ↔
      value = .empty ∨ ParameterValue.matchesType parameter.type value = true := by
  unfold Parameter.validateValue
  cases htype : parameter.type <;> cases value <;>
    simp [ParameterValue.isEmpty, ParameterValue.matchesType]

/-- C35. `setValue(v)` on a parameter of declared type `T` returns exactly when
`v` is empty or has the tag that `T` asks for (INTEGER: integer; DOUBLE: double
or integer; STRING and ENUMERATION: string; BOOLEAN: boolean; DATE: date) and
then stores `v`, changing nothing else; otherwise it raises and the parameter,
its stored value included, is as before. So when the stored value is empty, as
in a new parameter, or matches `T`, it is empty or matches `T` after every
sequence of `setValue` calls. -/
theorem setValue_enforces_type (parameter : Parameter) (value : ParameterValue)
    (values : List ParameterValue) :
    ((parameter.setValue value).2 = .ok () ↔
      value = .empty ∨ ParameterValue.matchesType parameter.type value = true) ∧
    (value = .empty ∨ ParameterValue.matchesType parameter.type value = true →
      (parameter.setValue value).1 = { parameter with value := value }) ∧
    (¬ (value = .empty ∨ ParameterValue.matchesType parameter.type value = true) →
      parameter.setValue value
        = (parameter, .error (ParameterException
            ("Некорректный тип значения для параметра " ++ parameter.name)))) ∧
    (parameter.value = .empty ∨
        ParameterValue.matchesType parameter.type parameter.value = true →
      (parameter.setValues values).type = parameter.type ∧
      ((parameter.setValues values).value = .empty ∨
        ParameterValue.matchesType parameter.type (parameter.setValues values).value
          = true)) ∧
    (Parameter.new parameter.id parameter.code parameter.name parameter.type).value
      = .empty := by
  refine ⟨?_, ?_, ?_, ?_, rfl⟩
  · rw [← Parameter.validateValue_iff]
    cases h : parameter.validateValue value <;> simp [Parameter.setValue, h]
  · intro h
    rw [← Parameter.validateValue_iff] at h
    simp [Parameter.setValue, h]
  · intro h
    rw [← Parameter.validateValue_iff] at h
    simp [Parameter.setValue, h]
  · intro hinv
    induction values generalizing parameter with
    | nil => exact ⟨rfl, hinv⟩
    | cons v rest ih =>
      have hstep : (parameter.setValue v).1.type = parameter.type ∧
          ((parameter.setValue v).1.value = .empty ∨
            ParameterValue.matchesType parameter.type (parameter.setValue v).1.value
              = true) := by
        cases h : parameter.validateValue v with
        | false => simpa [Parameter.setValue, h] using hinv
        | true =>
          simpa [Parameter.setValue, h] using
            (Parameter.validateValue_iff parameter v).1 h
      have ih2 := ih (parameter.setValue v).1 (by rw [hstep.1]; exact hstep.2)
      rw [hstep.1] at ih2
      exact ih2

/-- Instances, after `ParameterTest`: the INTEGER parameter takes 42 and
rejects a string, keeping 42; the DOUBLE parameter takes the integer 3; after
a sequence of good and bad assignments the INTEGER parameter holds the last
integer given. -/
theorem setValue_enforces_type_witness :
    (Examples.intParam.setValue (.integer 42)).1.value = .integer 42 ∧
    (Examples.intParam.setValue (.integer 42)).1.setValue (.string "строка")
      = ((Examples.intParam.setValue (.integer 42)).1,
          .error "Ошибка параметра: Некорректный тип значения для параметра Целочисленный параметр") ∧
    (Examples.doubleParam.setValue (.integer 3)).2 = .ok () ∧
    ((Examples.intParam.setValues
        [.integer 1, .string "a", .boolean true, .integer 7,
          .double (Double.fin 2)]).value = .empty ∨
      ParameterValue.matchesType Examples.intParam.type
        (Examples.intParam.setValues
          [.integer 1, .string "a", .boolean true, .integer 7,
            .double (Double.fin 2)]).value = true) ∧
    (Examples.intParam.setValues
      [.integer 1, .string "a", .boolean true, .integer 7,
        .double (Double.fin 2)]).value = .integer 7 := by
  refine ⟨?_, ?_, ?_, ?_, by decide!⟩
  · rw [(setValue_enforces_type Examples.intParam (.integer 42) []).2.1
      (Or.inr rfl)]
  · exact (setValue_enforces_type (Examples.intParam.setValue (.integer 42)).1
      (.string "строка") []).2.2.1 (by decide)
  · exact (setValue_enforces_type Examples.doubleParam (.integer 3) []).1.2
      (Or.inr rfl)
  · exact ((setValue_enforces_type Examples.intParam .empty _).2.2.2.1
      (Or.inl rfl)).2

/-! ## The order in which rules were added -/

/-- Rules with pairwise distinct priorities have one walk order, whatever the
order in which they were added. -/
theorem RuleEngine.sorted_eq_of_perm (S : StdSort) (hS : IsStdSort S)
    (rules1 rules2 : List Rule) (hperm : List.Perm rules1 rules2)
    (hdistinct : (rules1.map Rule.priority).Nodup) :
    S Rule RuleEngine.priorityLess rules1 = S Rule RuleEngine.priorityLess rules2 := by
  have hstrict : ∀ rules : List Rule, List.Perm rules rules1 →
      List.Pairwise (fun a b : Rule => a.priority < b.priority)
        (S Rule RuleEngine.priorityLess rules) := by
    intro rules hp
    have hp2 : List.Perm (S Rule RuleEngine.priorityLess rules) rules1 :=
      (hS.perm RuleEngine.priorityLess rules).trans hp
    have hnodup : ((S Rule RuleEngine.priorityLess rules).map Rule.priority).Nodup :=
      (hp2.map Rule.priority).nodup_iff.2 hdistinct
    have hne : List.Pairwise (fun a b : Rule => a.priority ≠ b.priority)
        (S Rule RuleEngine.priorityLess rules) := by
      rw [List.Nodup, List.pairwise_map] at hnodup
      exact hnodup
    have hle := hS.sorted RuleEngine.priorityLess rules (priorityLess_strictWeakOn rules)
    refine (hle.and hne).imp ?_
    intro a b hab
    have h1 : a.priority ≤ b.priority := by
      simpa [RuleEngine.priorityLess] using hab.1
    exact lt_of_le_of_ne h1 hab.2
  haveI : IsAntisymm Rule (fun a b : Rule => a.priority < b.priority) :=
    ⟨fun a b h1 h2 => absurd h1 (lt_asymm h2)⟩
  refine List.eq_of_perm_of_sorted ?_ (hstrict rules1 (List.Perm.refl _))
    (hstrict rules2 hperm.symm)
  exact ((hS.perm RuleEngine.priorityLess rules1).trans hperm).trans
    (hS.perm RuleEngine.priorityLess rules2).symm

/-- C38. For two tariffs whose rule lists are rearrangements of each other and
whose rules have pairwise distinct priorities, and every order,
`applyTariffRules` walks the rules in the same order and gives the same
outcome for both: the same value or the same failure. -/
theorem applyTariffRules_insertion_order (S : StdSort) (hS : IsStdSort S)
    (tariff1 tariff2 : Tariff) (order : Order)
    (hperm : List.Perm tariff1.rules tariff2.rules)
    (hdistinct : (tariff1.rules.map Rule.priority).Nodup) :
    RuleEngine.applyTariffRules S tariff1 order
      = RuleEngine.applyTariffRules S tariff2 order ∧
    S Rule RuleEngine.priorityLess tariff1.rules
      = S Rule RuleEngine.priorityLess tariff2.rules := by
  have hsorted := RuleEngine.sorted_eq_of_perm S hS tariff1.rules tariff2.rules hperm
    hdistinct
  have hempty : tariff1.rules.isEmpty = tariff2.rules.isEmpty := by
    cases h1 : tariff1.rules with
    | nil =>
      rw [h1] at hperm
      rw [List.nil_perm.1 hperm]
    | cons r rs =>
      cases h2 : tariff2.rules with
      | nil =>
        rw [h2] at hperm
        rw [h1] at hperm
        exact absurd (List.perm_nil.1 hperm) (by simp)
      | cons r2 rs2 => rfl
  refine ⟨?_, hsorted⟩
  simp only [RuleEngine.applyTariffRules, hsorted, hempty]

/-- Instance: the two rules of `ConditionalRulesTest`, of priorities 1 and 2,
added in either order give 1200 for the heavy order. -/
theorem applyTariffRules_insertion_order_witness :
    RuleEngine.applyTariffRules insertionStdSort Examples.conditionalTariffReversed
      Examples.heavyOrder = .ok (.double (Double.fin 1200)) ∧
    RuleEngine.applyTariffRules insertionStdSort Examples.conditionalTariff
      Examples.heavyOrder = .ok (.double (Double.fin 1200)) := by
  have h := (applyTariffRules_insertion_order insertionStdSort
    insertionStdSort_isStdSort Examples.conditionalTariff
    Examples.conditionalTariffReversed Examples.heavyOrder
    (List.Perm.swap _ _ _) (by decide)).1
  have h2 : RuleEngine.applyTariffRules insertionStdSort Examples.conditionalTariff
      Examples.heavyOrder = .ok (.double (Double.fin 1200)) := by decide!
  exact ⟨h ▸ h2, h2⟩

/-! ## De Morgan -/

/-- C40. For all expressions `a` and `b` and every context, NOT(AND(a, b)) and
OR(NOT(a), NOT(b)) both fail or both return the same boolean. When `a`
evaluates to false both return true without evaluating `b`; when `a` evaluates
to true and `b` to a boolean `y` both return `!y`. -/
theorem de_morgan (a b : Expression) (context : Context) :
    ((∃ e1 e2,
        (Expression.logical .NOT [.logical .AND [a, b]]).evaluate context
          = .error e1 ∧
        (Expression.logical .OR [.logical .NOT [a], .logical .NOT [b]]).evaluate
          context = .error e2) ∨
      ∃ v : Bool,
        (Expression.logical .NOT [.logical .AND [a, b]]).evaluate context
          = .ok (.boolean v) ∧
        (Expression.logical .OR [.logical .NOT [a], .logical .NOT [b]]).evaluate
          context = .ok (.boolean v)) ∧
    (a.evaluate context = .ok (.boolean false) →
      (Expression.logical .NOT [.logical .AND [a, b]]).evaluate context
        = .ok (.boolean true) ∧
      (Expression.logical .OR [.logical .NOT [a], .logical .NOT [b]]).evaluate
        context = .ok (.boolean true)) ∧
    (∀ y : Bool, a.evaluate context = .ok (.boolean true) →
      b.evaluate context = .ok (.boolean y) →
      (Expression.logical .NOT [.logical .AND [a, b]]).evaluate context
        = .ok (.boolean (!y)) ∧
      (Expression.logical .OR [.logical .NOT [a], .logical .NOT [b]]).evaluate
        context = .ok (.boolean (!y))) := by
  have hfalse : a.evaluate context = .ok (.boolean false) →
      (Expression.logical .NOT [.logical .AND [a, b]]).evaluate context
        = .ok (.boolean true) ∧
      (Expression.logical .OR [.logical .NOT [a], .logical .NOT [b]]).evaluate
        context = .ok (.boolean true) := by
    intro ha
    simp [Expression.evaluate, Expression.evaluateOperands, ha, GetBooleanValue]
  have htrue : ∀ y : Bool, a.evaluate context = .ok (.boolean true) →
      b.evaluate context = .ok (.boolean y) →
      (Expression.logical .NOT [.logical .AND [a, b]]).evaluate context
        = .ok (.boolean (!y)) ∧
      (Expression.logical .OR [.logical .NOT [a], .logical .NOT [b]]).evaluate
        context = .ok (.boolean (!y)) := by
    intro y ha hb
    cases y <;>
      simp [Expression.evaluate, Expression.evaluateOperands, ha, hb, GetBooleanValue]
  refine ⟨?_, hfalse, htrue⟩
  have hgt : ∀ x, GetBooleanValue (.boolean x) = some x := fun _ => rfl
  cases ha : a.evaluate context with
  | error e =>
    exact Or.inl ⟨e, e,
      by simp [Expression.evaluate, Expression.evaluateOperands, ha],
      by simp [Expression.evaluate, Expression.evaluateOperands, ha]⟩
  | ok va =>
    cases hga : GetBooleanValue va with
    | none =>
      exact Or.inl ⟨CalculationException "Некорректный аргумент логической операции",
        CalculationException "Некорректный аргумент логической операции NOT",
        by simp [Expression.evaluate, Expression.evaluateOperands, ha, hga],
        by simp [Expression.evaluate, Expression.evaluateOperands, ha, hga]⟩
    | some x =>
      have hva : va = .boolean x := by
        cases va <;> simp [GetBooleanValue] at hga
        rw [hga]
      subst hva
      cases x with
      | false => exact Or.inr ⟨true, hfalse ha⟩
      | true =>
        cases hb : b.evaluate context with
        | error e =>
          exact Or.inl ⟨e, e,
            by simp [Expression.evaluate, Expression.evaluateOperands, ha, hb, hgt],
            by simp [Expression.evaluate, Expression.evaluateOperands, ha, hb, hgt]⟩
        | ok vb =>
          cases hgb : GetBooleanValue vb with
          | none =>
            exact Or.inl
              ⟨CalculationException "Некорректный аргумент логической операции",
                CalculationException "Некорректный аргумент логической операции NOT",
                by simp [Expression.evaluate, Expression.evaluateOperands, ha, hb,
                  hgb, hgt],
                by simp [Expression.evaluate, Expression.evaluateOperands, ha, hb,
                  hgb, hgt]⟩
          | some y =>
            have hvb : vb = .boolean y := by
              cases vb <;> simp [GetBooleanValue] at hgb
              rw [hgb]
            subst hvb
            exact Or.inr ⟨!y, htrue y ha hb⟩

/-- Instances: with `a` false and `b` a read of a missing parameter both sides
are true; with `a` true and `b` false both sides are true; with `a` true and
`b` true both sides are false. -/
theorem de_morgan_witness :
    ((Expression.logical .NOT [.logical .AND
        [.constant (.boolean false), .parameter 99]]).evaluate
        Examples.expressionContext = .ok (.boolean true) ∧
      (Expression.logical .OR [.logical .NOT [.constant (.boolean false)],
        .logical .NOT [.parameter 99]]).evaluate
        Examples.expressionContext = .ok (.boolean true)) ∧
    ((Expression.logical .NOT [.logical .AND
        [.constant (.boolean true), .constant (.boolean false)]]).evaluate
        Examples.expressionContext = .ok (.boolean true) ∧
      (Expression.logical .OR [.logical .NOT [.constant (.boolean true)],
        .logical .NOT [.constant (.boolean false)]]).evaluate
        Examples.expressionContext = .ok (.boolean true)) ∧
    ((Expression.logical .NOT [.logical .AND
        [.constant (.boolean true), .constant (.boolean true)]]).evaluate
        Examples.expressionContext = .ok (.boolean false) ∧
      (Expression.logical .OR [.logical .NOT [.constant (.boolean true)],
        .logical .NOT [.constant (.boolean true)]]).evaluate
        Examples.expressionContext = .ok (.boolean false)) :=
  ⟨(de_morgan (.constant (.boolean false)) (.parameter 99)
      Examples.expressionContext).2.1 rfl,
   (de_morgan (.constant (.boolean true)) (.constant (.boolean false))
      Examples.expressionContext).2.2 false rfl rfl,
   (de_morgan (.constant (.boolean true)) (.constant (.boolean true))
      Examples.expressionContext).2.2 true rfl rfl⟩

/-! ## The three views of the optimum -/

/-- Values that `==` accepts are the same value, unless they are zeros. -/
theorem Double.eq_of_eq_true (a b : Double) (h : Double.eq a b = true)
    (hb : Double.isZero b = false) : a = b := by
  rcases (Double.eq_iff a b).1 h with h1 | h1
  · exact h1.2
  · rw [h1.2] at hb
    cases hb

/-- What `findOptimalTariff` returns when it returns a pair: a tariff of the
list whose batch result is a success with the returned cost, which is below
`DBL_MAX`, and no successful batch result of a tariff of the list is below it. -/
theorem OptimalSearcher.findOptimalTariff_some (S : StdSort) (today : Date)
    (order : Order) (tariffs : List Tariff) (t : Tariff) (c : Double)
    (h : (OptimalSearcher.findOptimalTariff S today order tariffs).2 = some (t, c)) :
    t ∈ tariffs ∧
    (∃ entry,
      (CostCalculator.calculateWithAllTariffs S today order tariffs).2.find t.id
        = some entry ∧ entry.success = true ∧ entry.cost = c) ∧
    Double.lt c (Double.fin DBL_MAX) = true ∧
    (∀ u ∈ tariffs, ∀ entry,
      (CostCalculator.calculateWithAllTariffs S today order tariffs).2.find u.id
        = some entry → entry.success = true → Double.lt entry.cost c = false) := by
  unfold OptimalSearcher.findOptimalTariff at h
  split at h
  · cases h
  · simp only [] at h
    obtain ⟨h1, h2⟩ := OptimalSearcher.searchStep_foldl
      (CostCalculator.calculateWithAllTariffs S today order tariffs).2 tariffs
    generalize tariffs.foldl (OptimalSearcher.searchStep
      (CostCalculator.calculateWithAllTariffs S today order tariffs).2)
      (none, Double.fin DBL_MAX) = final at h h1 h2
    split at h
    · rename_i optimalTariff hopt
      simp only [Option.some.injEq, Prod.mk.injEq] at h
      obtain ⟨ht, hc⟩ := h
      subst ht hc
      rcases h1 with ⟨hnone, -⟩ | ⟨t, ht, entry, hsome, hfind, hs, hcost, hmax⟩
      · rw [hnone] at hopt
        cases hopt
      · rw [hsome] at hopt
        simp only [Option.some.injEq] at hopt
        subst hopt
        exact ⟨ht, ⟨entry, hfind, hs, hcost⟩, hcost ▸ hmax, h2⟩
    · cases h

/-- The entries of the ranked list and the successful batch results of the
tariffs of the list have the same costs. -/
theorem OptimalSearcher.mem_ranked_costs (S : StdSort) (hS : IsStdSort S)
    (today : Date) (order : Order) (tariffs : List Tariff) (c : Double) :
    (∃ x ∈ (OptimalSearcher.compareAllTariffs S today order tariffs).2, x.cost = c) ↔
      c ∈ successfulCosts
        (CostCalculator.calculateWithAllTariffs S today order tariffs).2 tariffs := by
  rw [← (OptimalSearcher.compareAllTariffs_costs_perm S hS today order tariffs).mem_iff,
    List.mem_map]

/-- When no successful batch cost is NaN, the first entry of the ranked list
has the least cost and the last entry the greatest. -/
theorem OptimalSearcher.ranked_bounds (S : StdSort) (hS : IsStdSort S)
    (today : Date) (order : Order) (tariffs : List Tariff)
    (hnan : ∀ c ∈ successfulCosts
      (CostCalculator.calculateWithAllTariffs S today order tariffs).2 tariffs,
      c ≠ Double.nan)
    (front back : TariffComparisonResult)
    (hfront : (OptimalSearcher.compareAllTariffs S today order tariffs).2.head?
      = some front)
    (hback : (OptimalSearcher.compareAllTariffs S today order tariffs).2.getLast?
      = some back) :
    ∀ x ∈ (OptimalSearcher.compareAllTariffs S today order tariffs).2,
      x.cost ≠ Double.nan ∧ Double.le front.cost x.cost = true ∧
        Double.le x.cost back.cost = true := by
  have hnan2 : ∀ t ∈ tariffs, ∀ found,
      (CostCalculator.calculateWithAllTariffs S today order tariffs).2.find t.id
        = some found → found.success = true → found.cost ≠ Double.nan :=
    fun t ht found hf hs =>
      hnan _ ((mem_successfulCosts _ _ _).2 ⟨t, ht, found, hf, hs, rfl⟩)
  obtain ⟨hpair, hne⟩ :=
    OptimalSearcher.compareAllTariffs_pairwise S hS today order tariffs hnan2
  have hfmem := List.mem_of_mem_head? hfront
  have hbmem := List.mem_of_getLast?_eq_some hback
  obtain ⟨rest, hrest⟩ := List.head?_eq_some_iff.1 hfront
  obtain ⟨init, hinit⟩ := List.getLast?_eq_some_iff.1 hback
  intro y hy
  refine ⟨hne y hy, ?_, ?_⟩
  · rw [hrest] at hpair hy
    rcases List.mem_cons.1 hy with rfl | hy
    · exact Double.le_self _ (hne _ hfmem)
    · exact (List.pairwise_cons.1 hpair).1 y hy
  · rw [hinit] at hpair hy
    rcases List.mem_append.1 hy with hy | hy
    · exact (List.pairwise_append.1 hpair).2.2 y hy back (List.mem_singleton_self _)
    · rw [List.mem_singleton] at hy
      subst hy
      exact Double.le_self _ (hne _ hbmem)

/-- A non-empty ranked list makes `analyzeSavings` return a result whose
optimal cost is the cost of the first entry. -/
theorem OptimalSearcher.analyzeSavings_of_cons (S : StdSort) (today : Date)
    (order : Order) (tariffs : List Tariff) (front : TariffComparisonResult)
    (rest : List TariffComparisonResult)
    (h : (OptimalSearcher.compareAllTariffs S today order tariffs).2 = front :: rest) :
    ∃ a, (OptimalSearcher.analyzeSavings S today order tariffs).2 = some a ∧
      a.optimalCost = front.cost := by
  cases ha : (OptimalSearcher.analyzeSavings S today order tariffs).2 with
  | none =>
    rw [OptimalSearcher.analyzeSavings_eq_none_iff, h] at ha
    cases ha
  | some a =>
    obtain ⟨front2, back, hfront, -, heq⟩ :=
      OptimalSearcher.analyzeSavings_some S today order tariffs a ha
    rw [h] at hfront
    simp only [List.head?_cons, Option.some.injEq] at hfront
    subst hfront
    exact ⟨a, rfl, by rw [heq]⟩

/-- C37, counterexample. For a tariff whose rule yields NaN followed by a
tariff with cost 1000, `findOptimalTariff` returns the cost 1000 while the
first entry of `compareAllTariffs` and the optimal cost of `analyzeSavings`
are NaN. For the NaN tariff alone `compareAllTariffs` has one entry and
`findOptimalTariff` returns no result. For seventeen tariffs of cost zero, the
ninth of cost `-0.0` and the others of cost `0.0`, with the `std::sort` of
libstdc++ `findOptimalTariff` returns the cost `0.0` and the first entry of
`compareAllTariffs` has the cost `-0.0`: equal under `==`, of different sign. -/
theorem optimum_views_disagree_on_nan :
    (OptimalSearcher.findOptimalTariff insertionStdSort Examples.today
        Examples.searchOrder [Examples.nanTariff, Examples.cheapTariff]).2.map
        (fun found => found.2) = some (Double.fin 1000) ∧
    (OptimalSearcher.compareAllTariffs insertionStdSort Examples.today
        Examples.searchOrder [Examples.nanTariff, Examples.cheapTariff]).2.head?.map
        (fun x => x.cost) = some Double.nan ∧
    (OptimalSearcher.analyzeSavings insertionStdSort Examples.today
        Examples.searchOrder [Examples.nanTariff, Examples.cheapTariff]).2.map
        (fun a => a.optimalCost) = some Double.nan ∧
    (OptimalSearcher.compareAllTariffs insertionStdSort Examples.today
        Examples.searchOrder [Examples.nanTariff]).2.map (fun x => x.tariffId)
      = [6] ∧
    (OptimalSearcher.findOptimalTariff insertionStdSort Examples.today
        Examples.searchOrder [Examples.nanTariff]).2.isNone = true ∧
    (OptimalSearcher.findOptimalTariff libstdcxxSort Examples.today
        Examples.searchOrder Examples.seventeenZeroTariffs).2.map
        (fun found => (found.1.id, found.2)) = some (101, Double.fin 0) ∧
    (OptimalSearcher.compareAllTariffs libstdcxxSort Examples.today
        Examples.searchOrder Examples.seventeenZeroTariffs).2.head?.map
        (fun x => (x.tariffId, x.cost)) = some (109, Double.negZero) ∧
    Double.eq Double.negZero (Double.fin 0) = true :=
  ⟨by decide!, by decide!, by decide!, by decide!, by decide!, by decide!,
    by decide!, by decide!⟩

/-- C37, amended. When no successful batch cost is NaN: if `findOptimalTariff`
returns `(t, c)`, then `compareAllTariffs` is not empty and the cost of its
first entry equals `c` under `==`, and `analyzeSavings` returns a result whose
`optimalCost` equals `c` under `==`; and if `compareAllTariffs` is not empty
and the cost of its first entry is below the largest finite `double`, then
`findOptimalTariff` returns a result whose cost equals the cost of that first
entry under `==`. Costs equal under `==` are the same value unless they are
zeros, which may differ in sign. -/
theorem optimum_views_agree (S : StdSort) (hS : IsStdSort S) (today : Date)
    (order : Order) (tariffs : List Tariff)
    (hnan : ∀ c ∈ successfulCosts
      (CostCalculator.calculateWithAllTariffs S today order tariffs).2 tariffs,
      c ≠ Double.nan) :
    (∀ t c,
      (OptimalSearcher.findOptimalTariff S today order tariffs).2 = some (t, c) →
      (∃ front rest,
        (OptimalSearcher.compareAllTariffs S today order tariffs).2 = front :: rest ∧
        Double.eq front.cost c = true ∧
        (Double.isZero c = false → front.cost = c)) ∧
      ∃ a, (OptimalSearcher.analyzeSavings S today order tariffs).2 = some a ∧
        Double.eq a.optimalCost c = true ∧
        (Double.isZero c = false → a.optimalCost = c)) ∧
    (∀ front rest,
      (OptimalSearcher.compareAllTariffs S today order tariffs).2 = front :: rest →
      Double.lt front.cost (Double.fin DBL_MAX) = true →
      ∃ t c, (OptimalSearcher.findOptimalTariff S today order tariffs).2
          = some (t, c) ∧
        Double.eq front.cost c = true ∧
        (Double.isZero c = false → front.cost = c)) := by
  have hforward : ∀ t c,
      (OptimalSearcher.findOptimalTariff S today order tariffs).2 = some (t, c) →
      ∃ front rest,
        (OptimalSearcher.compareAllTariffs S today order tariffs).2 = front :: rest ∧
        Double.eq front.cost c = true ∧
        (Double.isZero c = false → front.cost = c) := by
    intro t c h
    obtain ⟨ht, ⟨entry, hfind, hs, hcost⟩, -, hbelow⟩ :=
      OptimalSearcher.findOptimalTariff_some S today order tariffs t c h
    have hc : c ∈ successfulCosts
        (CostCalculator.calculateWithAllTariffs S today order tariffs).2 tariffs :=
      (mem_successfulCosts _ _ _).2 ⟨t, ht, entry, hfind, hs, hcost⟩
    obtain ⟨y, hy, hyc⟩ :=
      (OptimalSearcher.mem_ranked_costs S hS today order tariffs c).2 hc
    cases hlist : (OptimalSearcher.compareAllTariffs S today order tariffs).2 with
    | nil =>
      rw [hlist] at hy
      cases hy
    | cons front rest =>
      refine ⟨front, rest, rfl, ?_⟩
      have hfront : (OptimalSearcher.compareAllTariffs S today order tariffs).2.head?
          = some front := by rw [hlist]; rfl
      obtain ⟨back, hback⟩ : ∃ back,
          (OptimalSearcher.compareAllTariffs S today order tariffs).2.getLast?
            = some back := by
        rw [hlist]
        exact ⟨_, List.getLast?_eq_getLast _ (List.cons_ne_nil _ _)⟩
      have hbounds := OptimalSearcher.ranked_bounds S hS today order tariffs hnan
        front back hfront hback
      have hle := (hbounds y hy).2.1
      rw [hyc] at hle
      have hfmem : front ∈ (OptimalSearcher.compareAllTariffs S today order
          tariffs).2 := List.mem_of_mem_head? hfront
      have hfc : front.cost ∈ successfulCosts
          (CostCalculator.calculateWithAllTariffs S today order tariffs).2 tariffs :=
        (OptimalSearcher.mem_ranked_costs S hS today order tariffs front.cost).1
          ⟨front, hfmem, rfl⟩
      obtain ⟨u, hu, found, hf, hsu, hcu⟩ := (mem_successfulCosts _ _ _).1 hfc
      have hnlt : Double.lt front.cost c = false := by
        rw [← hcu]
        exact hbelow u hu found hf hsu
      simp only [Double.le, hnlt, Bool.false_or] at hle
      exact ⟨hle, Double.eq_of_eq_true _ _ hle⟩
  refine ⟨?_, ?_⟩
  · intro t c h
    obtain ⟨front, rest, hlist, hc⟩ := hforward t c h
    refine ⟨⟨front, rest, hlist, hc⟩, ?_⟩
    obtain ⟨a, ha, hopt⟩ :=
      OptimalSearcher.analyzeSavings_of_cons S today order tariffs front rest hlist
    exact ⟨a, ha, by rw [hopt]; exact hc⟩
  · intro front rest hlist hmax
    have hfc : front.cost ∈ successfulCosts
        (CostCalculator.calculateWithAllTariffs S today order tariffs).2 tariffs :=
      (OptimalSearcher.mem_ranked_costs S hS today order tariffs front.cost).1
        ⟨front, by rw [hlist]; simp, rfl⟩
    obtain ⟨u, hu, found, hf, hsu, hcu⟩ := (mem_successfulCosts _ _ _).1 hfc
    cases hopt : (OptimalSearcher.findOptimalTariff S today order tariffs).2 with
    | none =>
      have hnone := (OptimalSearcher.findOptimalTariff_isNone_iff S today order
        tariffs).1 (by rw [hopt]; rfl) u.id found hf hsu
      rw [hcu, hmax] at hnone
      cases hnone
    | some pair =>
      obtain ⟨t, c⟩ := pair
      obtain ⟨front2, rest2, hlist2, hc⟩ := hforward t c hopt
      rw [hlist] at hlist2
      simp only [List.cons.injEq] at hlist2
      rw [← hlist2.1] at hc
      exact ⟨t, c, rfl, hc⟩

/-- Instance, the tariffs of `OptimalSearcherTest` with costs 1000, 1500 and
2000: the three views give the cost 1000. -/
theorem optimum_views_agree_witness :
    (OptimalSearcher.findOptimalTariff insertionStdSort Examples.today
        Examples.searchOrder Examples.threeTariffs).2.map (fun found => found.2)
      = some (Double.fin 1000) ∧
    (∃ front rest,
      (OptimalSearcher.compareAllTariffs insertionStdSort Examples.today
        Examples.searchOrder Examples.threeTariffs).2 = front :: rest ∧
      front.cost = Double.fin 1000) ∧
    ∃ a, (OptimalSearcher.analyzeSavings insertionStdSort Examples.today
        Examples.searchOrder Examples.threeTariffs).2 = some a ∧
      a.optimalCost = Double.fin 1000 := by
  have hv : (OptimalSearcher.findOptimalTariff insertionStdSort Examples.today
      Examples.searchOrder Examples.threeTariffs).2.map (fun found => found.2)
      = some (Double.fin 1000) := by decide!
  have hcosts : successfulCosts
      (CostCalculator.calculateWithAllTariffs insertionStdSort Examples.today
        Examples.searchOrder Examples.threeTariffs).2 Examples.threeTariffs
      = [Double.fin 1000, Double.fin 1500, Double.fin 2000] := by decide!
  refine ⟨hv, ?_⟩
  cases hr : (OptimalSearcher.findOptimalTariff insertionStdSort Examples.today
      Examples.searchOrder Examples.threeTariffs).2 with
  | none =>
    rw [hr] at hv
    cases hv
  | some pair =>
    obtain ⟨t, c⟩ := pair
    rw [hr] at hv
    simp only [Option.map_some', Option.some.injEq] at hv
    subst hv
    obtain ⟨⟨front, rest, hlist, -, hfront⟩, a, ha, -, hopt⟩ :=
      (optimum_views_agree insertionStdSort insertionStdSort_isStdSort
        Examples.today Examples.searchOrder Examples.threeTariffs
        (by rw [hcosts]; decide)).1 t _ hr
    exact ⟨⟨front, rest, hlist, hfront (by decide!)⟩, a, ha, hopt (by decide!)⟩

/-! ## The division of analyzeSavings -/

theorem Double.isZero_iff (c : Double) :
    Double.isZero c = true ↔ c = Double.fin 0 ∨ c = Double.negZero := by
  cases c <;> simp [Double.isZero]

theorem Double.foldl_add_zero (l : List Double) (h : ∀ c ∈ l, Double.isZero c = true) :
    l.foldl Double.add (Double.fin 0) = Double.fin 0 := by
  induction l with
  | nil => rfl
  | cons c l ih =>
    have hc := (Double.isZero_iff c).1 (h c (List.mem_cons_self _ _))
    have hadd : Double.add (Double.fin 0) c = Double.fin 0 := by
      rcases hc with rfl | rfl <;> decide!
    rw [List.foldl_cons, hadd]
    exact ih (fun x hx => h x (List.mem_cons_of_mem _ hx))

/-- A number of the normal range rounds to a positive value or overflows. -/
theorem Double.ofRat_pos_of_ge (q : ℚ) (hq : Double.pow2 (-1022) ≤ q) :
    Double.ofRat q = Double.posInf ∨ ∃ r, Double.ofRat q = Double.fin r ∧ 0 < r := by
  have hpos : 0 < q := lt_of_lt_of_le (Double.pow2_pos _) hq
  have hsmall : Double.pow2 (-53) < 1 := by
    rw [← Double.pow2_zero]
    exact (Double.pow2_lt_iff _ _).2 (by norm_num)
  have hcase : ∀ r, Double.ofRat q = Double.fin r → 0 < r := by
    intro r hr
    have h1 := Double.ofRat_relative_error q r hr (by rwa [abs_of_pos hpos])
    rw [abs_of_pos hpos] at h1
    have h2 := (abs_le.1 h1).1
    nlinarith
  have h := Double.ofRat_of_pos q hpos
  split at h
  · exact Or.inl h
  · split at h
    · exact Or.inr ⟨_, h, hcase _ h⟩
    · exact Or.inr ⟨_, h, hcase _ h⟩

/-- Zero divided by a positive count is `+0.0`. -/
theorem Double.zero_div_ofNat (n : Nat) (hn : n ≠ 0) :
    Double.div (Double.fin 0) (Double.ofNat n) = Double.fin 0 := by
  have hq : Double.pow2 (-1022) ≤ (n : ℚ) := by
    have h1 : (1 : ℚ) ≤ n := by exact_mod_cast Nat.one_le_iff_ne_zero.2 hn
    have h2 : Double.pow2 (-1022) ≤ Double.pow2 0 := Double.pow2_le _ _ (by norm_num)
    rw [Double.pow2_zero] at h2
    linarith
  rcases Double.ofRat_pos_of_ge _ hq with h | ⟨r, h, hr⟩
  · rw [Double.ofNat, h]
    decide!
  · rw [Double.ofNat, h, Double.div_fin_zero r hr.ne.symm]
    simp [Double.zero, not_lt.2 hr.le]

/-- A number between 0 and the double `B` rounds to a finite value between 0
and `B`. -/
theorem Double.ofRat_between (q B : ℚ) (hq : 0 ≤ q) (hqB : q ≤ B)
    (hB : Double.ofRat B = Double.fin B) :
    ∃ r, Double.ofRat q = Double.fin r ∧ 0 ≤ r ∧ r ≤ B := by
  rcases hq.eq_or_lt with h | h
  · subst h
    exact ⟨0, by decide!, le_rfl, hqB⟩
  · exact Double.ofRat_le_of_le q B h hqB hB

/-- The percentage `(m - x) / m * 100` computed in `double` for a positive
double `m` and a value `x` between 0 and `m` lies between 0 and 100. -/
theorem Double.savingsPercent_between (m x : ℚ) (hm : 0 < m)
    (hmd : Double.ofRat m = Double.fin m) (hx0 : 0 ≤ x) (hxm : x ≤ m) :
    ∃ p, Double.mul (Double.div (Double.ofRat (m - x)) (Double.fin m)) (Double.fin 100)
        = Double.fin p ∧ 0 ≤ p ∧ p ≤ 100 := by
  obtain ⟨r1, h1, h10, h1m⟩ := Double.ofRat_between (m - x) m (by linarith)
    (by linarith) hmd
  rw [h1]
  have hone : Double.ofRat 1 = Double.fin 1 := by decide!
  have hhundred : Double.ofRat 100 = Double.fin 100 := by decide!
  have hquot : ∃ r2, Double.div (Double.fin r1) (Double.fin m) = Double.fin r2 ∧
      0 ≤ r2 ∧ r2 ≤ 1 := by
    by_cases hr1 : r1 = 0
    · subst hr1
      rw [Double.div_fin_zero m hm.ne.symm]
      exact ⟨0, by simp [Double.zero, not_lt.2 hm.le], le_rfl, by norm_num⟩
    · rw [Double.div_fin r1 m hr1 hm.ne.symm]
      exact Double.ofRat_between _ 1 (div_nonneg h10 hm.le)
        ((div_le_one hm).2 h1m) hone
  obtain ⟨r2, h2, h20, h21⟩ := hquot
  rw [h2]
  by_cases hr2 : r2 = 0
  · subst hr2
    rw [Double.mul_fin_zero 0 100 (Or.inl rfl)]
    exact ⟨0, by simp [Double.zero], le_rfl, by norm_num⟩
  · rw [Double.mul_fin r2 100 hr2 (by norm_num)]
    exact Double.ofRat_between _ 100 (by positivity) (by linarith) hhundred

/-- C39, counterexample. A tariff with cost 1000 and a tariff whose rule
overflows to positive infinity: the maximum cost is positive, no cost is
negative, and the savings percentage is NaN, which is not between 0 and 100. -/
theorem analyzeSavings_infinite_maximum :
    successfulCosts
        (CostCalculator.calculateWithAllTariffs insertionStdSort Examples.today
          Examples.searchOrder [Examples.cheapTariff, Examples.overflowTariff]).2
        [Examples.cheapTariff, Examples.overflowTariff]
      = [Double.fin 1000, Double.posInf] ∧
    Double.le (Double.fin 0) (Double.fin 1000) = true ∧
    Double.le (Double.fin 0) Double.posInf = true ∧
    (OptimalSearcher.analyzeSavings insertionStdSort Examples.today
        Examples.searchOrder [Examples.cheapTariff, Examples.overflowTariff]).2.map
        (fun a => (a.maximumCost, a.savingsPercent))
      = some (Double.posInf, Double.nan) ∧
    Double.lt (Double.fin 0) Double.posInf = true ∧
    Double.le (Double.fin 0) Double.nan = false ∧
    Double.le Double.nan (Double.fin 100) = false :=
  ⟨by decide!, by decide!, by decide!, by decide!, by decide!, by decide!, by decide!⟩

/-- C39, amended. `analyzeSavings` does not guard its division by
`maximumCost`. When some batch result is a success and every successful cost is
a zero, it returns a result whose `optimalCost`, `maximumCost` and `savings`
are zeros, whose `averageCost` is 0.0 and whose `savingsPercent` is NaN, the
value of `0 / 0 * 100`; when every successful cost is `+0.0`, the four costs
are `+0.0`. When it returns a result whose `maximumCost` is a positive finite
`double` and no successful cost is negative, `savingsPercent` is a finite
value between 0 and 100, every operation of `(max - min) / max * 100` being
rounded. -/
theorem analyzeSavings_division (S : StdSort) (hS : IsStdSort S) (today : Date)
    (order : Order) (tariffs : List Tariff) :
    ((∃ t ∈ tariffs, batchSucceeds
        (CostCalculator.calculateWithAllTariffs S today order tariffs).2 t = true) →
      (∀ c ∈ successfulCosts
        (CostCalculator.calculateWithAllTariffs S today order tariffs).2 tariffs,
        Double.isZero c = true) →
      ∃ a, (OptimalSearcher.analyzeSavings S today order tariffs).2 = some a ∧
        Double.isZero a.optimalCost = true ∧ Double.isZero a.maximumCost = true ∧
        a.averageCost = Double.fin 0 ∧ Double.isZero a.savings = true ∧
        a.savingsPercent
          = Double.mul (Double.div a.savings a.maximumCost) (Double.fin 100) ∧
        Double.div a.savings a.maximumCost = Double.nan ∧
        a.savingsPercent = Double.nan ∧
        ((∀ c ∈ successfulCosts
          (CostCalculator.calculateWithAllTariffs S today order tariffs).2 tariffs,
          c = Double.fin 0) →
          a.optimalCost = Double.fin 0 ∧ a.maximumCost = Double.fin 0 ∧
          a.savings = Double.fin 0 ∧
          a.savingsPercent
            = Double.mul (Double.div (Double.fin 0) (Double.fin 0)) (Double.fin 100))) ∧
    (∀ a (m : ℚ), (OptimalSearcher.analyzeSavings S today order tariffs).2 = some a →
      (∀ c ∈ successfulCosts
        (CostCalculator.calculateWithAllTariffs S today order tariffs).2 tariffs,
        Double.le (Double.fin 0) c = true) →
      a.maximumCost = Double.fin m → 0 < m → Double.ofRat m = Double.fin m →
      ∃ p : ℚ, a.savingsPercent = Double.fin p ∧ 0 ≤ p ∧ p ≤ 100) := by
  constructor
  · rintro ⟨t, ht, hsucc⟩ hzero
    have hcost : ∃ c, c ∈ successfulCosts
        (CostCalculator.calculateWithAllTariffs S today order tariffs).2 tariffs := by
      unfold batchSucceeds at hsucc
      cases hfind : (CostCalculator.calculateWithAllTariffs S today order
          tariffs).2.find t.id with
      | none => simp [hfind] at hsucc
      | some found =>
        rw [hfind] at hsucc
        exact ⟨found.cost, (mem_successfulCosts _ _ _).2 ⟨t, ht, found, hfind, hsucc, rfl⟩⟩
    obtain ⟨c, hc⟩ := hcost
    obtain ⟨y, hy, -⟩ :=
      (OptimalSearcher.mem_ranked_costs S hS today order tariffs c).2 hc
    have hmem : ∀ x ∈ (OptimalSearcher.compareAllTariffs S today order tariffs).2,
        x.cost ∈ successfulCosts
          (CostCalculator.calculateWithAllTariffs S today order tariffs).2 tariffs :=
      fun x hx =>
        (OptimalSearcher.mem_ranked_costs S hS today order tariffs x.cost).1
          ⟨x, hx, rfl⟩
    have hall : ∀ x ∈ (OptimalSearcher.compareAllTariffs S today order tariffs).2,
        Double.isZero x.cost = true := fun x hx => hzero _ (hmem x hx)
    cases ha : (OptimalSearcher.analyzeSavings S today order tariffs).2 with
    | none =>
      rw [OptimalSearcher.analyzeSavings_eq_none_iff] at ha
      rw [ha] at hy
      cases hy
    | some a =>
      obtain ⟨front, back, hfront, hback, heq⟩ :=
        OptimalSearcher.analyzeSavings_some S today order tariffs a ha
      have hfm := List.mem_of_mem_head? hfront
      have hbm := List.mem_of_getLast?_eq_some hback
      have hf := (Double.isZero_iff _).1 (hall front hfm)
      have hb := (Double.isZero_iff _).1 (hall back hbm)
      have hsum : ((OptimalSearcher.compareAllTariffs S today order tariffs).2.map
          (fun x => x.cost)).foldl Double.add (Double.fin 0) = Double.fin 0 := by
        apply Double.foldl_add_zero
        intro c2 hc2
        obtain ⟨x, hx, rfl⟩ := List.mem_map.1 hc2
        exact hall x hx
      have hlen : (OptimalSearcher.compareAllTariffs S today order tariffs).2.length
          ≠ 0 := by
        intro h0
        rw [List.length_eq_zero.1 h0] at hy
        cases hy
      have havg := Double.zero_div_ofNat _ hlen
      have hopt : a.optimalCost = front.cost := by rw [heq]
      have hmaxc : a.maximumCost = back.cost := by rw [heq]
      have hsav : a.savings = Double.sub back.cost front.cost := by rw [heq]
      have hper : a.savingsPercent
          = Double.mul (Double.div a.savings a.maximumCost) (Double.fin 100) := by
        rw [heq]
      have havgc : a.averageCost = Double.fin 0 := by
        rw [heq]
        show Double.div _ _ = _
        rw [hsum, havg]
      refine ⟨a, rfl, ?_, ?_, havgc, ?_, hper, ?_, ?_, ?_⟩
      · rw [hopt]; exact hall front hfm
      · rw [hmaxc]; exact hall back hbm
      · rw [hsav]
        rcases hf with hf | hf <;> rcases hb with hb | hb <;> rw [hf, hb] <;> decide!
      · rw [hsav, hmaxc]
        rcases hf with hf | hf <;> rcases hb with hb | hb <;> rw [hf, hb] <;> decide!
      · rw [hper, hsav, hmaxc]
        rcases hf with hf | hf <;> rcases hb with hb | hb <;> rw [hf, hb] <;> decide!
      · intro hplus
        have hf2 := hplus _ (hmem front hfm)
        have hb2 := hplus _ (hmem back hbm)
        have hsub : Double.sub (Double.fin 0) (Double.fin 0) = Double.fin 0 := by
          decide!
        refine ⟨by rw [hopt, hf2], by rw [hmaxc, hb2], by rw [hsav, hf2, hb2, hsub], ?_⟩
        rw [hper, hsav, hmaxc, hf2, hb2, hsub]
  · intro a m ha hnonneg hmax hm hmd
    have hnan : ∀ c ∈ successfulCosts
        (CostCalculator.calculateWithAllTariffs S today order tariffs).2 tariffs,
        c ≠ Double.nan := by
      intro c hc hcn
      have := hnonneg c hc
      rw [hcn] at this
      simp [Double.le, Double.lt, Double.eq] at this
    obtain ⟨front, back, hfront, hback, heq⟩ :=
      OptimalSearcher.analyzeSavings_some S today order tariffs a ha
    have hfmem := List.mem_of_mem_head? hfront
    have hle := ((OptimalSearcher.ranked_bounds S hS today order tariffs hnan front
      back hfront hback) front hfmem).2.2
    have hge := hnonneg _
      ((OptimalSearcher.mem_ranked_costs S hS today order tariffs front.cost).1
        ⟨front, hfmem, rfl⟩)
    have hbm : back.cost = Double.fin m := by
      rw [heq] at hmax
      exact hmax
    rw [hbm] at hle
    have hpercent : a.savingsPercent = Double.mul
        (Double.div (Double.sub (Double.fin m) front.cost) (Double.fin m))
        (Double.fin 100) := by
      rw [heq]
      show Double.mul (Double.div (Double.sub _ _) _) _ = _
      rw [hbm]
    rw [hpercent]
    cases hfc : front.cost with
    | nan => simp [hfc, Double.le, Double.lt, Double.eq] at hge
    | negInf => simp [hfc, Double.le, Double.lt, Double.eq] at hge
    | posInf => simp [hfc, Double.le, Double.lt, Double.eq] at hle
    | negZero =>
      have hsub : Double.sub (Double.fin m) Double.negZero = Double.ofRat (m - 0) := by
        simp [Double.sub, Double.neg, Double.add]
      rw [hsub]
      exact Double.savingsPercent_between m 0 hm hmd le_rfl hm.le
    | fin x =>
      rw [hfc] at hle hge
      have hx0 : 0 ≤ x := by
        simp only [Double.le, Double.lt, Double.eq, Bool.or_eq_true,
          decide_eq_true_eq] at hge
        rcases hge with h | h
        · exact h.le
        · exact h.le
      have hxm : x ≤ m := by
        simp only [Double.le, Double.lt, Double.eq, Bool.or_eq_true,
          decide_eq_true_eq] at hle
        rcases hle with h | h
        · exact h.le
        · exact h.le
      rw [Double.sub_fin]
      exact Double.savingsPercent_between m x hm hmd hx0 hxm

/-- Instances: two tariffs of cost 0 give the result with all costs 0 and the
percentage NaN; the tariffs of `OptimalSearcherTest` give 50 percent. With the
costs -5 and `-0.0` the maximum is `-0.0` and the division by it gives the
percentage negative infinity. -/
theorem analyzeSavings_division_witness :
    (∃ a, (OptimalSearcher.analyzeSavings insertionStdSort Examples.today
        Examples.searchOrder [Examples.freeTariff, Examples.otherFreeTariff]).2
        = some a ∧
      a.optimalCost = Double.fin 0 ∧ a.maximumCost = Double.fin 0 ∧
      a.averageCost = Double.fin 0 ∧ a.savings = Double.fin 0 ∧
      a.savingsPercent
        = Double.mul (Double.div (Double.fin 0) (Double.fin 0)) (Double.fin 100) ∧
      a.savingsPercent = Double.nan) ∧
    (∃ p : ℚ, Double.fin 50 = Double.fin p ∧ 0 ≤ p ∧ p ≤ 100) ∧
    (OptimalSearcher.analyzeSavings insertionStdSort Examples.today
        Examples.searchOrder
        [Examples.negativeTariff, Examples.negativeZeroTariff]).2.map
        (fun a => (a.maximumCost, a.savingsPercent))
      = some (Double.negZero, Double.negInf) := by
  have hcosts : successfulCosts
      (CostCalculator.calculateWithAllTariffs insertionStdSort Examples.today
        Examples.searchOrder [Examples.freeTariff, Examples.otherFreeTariff]).2
      [Examples.freeTariff, Examples.otherFreeTariff]
      = [Double.fin 0, Double.fin 0] := by decide!
  have hthree : successfulCosts
      (CostCalculator.calculateWithAllTariffs insertionStdSort Examples.today
        Examples.searchOrder Examples.threeTariffs).2 Examples.threeTariffs
      = [Double.fin 1000, Double.fin 1500, Double.fin 2000] := by decide!
  have hv : (OptimalSearcher.analyzeSavings insertionStdSort Examples.today
      Examples.searchOrder Examples.threeTariffs).2
      = some { optimalCost := Double.fin 1000, maximumCost := Double.fin 2000,
               averageCost := Double.fin 1500, savings := Double.fin 1000,
               savingsPercent := Double.fin 50, optimalTariffId := 1,
               expensiveTariffId := 3 } := by decide!
  refine ⟨?_, ?_, by decide!⟩
  · obtain ⟨a, ha, -, -, havg, -, -, -, hnan, hplus⟩ :=
      (analyzeSavings_division insertionStdSort insertionStdSort_isStdSort
        Examples.today Examples.searchOrder
        [Examples.freeTariff, Examples.otherFreeTariff]).1
        ⟨Examples.freeTariff, by simp, by decide!⟩
        (by rw [hcosts]; decide!)
    obtain ⟨h1, h2, h3, h4⟩ := hplus (by rw [hcosts]; decide)
    exact ⟨a, ha, h1, h2, havg, h3, h4, hnan⟩
  · refine (analyzeSavings_division insertionStdSort insertionStdSort_isStdSort
      Examples.today Examples.searchOrder Examples.threeTariffs).2 _ 2000 hv ?_ rfl
      (by norm_num) (by decide!)
    rw [hthree]
    decide!

end TariffSystem
